import Mathlib

/-! # soulmate-server: a shallow embedding of the store and the route handlers

The persistent store is a record of document lists, one list per mongoose
model.  Every route handler is a function from the store (and the request) to
the store afterwards and the reply that was sent.

Conventions of the embedding.

* A JSON field that may be missing from a request body is an `Option`; the
  values that are present are taken to have the type the schema declares
  (`Number` is `Int`, so fractions are left out; where the code adds numbers,
  the sum is rounded as a JavaScript double, see `jsAddOne`).
* `required: true`, `enum`, `default` and `unique: true` are read off the
  schemas under `src/models`.  A required `String` path refuses the empty
  string as well as a missing value.
* A query filter whose value is `undefined` is sent as `null` and therefore
  matches no document on a path that every stored document carries.
* `_id` values are natural numbers; the `_id` of a new document is supplied
  by the caller of the handler, as mongoose generates it outside the store.
  The `:id` of `PATCH /admin/premium-request/approve/:id` is a `PathId`, which
  may also be a string that is no ObjectId.
* A store call is answered unless validation or a unique index refuses it.
  The approval of a PremiumRequest awaits three writes one after the other
  without a transaction; there the store may reject any one of them
  (`WriteFault`), and the writes made before stay.
* `createdAt` and `updatedAt` are not part of the model.
* A handler written without `try` ends in `uncaught` when a call it awaits is
  rejected or a statement of its body throws; a handler written with `try`
  answers with the reply of its `catch` block.
* Requests are taken one after the other, except in the section on concurrent
  executions, where the atomic steps of a handler are the stretches between
  its `await`s.
-/

namespace Soulmate

/-! ## Documents -/

abbrev ObjectId := Nat

/-- The `role` enum of `userSchema`. -/
inductive Role where
  | user
  | admin
  deriving DecidableEq, Repr

/-- The `status` enum shared by `premiumRequestSchema` and `contactRequestSchema`. -/
inductive ReqStatus where
  | pending
  | approved
  deriving DecidableEq, Repr

/-- A stored document of `models/User.js`. -/
structure User where
  _id : ObjectId
  name : String
  email : String
  photoURL : Option String
  role : Role
  isPremium : Bool
  deriving DecidableEq, Repr

/-- A stored document of `models/Biodata.js`. -/
structure Biodata where
  _id : ObjectId
  biodataId : Int
  biodataType : String
  name : String
  profileImage : String
  dateOfBirth : String
  height : String
  weight : String
  age : Int
  occupation : String
  race : String
  fathersName : String
  mothersName : String
  permanentDivision : String
  presentDivision : String
  expectedPartnerAge : Option Int
  expectedPartnerHeight : Option String
  expectedPartnerWeight : Option String
  contactEmail : String
  mobileNumber : String
  userEmail : String
  isPremium : Bool
  status : String
  deriving DecidableEq, Repr

/-- A stored document of `models/Favourite.js`. -/
structure Favourite where
  _id : ObjectId
  userEmail : String
  biodataId : Int
  name : Option String
  permanentAddress : Option String
  occupation : Option String
  deriving DecidableEq, Repr

/-- A stored document of `models/PremiumRequest.js`. -/
structure PremiumRequest where
  _id : ObjectId
  biodataId : Int
  userEmail : String
  userName : String
  status : ReqStatus
  deriving DecidableEq, Repr

/-- A stored document of `models/ContactRequest.js`. -/
structure ContactRequest where
  _id : ObjectId
  biodataId : Int
  requesterEmail : String
  status : ReqStatus
  transactionId : Option String
  amount : Int
  biodataName : Option String
  biodataEmail : Option String
  biodataPhone : Option String
  deriving DecidableEq, Repr

/-- The persistent store: one collection per model. -/
structure Store where
  users : List User
  biodatas : List Biodata
  favourites : List Favourite
  premiumRequests : List PremiumRequest
  contactRequests : List ContactRequest
  deriving DecidableEq, Repr

/-- The store before any request. -/
def Store.empty : Store :=
  { users := [], biodatas := [], favourites := [], premiumRequests := [], contactRequests := [] }

/-! ## Replies -/

/-- What a thrown error carries: a schema validation failure or a duplicate
key on a unique index, both raised by a store call; a `ReferenceError` raised
by the handler body itself; a failure of the payment adapter; the `CastError`
of a path id that is no ObjectId; a store call that the store rejects
(connection lost, timeout). -/
inductive StoreError where
  | validation
  | duplicateKey
  | referenceError
  | adapterFailure
  | castError
  | unavailable
  deriving DecidableEq, Repr

/-- The JSON reply of a handler: the HTTP status, the `message` field and the
optional `biodata` and `error` fields of the body. -/
structure Reply where
  status : Nat
  message : String
  biodata : Option Biodata
  error : Option StoreError
  deriving DecidableEq, Repr

/-- The reply `res.status(code).json({message})`. -/
def Reply.msg (code : Nat) (message : String) : Reply :=
  { status := code, message := message, biodata := none, error := none }

/-- How a handler invocation ends: a reply was sent, or an error escaped the
handler (a rejected promise that no `catch` of the handler receives). -/
inductive Outcome where
  | sent (r : Reply)
  | uncaught (e : StoreError)
  deriving DecidableEq, Repr

/-! ## Generic store helpers -/

/-- Splits a list at the first element satisfying `p`: the elements before it,
the element, the elements after it. -/
def splitFirst {α : Type} (p : α → Bool) : List α → Option (List α × α × List α)
  | [] => none
  | x :: xs =>
    if p x then some ([], x, xs)
    else match splitFirst p xs with
      | none => none
      | some (pre, y, post) => some (x :: pre, y, post)

/-- The required-string check of mongoose: the value is not the empty string. -/
def nonEmpty (s : String) : Bool := s != ""

/-- The effect of `findOneAndUpdate` / `findByIdAndUpdate` on a collection:
the first document satisfying `p` is changed by `f`; nothing happens when no
document satisfies `p`. -/
def updateFirst {α : Type} (p : α → Bool) (f : α → α) : List α → List α
  | [] => []
  | x :: xs => if p x then f x :: xs else x :: updateFirst p f xs

/-! ## POST /biodatas -/

/-- The request body of `POST /biodatas`, restricted to the paths of
`biodataSchema` (mongoose drops every other key). -/
structure BiodataBody where
  biodataId : Option Int
  biodataType : Option String
  name : Option String
  profileImage : Option String
  dateOfBirth : Option String
  height : Option String
  weight : Option String
  age : Option Int
  occupation : Option String
  race : Option String
  fathersName : Option String
  mothersName : Option String
  permanentDivision : Option String
  presentDivision : Option String
  expectedPartnerAge : Option Int
  expectedPartnerHeight : Option String
  expectedPartnerWeight : Option String
  contactEmail : Option String
  mobileNumber : Option String
  userEmail : Option String
  isPremium : Option Bool
  status : Option String
  deriving DecidableEq, Repr

/-- The body with no key at all. -/
def BiodataBody.none : BiodataBody :=
  { biodataId := Option.none, biodataType := Option.none, name := Option.none,
    profileImage := Option.none, dateOfBirth := Option.none, height := Option.none,
    weight := Option.none, age := Option.none, occupation := Option.none,
    race := Option.none, fathersName := Option.none, mothersName := Option.none,
    permanentDivision := Option.none, presentDivision := Option.none,
    expectedPartnerAge := Option.none, expectedPartnerHeight := Option.none,
    expectedPartnerWeight := Option.none, contactEmail := Option.none,
    mobileNumber := Option.none, userEmail := Option.none, isPremium := Option.none,
    status := Option.none }

/-- `Object.assign(biodata, req.body)`: every key of the body overwrites the
document's value. -/
def objectAssign (b : Biodata) (body : BiodataBody) : Biodata :=
  { _id := b._id
    biodataId := body.biodataId.getD b.biodataId
    biodataType := body.biodataType.getD b.biodataType
    name := body.name.getD b.name
    profileImage := body.profileImage.getD b.profileImage
    dateOfBirth := body.dateOfBirth.getD b.dateOfBirth
    height := body.height.getD b.height
    weight := body.weight.getD b.weight
    age := body.age.getD b.age
    occupation := body.occupation.getD b.occupation
    race := body.race.getD b.race
    fathersName := body.fathersName.getD b.fathersName
    mothersName := body.mothersName.getD b.mothersName
    permanentDivision := body.permanentDivision.getD b.permanentDivision
    presentDivision := body.presentDivision.getD b.presentDivision
    expectedPartnerAge := body.expectedPartnerAge.orElse (fun _ => b.expectedPartnerAge)
    expectedPartnerHeight := body.expectedPartnerHeight.orElse (fun _ => b.expectedPartnerHeight)
    expectedPartnerWeight := body.expectedPartnerWeight.orElse (fun _ => b.expectedPartnerWeight)
    contactEmail := body.contactEmail.getD b.contactEmail
    mobileNumber := body.mobileNumber.getD b.mobileNumber
    userEmail := body.userEmail.getD b.userEmail
    isPremium := body.isPremium.getD b.isPremium
    status := body.status.getD b.status }

/-- Schema validation of a Biodata document: the `enum` of `biodataType` and
the required string paths. -/
def Biodata.valid (b : Biodata) : Bool :=
  (b.biodataType == "Male" || b.biodataType == "Female") &&
  nonEmpty b.name && nonEmpty b.profileImage && nonEmpty b.dateOfBirth &&
  nonEmpty b.height && nonEmpty b.weight && nonEmpty b.occupation &&
  nonEmpty b.race && nonEmpty b.fathersName && nonEmpty b.mothersName &&
  nonEmpty b.permanentDivision && nonEmpty b.presentDivision &&
  nonEmpty b.contactEmail && nonEmpty b.mobileNumber && nonEmpty b.userEmail

/-- `Biodata.findOne().sort({biodataId: -1})`: a document whose
`biodataId` is the largest in the collection. -/
def lastBiodata : List Biodata → Option Biodata
  | [] => none
  | b :: bs =>
    match lastBiodata bs with
    | none => some b
    | some m => if b.biodataId < m.biodataId then some m else some b

/-- The number of binary digits of `a`; `fuel` bounds the recursion and `a`
itself is enough of it. -/
def bitLength : Nat → Nat → Nat
  | 0, _ => 0
  | fuel + 1, a => if a = 0 then 0 else bitLength fuel (a / 2) + 1

/-- The double nearest to the integer `n`, ties to the even significand: a
JavaScript number keeps 53 binary digits, so every integer of magnitude up to
2^53 = 9007199254740992 is kept and a larger one is rounded to a multiple of
its unit in the last place. -/
def roundDouble (n : Int) : Int :=
  let a := n.natAbs
  if a ≤ 9007199254740992 then n
  else
    let e := bitLength a a - 53
    let q := a / 2 ^ e
    let r := a % 2 ^ e
    let half := 2 ^ (e - 1)
    let q' := if half < r ∨ (r = half ∧ q % 2 = 1) then q + 1 else q
    Int.sign n * ((q' * 2 ^ e : Nat) : Int)

/-- JavaScript `n + 1` on a number `n` that holds an integer. -/
def jsAddOne (n : Int) : Int := roundDouble (n + 1)

/-- The id allocated on the create path: `lastBiodata ? lastBiodata.biodataId + 1 : 1`. -/
def newBiodataId (bs : List Biodata) : Int :=
  match lastBiodata bs with
  | some m => jsAddOne m.biodataId
  | none => 1

/-- The required paths that `POST /biodatas` takes from the body on the
create path all have a value (`biodataId` and `contactEmail` are set by the
handler). -/
def BiodataBody.complete (body : BiodataBody) : Bool :=
  body.biodataType.isSome && body.name.isSome && body.profileImage.isSome &&
  body.dateOfBirth.isSome && body.height.isSome && body.weight.isSome &&
  body.age.isSome && body.occupation.isSome && body.race.isSome &&
  body.fathersName.isSome && body.mothersName.isSome &&
  body.permanentDivision.isSome && body.presentDivision.isSome &&
  body.mobileNumber.isSome && body.userEmail.isSome

/-- `new Biodata({...req.body, biodataId: newId, contactEmail: userEmail})`:
the body is spread, then `biodataId` and `contactEmail` are overridden and the
schema defaults of `isPremium` and `status` fill what the body left out.  The
result is `none` when a required path has no value. -/
def newBiodata (oid : ObjectId) (newId : Int) (body : BiodataBody) : Option Biodata :=
  if body.complete then
    some
      { _id := oid
        biodataId := newId
        biodataType := body.biodataType.getD ""
        name := body.name.getD ""
        profileImage := body.profileImage.getD ""
        dateOfBirth := body.dateOfBirth.getD ""
        height := body.height.getD ""
        weight := body.weight.getD ""
        age := body.age.getD 0
        occupation := body.occupation.getD ""
        race := body.race.getD ""
        fathersName := body.fathersName.getD ""
        mothersName := body.mothersName.getD ""
        permanentDivision := body.permanentDivision.getD ""
        presentDivision := body.presentDivision.getD ""
        expectedPartnerAge := body.expectedPartnerAge
        expectedPartnerHeight := body.expectedPartnerHeight
        expectedPartnerWeight := body.expectedPartnerWeight
        contactEmail := body.userEmail.getD ""
        mobileNumber := body.mobileNumber.getD ""
        userEmail := body.userEmail.getD ""
        isPremium := body.isPremium.getD false
        status := body.status.getD "active" }
  else none

/-- `Biodata.findOne({userEmail})`: the first document of that owner, kept
with the documents before and after it so that `save()` can write it back in
place. -/
def findOwned (bs : List Biodata) (userEmail : Option String) :
    Option (List Biodata × Biodata × List Biodata) :=
  match userEmail with
  | none => none
  | some e => splitFirst (fun b => b.userEmail == e) bs

/-- The reply of the `catch` block of `POST /biodatas`. -/
def biodataError (e : StoreError) : Reply :=
  { status := 500, message := "Error saving biodata", biodata := none, error := some e }

/-- Handler `router.post("/")` of `biodataRoutes.js` (lines 281-332), after
`verifyToken`.  `oid` is the `_id` mongoose gives to a document built on the
create path.  `save()` validates the document against `biodataSchema` and the
store refuses a second document with the same `biodataId` or `userEmail`
(`unique: true`); either failure is caught and answered 500. -/
def postBiodata (s : Store) (oid : ObjectId) (body : BiodataBody) : Store × Reply :=
  match findOwned s.biodatas body.userEmail with
  | some (pre, biodata, post) =>
    -- Update: `Object.assign(biodata, req.body); await biodata.save()`
    let biodata' := objectAssign biodata body
    if !biodata'.valid then (s, biodataError StoreError.validation)
    -- unique index on `biodataId`, hit only when the key changes
    else if biodata'.biodataId != biodata.biodataId &&
        (pre ++ post).any (fun o => o.biodataId == biodata'.biodataId) then
      (s, biodataError StoreError.duplicateKey)
    else
      ({ s with biodatas := pre ++ biodata' :: post },
        { status := 200, message := "Biodata Updated Successfully",
          biodata := some biodata', error := none })
  | none =>
    -- Create New - Generate ID
    match newBiodata oid (newBiodataId s.biodatas) body with
    | none => (s, biodataError StoreError.validation)
    | some nb =>
      if !nb.valid then (s, biodataError StoreError.validation)
      -- unique indexes on `biodataId` and `userEmail`
      else if s.biodatas.any
          (fun o => o.biodataId == nb.biodataId || o.userEmail == nb.userEmail) then
        (s, biodataError StoreError.duplicateKey)
      else
        ({ s with biodatas := s.biodatas ++ [nb] },
          { status := 200, message := "Biodata Created Successfully",
            biodata := some nb, error := none })

/-! ## POST /biodatas/make-premium -/

/-- The request body of `POST /biodatas/make-premium`. -/
structure PremiumBody where
  biodataId : Option Int
  userEmail : Option String
  userName : Option String
  deriving DecidableEq, Repr

/-- `PremiumRequest.findOne({biodataId, status: "pending"})`. -/
def findPendingPremium (rs : List PremiumRequest) (biodataId : Option Int) :
    Option PremiumRequest :=
  match biodataId with
  | none => none
  | some id => rs.find? (fun r => r.biodataId == id && r.status == ReqStatus.pending)

/-- Schema validation of a PremiumRequest document: the required string paths. -/
def PremiumRequest.valid (r : PremiumRequest) : Bool :=
  nonEmpty r.userEmail && nonEmpty r.userName

/-- The document of `PremiumRequest.create({biodataId, userEmail, userName})`,
with the schema default `status: "pending"`; `none` when a required path has
no value. -/
def newPremiumRequest (oid : ObjectId) (body : PremiumBody) : Option PremiumRequest :=
  match body.biodataId, body.userEmail, body.userName with
  | some id, some e, some n =>
    some { _id := oid, biodataId := id, userEmail := e, userName := n,
           status := ReqStatus.pending }
  | _, _, _ => none

/-- Handler `router.post("/make-premium")` of `biodataRoutes.js` (lines
376-392), after `verifyToken`.  A rejected `PremiumRequest.create` is caught
and answered 500. -/
def makePremium (s : Store) (oid : ObjectId) (body : PremiumBody) : Store × Reply :=
  match findPendingPremium s.premiumRequests body.biodataId with
  | some _ => (s, Reply.msg 400 "Request already pending")
  | none =>
    match newPremiumRequest oid body with
    | none => (s, Reply.msg 500 "Server Error")
    | some r =>
      if !r.valid then (s, Reply.msg 500 "Server Error")
      else
        ({ s with premiumRequests := s.premiumRequests ++ [r] },
          Reply.msg 200 "Premium request sent to admin")

/-! ## PATCH /admin/premium-request/approve/:id -/

/-- The path parameter `:id` as `findById` receives it: a string that
mongoose casts to an ObjectId, or a string that it cannot cast. -/
inductive PathId where
  | oid (id : ObjectId)
  | malformed
  deriving DecidableEq, Repr

/-- Which of the three awaited writes of the approval the store rejects, if
any: `request.save()` (line 200), `User.findOneAndUpdate` (lines 203-206) or
`Biodata.findOneAndUpdate` (lines 208-211). -/
inductive WriteFault where
  | none
  | requestSave
  | userUpdate
  | biodataUpdate
  deriving DecidableEq, Repr

/-- Handler `router.patch("/premium-request/approve/:id")` of `adminRoutes.js`
(lines 191-215), after `verifyToken` and `verifyAdmin`.  The handler has no
`try` and no transaction: `findById` rejects a path id that is no ObjectId,
`request.save()` rejects a document that fails validation, and each of the
three writes is awaited on its own, so a rejected write leaves the earlier
ones in the store.  The two `findOneAndUpdate` calls change the first matching
document, if any, and their results are not looked at. -/
def approvePremium (s : Store) (id : PathId) (fault : WriteFault) : Store × Outcome :=
  match id with
  | PathId.malformed => (s, Outcome.uncaught StoreError.castError)
  | PathId.oid id =>
    -- `PremiumRequest.findById(req.params.id)`
    match splitFirst (fun r => r._id == id) s.premiumRequests with
    | none => (s, Outcome.sent (Reply.msg 404 "Request not found"))
    | some (pre, request, post) =>
      let request' := { request with status := ReqStatus.approved }
      if !request'.valid then (s, Outcome.uncaught StoreError.validation)
      else if fault = WriteFault.requestSave then (s, Outcome.uncaught StoreError.unavailable)
      else
        let s1 := { s with premiumRequests := pre ++ request' :: post }
        if fault = WriteFault.userUpdate then (s1, Outcome.uncaught StoreError.unavailable)
        else
          let s2 := { s1 with
            users := updateFirst (fun u => u.email == request.userEmail)
              (fun u => { u with isPremium := true }) s1.users }
          if fault = WriteFault.biodataUpdate then
            (s2, Outcome.uncaught StoreError.unavailable)
          else
            ({ s2 with
                biodatas := updateFirst (fun b => b.biodataId == request.biodataId)
                  (fun b => { b with isPremium := true }) s2.biodatas },
              Outcome.sent (Reply.msg 200 "Premium Approved"))

/-! ## GET /admin/stats -/

/-- `Model.countDocuments(filter)`. -/
def countDocuments {α : Type} (p : α → Bool) : List α → Nat
  | [] => 0
  | x :: xs => if p x then countDocuments p xs + 1 else countDocuments p xs

/-- The JSON body of `GET /admin/stats`. -/
structure Stats where
  totalBiodata : Nat
  maleBiodata : Nat
  femaleBiodata : Nat
  premiumBiodata : Nat
  revenue : Nat
  deriving DecidableEq, Repr

/-- Handler `router.get("/stats")` of `adminRoutes.js` (lines 31-57), after
`verifyToken` and `verifyAdmin`. -/
def adminStats (s : Store) : Stats :=
  let totalBiodata := countDocuments (fun _ => true) s.biodatas
  let maleBiodata := countDocuments (fun b => b.biodataType == "Male") s.biodatas
  let femaleBiodata := countDocuments (fun b => b.biodataType == "Female") s.biodatas
  let premiumBiodata := countDocuments (fun b => b.isPremium == true) s.biodatas
  let approvedContacts :=
    countDocuments (fun c => c.status == ReqStatus.approved) s.contactRequests
  let revenue := approvedContacts * 5
  { totalBiodata := totalBiodata, maleBiodata := maleBiodata,
    femaleBiodata := femaleBiodata, premiumBiodata := premiumBiodata,
    revenue := revenue }

/-! ## POST /auth/jwt -/

/-- The request body of `POST /auth/jwt`. -/
structure JwtBody where
  email : Option String
  name : Option String
  photoURL : Option String
  deriving DecidableEq, Repr

/-- How `POST /auth/jwt` ends: `res.send({token})`, or an error escaped
the handler, which has no `try`. -/
inductive JwtOutcome where
  | token (t : String)
  | uncaught (e : StoreError)
  deriving DecidableEq, Repr

/-- `User.findOne({email})`. -/
def findUserByEmail (us : List User) (email : Option String) : Option User :=
  match email with
  | none => none
  | some e => us.find? (fun u => u.email == e)

/-- Schema validation of a User document: the required string paths. -/
def User.valid (u : User) : Bool :=
  nonEmpty u.name && nonEmpty u.email

/-- The document of `User.create({email, name, photoURL})` with the schema
defaults `role: "user"` and `isPremium: false`; `none` when a required path
has no value. -/
def newUser (oid : ObjectId) (body : JwtBody) : Option User :=
  match body.email, body.name with
  | some e, some n =>
    some { _id := oid, name := n, email := e, photoURL := body.photoURL,
           role := Role.user, isPremium := false }
  | _, _ => none

/-- Handler `router.post("/jwt")` of `authRoutes.js` (lines 38-56).  `sign`
stands for `jwt.sign({email}, secret, {expiresIn: "1h"})`.  The handler has
no `try`, so a rejected `User.create` escapes it. -/
def postJwt (sign : Option String → String) (s : Store) (oid : ObjectId) (body : JwtBody) :
    Store × JwtOutcome :=
  match findUserByEmail s.users body.email with
  | some _ => (s, JwtOutcome.token (sign body.email))
  | none =>
    match newUser oid body with
    | none => (s, JwtOutcome.uncaught StoreError.validation)
    | some u =>
      if !u.valid then (s, JwtOutcome.uncaught StoreError.validation)
      else if s.users.any (fun o => o.email == u.email) then
        (s, JwtOutcome.uncaught StoreError.duplicateKey)
      else ({ s with users := s.users ++ [u] }, JwtOutcome.token (sign body.email))

/-! ## POST /payment/save-info -/

/-- The request body of `POST /payment/save-info`. -/
structure SaveInfoBody where
  biodataId : Option Int
  userEmail : Option String
  transactionId : Option String
  deriving DecidableEq, Repr

/-- `Biodata.findOne({biodataId})`. -/
def findBiodataById (bs : List Biodata) (biodataId : Option Int) : Option Biodata :=
  match biodataId with
  | none => none
  | some id => bs.find? (fun b => b.biodataId == id)

/-- Schema validation of a ContactRequest document: the required string path. -/
def ContactRequest.valid (c : ContactRequest) : Bool :=
  nonEmpty c.requesterEmail

/-- The document `new ContactRequest(...)` of the handler, with the schema
default `amount: 5`; `none` when a required path has no value. -/
def newContactRequest (oid : ObjectId) (body : SaveInfoBody) (biodata : Biodata) :
    Option ContactRequest :=
  match body.biodataId, body.userEmail with
  | some id, some e =>
    some { _id := oid, biodataId := id, requesterEmail := e,
           status := ReqStatus.pending, transactionId := body.transactionId,
           amount := 5, biodataName := some biodata.name,
           biodataEmail := some biodata.contactEmail,
           biodataPhone := some biodata.mobileNumber }
  | _, _ => none

/-- Handler `router.post("/save-info")` of `paymentRoutes.js` (lines 83-106),
after `verifyToken`.  A rejected `newRequest.save()` is caught and answered
500. -/
def saveInfo (s : Store) (oid : ObjectId) (body : SaveInfoBody) : Store × Reply :=
  match findBiodataById s.biodatas body.biodataId with
  | none => (s, Reply.msg 404 "Biodata not found")
  | some biodata =>
    match newContactRequest oid body biodata with
    | none => (s, Reply.msg 500 "Error saving payment info")
    | some c =>
      if !c.valid then (s, Reply.msg 500 "Error saving payment info")
      else
        ({ s with contactRequests := s.contactRequests ++ [c] },
          Reply.msg 200 "Payment successful, request pending approval")

/-! ## PATCH /admin/contact-request/approve/:id -/

/-- Handler `router.patch("/contact-request/approve/:id")` of `adminRoutes.js`
(lines 258-268), after `verifyToken` and `verifyAdmin`: `findByIdAndUpdate`,
whose result is not looked at, then the success reply. -/
def approveContact (s : Store) (id : ObjectId) : Store × Outcome :=
  ({ s with
      contactRequests := updateFirst (fun c => c._id == id)
        (fun c => { c with status := ReqStatus.approved }) s.contactRequests },
    Outcome.sent (Reply.msg 200 "Contact Request Approved"))

/-! ## verifyToken -/

/-- The decoded payload of a token, as far as the handlers read it. -/
structure Claims where
  email : Option String
  deriving DecidableEq, Repr

/-- How a middleware ends: it replied itself, or it called `next()` once with
`req.user` set. -/
inductive Gate where
  | reply (r : Reply)
  | next (user : Claims)
  deriving DecidableEq, Repr

/-- The fields of a character list separated by `sep`; an empty field stands
between two adjacent separators and after a trailing one. -/
def splitChars (sep : Char) : List Char → List (List Char)
  | [] => [[]]
  | c :: cs =>
    if c = sep then [] :: splitChars sep cs
    else
      match splitChars sep cs with
      | [] => [[c]]
      | w :: ws => (c :: w) :: ws

/-- JavaScript `h.split(" ")`. -/
def split (h : String) : List String :=
  (splitChars ' ' h.data).map String.mk

/-- `req.headers.authorization?.split(" ")[1]`. -/
def bearerToken (authorization : Option String) : Option String :=
  match authorization with
  | none => none
  | some h => (split h)[1]?

/-- Middleware `verifyToken` of `authMiddleware.js` (lines 9-26).  `verify`
stands for `jwt.verify(token, secret)`: `none` when it throws. -/
def verifyToken (verify : String → Option Claims) (authorization : Option String) : Gate :=
  match bearerToken authorization with
  | none => Gate.reply (Reply.msg 401 "Unauthorized access")
  | some token =>
    -- `!token` also holds for the empty string
    if token == "" then Gate.reply (Reply.msg 401 "Unauthorized access")
    else
      match verify token with
      | some decoded => Gate.next decoded
      | none => Gate.reply (Reply.msg 403 "Forbidden access")

/-! ## verifyAdmin -/

/-- Middleware `verifyAdmin` of `authMiddleware.js` (lines 28-36):
`User.findOne({email})` with the email of `req.user`, then 403 unless the
role of the document found is `admin`. -/
def verifyAdmin (s : Store) (user : Claims) : Gate :=
  match findUserByEmail s.users user.email with
  | some u =>
    if u.role = Role.admin then Gate.next user
    else Gate.reply (Reply.msg 403 "Forbidden: Admins only")
  | none => Gate.reply (Reply.msg 403 "Forbidden: Admins only")

/-- An admin route `router.x(path, verifyToken, verifyAdmin, handler)` from
the point where `verifyToken` has set `req.user`: the handler runs only when
`verifyAdmin` calls `next()`. -/
def adminRoute (s : Store) (user : Claims) (handler : Store → Store × Outcome) :
    Store × Outcome :=
  match verifyAdmin s user with
  | Gate.next _ => handler s
  | Gate.reply r => (s, Outcome.sent r)

/-! ## PATCH /admin/users/admin/:id and /admin/users/premium/:id -/

/-- Handler `router.patch("/users/admin/:id")` of `adminRoutes.js` (lines
109-112), after `verifyToken` and `verifyAdmin`. -/
def makeAdmin (s : Store) (id : ObjectId) : Store × Outcome :=
  ({ s with
      users := updateFirst (fun u => u._id == id)
        (fun u => { u with role := Role.admin }) s.users },
    Outcome.sent (Reply.msg 200 "User made admin"))

/-- Handler `router.patch("/users/premium/:id")` of `adminRoutes.js` (lines
134-150), after `verifyToken` and `verifyAdmin`: the User is flagged, read
back, and the Biodata of its email is flagged when the User exists. -/
def makeUserPremium (s : Store) (id : ObjectId) : Store × Outcome :=
  let users := updateFirst (fun u => u._id == id)
    (fun u => { u with isPremium := true }) s.users
  match users.find? (fun u => u._id == id) with
  | some user =>
    ({ s with
        users := users
        biodatas := updateFirst (fun b => b.userEmail == user.email)
          (fun b => { b with isPremium := true }) s.biodatas },
      Outcome.sent (Reply.msg 200 "User made premium"))
  | none => ({ s with users := users }, Outcome.sent (Reply.msg 200 "User made premium"))

/-! ## userRoutes.js -/

/-- The names a handler of `userRoutes.js` may refer to. -/
inductive Binding where
  | express
  | verifyToken
  | router
  | User
  | Favourite
  | ContactRequest
  deriving DecidableEq, Repr

/-- The bindings in scope of `userRoutes.js`: the two imports of lines 1-2
(`express`, `verifyToken`) and `router` of line 3.  No model is imported. -/
def userRoutesScope : List Binding :=
  [Binding.express, Binding.verifyToken, Binding.router]

/-- A handler of `userRoutes.js` whose first statement refers to `needs`: the
reference throws a `ReferenceError` when `needs` is not in scope, before any
store call, and no handler of the file has a `try`. -/
def inUserRoutes (needs : Binding) (s : Store) (body : Store × Outcome) : Store × Outcome :=
  if userRoutesScope.contains needs then body
  else (s, Outcome.uncaught StoreError.referenceError)

/-- The request body of `POST /users/favourites`. -/
structure FavouriteBody where
  userEmail : Option String
  biodataId : Option Int
  name : Option String
  permanentAddress : Option String
  occupation : Option String
  deriving DecidableEq, Repr

/-- `Favourite.findOne({userEmail, biodataId})`. -/
def findFavourite (fs : List Favourite) (userEmail : Option String)
    (biodataId : Option Int) : Option Favourite :=
  match userEmail, biodataId with
  | some e, some id => fs.find? (fun f => f.userEmail == e && f.biodataId == id)
  | _, _ => none

/-- Schema validation of a Favourite document: the required string path. -/
def Favourite.valid (f : Favourite) : Bool :=
  nonEmpty f.userEmail

/-- The document of `Favourite.create({userEmail, biodataId, name,
permanentAddress, occupation})`; `none` when a required path has no value. -/
def newFavourite (oid : ObjectId) (body : FavouriteBody) : Option Favourite :=
  match body.userEmail, body.biodataId with
  | some e, some id =>
    some { _id := oid, userEmail := e, biodataId := id, name := body.name,
           permanentAddress := body.permanentAddress, occupation := body.occupation }
  | _, _ => none

/-- The statements of `router.post("/favourites")` (lines 100-111), as they
would run with `Favourite` bound to the model. -/
def postFavouriteBody (s : Store) (oid : ObjectId) (body : FavouriteBody) : Store × Outcome :=
  match findFavourite s.favourites body.userEmail body.biodataId with
  | some _ => (s, Outcome.sent (Reply.msg 400 "Already in favourites"))
  | none =>
    match newFavourite oid body with
    | none => (s, Outcome.uncaught StoreError.validation)
    | some f =>
      if !f.valid then (s, Outcome.uncaught StoreError.validation)
      else
        ({ s with favourites := s.favourites ++ [f] },
          Outcome.sent (Reply.msg 200 "Added to favourites"))

/-- Handler `router.post("/favourites")` of `userRoutes.js` (lines 99-112),
after `verifyToken`. -/
def postFavourite (s : Store) (oid : ObjectId) (body : FavouriteBody) : Store × Outcome :=
  inUserRoutes Binding.Favourite s (postFavouriteBody s oid body)

/-- `Model.findByIdAndDelete(id)` on a collection: the first document
satisfying `p` is removed, if any. -/
def deleteFirst {α : Type} (p : α → Bool) : List α → List α
  | [] => []
  | x :: xs => if p x then xs else x :: deleteFirst p xs

/-- The statements of `router.delete("/favourites/:id")` (lines 135-136), as
they would run with `Favourite` bound to the model. -/
def deleteFavouriteBody (s : Store) (id : ObjectId) : Store × Outcome :=
  ({ s with favourites := deleteFirst (fun f => f._id == id) s.favourites },
    Outcome.sent (Reply.msg 200 "Removed from favourites"))

/-- Handler `router.delete("/favourites/:id")` of `userRoutes.js` (lines
134-137), after `verifyToken`. -/
def deleteFavourite (s : Store) (id : ObjectId) : Store × Outcome :=
  inUserRoutes Binding.Favourite s (deleteFavouriteBody s id)

/-- The statements of `router.delete("/contact-requests/:id")` (lines
195-196), as they would run with `ContactRequest` bound to the model. -/
def deleteContactRequestBody (s : Store) (id : ObjectId) : Store × Outcome :=
  ({ s with contactRequests := deleteFirst (fun c => c._id == id) s.contactRequests },
    Outcome.sent (Reply.msg 200 "Request deleted"))

/-- Handler `router.delete("/contact-requests/:id")` of `userRoutes.js` (lines
194-197), after `verifyToken`. -/
def deleteContactRequest (s : Store) (id : ObjectId) : Store × Outcome :=
  inUserRoutes Binding.ContactRequest s (deleteContactRequestBody s id)

/-! ## POST /payment/create-payment-intent -/

/-- How `POST /payment/create-payment-intent` ends: `res.send({clientSecret})`,
or an error escaped the handler, which has no `try`. -/
inductive PaymentOutcome where
  | clientSecret (secret : String)
  | uncaught (e : StoreError)
  deriving DecidableEq, Repr

/-- Handler `router.post("/create-payment-intent")` of `paymentRoutes.js`
(lines 44-57), after `verifyToken`.  `create` stands for
`stripe.paymentIntents.create` on the amount in cents: the client secret, or
`none` when the call is rejected. -/
def createPaymentIntent (create : Int → Option String) (price : Int) : PaymentOutcome :=
  let amount := price * 100
  match create amount with
  | some secret => PaymentOutcome.clientSecret secret
  | none => PaymentOutcome.uncaught StoreError.adapterFailure

/-! ## POST /biodatas behind verifyToken -/

/-- The route `router.post("/", verifyToken, handler)` of `biodataRoutes.js`:
the handler runs when `verifyToken` calls `next()`; `req.user` is not read by
the handler. -/
def biodataRoute (verify : String → Option Claims) (s : Store) (authorization : Option String)
    (oid : ObjectId) (body : BiodataBody) : Store × Reply :=
  match verifyToken verify authorization with
  | Gate.next _ => postBiodata s oid body
  | Gate.reply r => (s, r)

/-! ## GET /biodatas -/

/-- The query string of `GET /biodatas`.  A parameter given with an empty
value is falsy in the handler; for the numeric ones that case is `none`. -/
structure ListQuery where
  page : Option Int
  limit : Option Int
  type : Option String
  division : Option String
  ageMin : Option Int
  ageMax : Option Int
  sort : Option String
  deriving DecidableEq, Repr

/-- The mongo filter `query` of the handler (lines 98-105) applied to one
document: `if (type)`, `if (division)`, `if (ageMin)` and `if (ageMax)` add
their condition only for a non-empty value. -/
def matchesQuery (type division : Option String) (ageMin ageMax : Option Int)
    (b : Biodata) : Bool :=
  (match type with
    | some t => t == "" || b.biodataType == t
    | none => true) &&
  (match division with
    | some d => d == "" || b.permanentDivision == d
    | none => true) &&
  (match ageMin with
    | some lo => decide (lo ≤ b.age)
    | none => true) &&
  (match ageMax with
    | some hi => decide (b.age ≤ hi)
    | none => true)

/-- `.sort(sortOptions)` of lines 108-113: by `age` upwards for
`sort === "ascending"`, downwards for `sort === "descending"`, and the
collection order otherwise.  Documents of equal age keep their order. -/
def sortByAge (sort : Option String) (bs : List Biodata) : List Biodata :=
  if sort = some "ascending" then bs.insertionSort (fun x y => x.age ≤ y.age)
  else if sort = some "descending" then bs.insertionSort (fun x y => y.age ≤ x.age)
  else bs

/-- The JSON body `{data, meta: {total, page, limit}}`. -/
structure ListReply where
  data : List Biodata
  total : Nat
  page : Int
  limit : Int
  deriving DecidableEq, Repr

/-- How `GET /biodatas` ends: the list reply, or the 500 of the `catch` block. -/
inductive ListOutcome where
  | ok (r : ListReply)
  | serverError
  deriving DecidableEq, Repr

/-- Handler `router.get("/")` of `biodataRoutes.js` (lines 86-130).  The store
skips first and limits afterwards; it refuses a negative skip, reads a limit
of 0 as no limit and a negative limit by its absolute value. -/
def getBiodatas (s : Store) (q : ListQuery) : ListOutcome :=
  let page := q.page.getD 1
  let limit := q.limit.getD 20
  let found := sortByAge q.sort
    (s.biodatas.filter (matchesQuery q.type q.division q.ageMin q.ageMax))
  let skip := (page - 1) * limit
  if skip < 0 then ListOutcome.serverError
  else
    let rest := found.drop skip.toNat
    let biodatas := if limit = 0 then rest else rest.take limit.natAbs
    let total := countDocuments (matchesQuery q.type q.division q.ageMin q.ageMax) s.biodatas
    ListOutcome.ok { data := biodatas, total := total, page := page, limit := limit }

/-! ## The step relation of the route handlers -/

/-- One request to the server together with what the environment supplies
(the `_id` of a new document).  `other` stands for every request that writes
to none of the five collections: the `GET` routes,
`POST /payment/create-payment-intent`, the success-story routes, and any
request that `verifyToken` or `verifyAdmin` refuses. -/
inductive Request where
  | postJwt (oid : ObjectId) (body : JwtBody)
  | postBiodata (oid : ObjectId) (body : BiodataBody)
  | makePremium (oid : ObjectId) (body : PremiumBody)
  | saveInfo (oid : ObjectId) (body : SaveInfoBody)
  | postFavourite (oid : ObjectId) (body : FavouriteBody)
  | deleteFavourite (id : ObjectId)
  | deleteContactRequest (id : ObjectId)
  | makeAdmin (id : ObjectId)
  | makeUserPremium (id : ObjectId)
  | approvePremium (id : PathId) (fault : WriteFault)
  | approveContact (id : ObjectId)
  | other
  deriving DecidableEq, Repr

/-- The store after one request.  The token that `POST /auth/jwt` signs does
not reach the store, so any `sign` gives the same result. -/
def step (s : Store) : Request → Store
  | Request.postJwt oid body => (postJwt (fun _ => "") s oid body).1
  | Request.postBiodata oid body => (postBiodata s oid body).1
  | Request.makePremium oid body => (makePremium s oid body).1
  | Request.saveInfo oid body => (saveInfo s oid body).1
  | Request.postFavourite oid body => (postFavourite s oid body).1
  | Request.deleteFavourite id => (deleteFavourite s id).1
  | Request.deleteContactRequest id => (deleteContactRequest s id).1
  | Request.makeAdmin id => (makeAdmin s id).1
  | Request.makeUserPremium id => (makeUserPremium s id).1
  | Request.approvePremium id fault => (approvePremium s id fault).1
  | Request.approveContact id => (approveContact s id).1
  | Request.other => s

/-- The store after a sequence of requests, one after the other. -/
def run (s : Store) (reqs : List Request) : Store :=
  reqs.foldl step s

/-- The number of pending PremiumRequests of one `biodataId`. -/
def pendingCount (id : Int) (rs : List PremiumRequest) : Nat :=
  (rs.filter (fun r => r.biodataId == id && r.status == ReqStatus.pending)).length

/-- From `s` to `t` every approved PremiumRequest and every approved
ContactRequest of `s` is still a document of `t`, unchanged, and the
PremiumRequest `_id`s of `s` are the first `_id`s of `t` in the same order, so
no PremiumRequest was removed. -/
def KeepsApproved (s t : Store) : Prop :=
  (∀ r ∈ s.premiumRequests, r.status = ReqStatus.approved → r ∈ t.premiumRequests) ∧
  (∀ c ∈ s.contactRequests, c.status = ReqStatus.approved → c ∈ t.contactRequests) ∧
  (s.premiumRequests.map (fun r => r._id)) <+: (t.premiumRequests.map (fun r => r._id))

/-! ## Two concurrent executions of the create path of POST /biodatas -/

/-- Where one execution of the create path stands.  The handler gives up
control at its three `await`s, so its atomic steps are the owner lookup
(line 305), the read of the largest id (lines 314-315) and `save()` (line
323).  `update` is an execution whose lookup found the owner's record: it
leaves the create path and is not followed further. -/
inductive CreateTask where
  | start
  | looked
  | allocated (newId : Int)
  | update
  | done (r : Reply)
  deriving DecidableEq, Repr

/-- `await newBiodata.save()` for the document built with the id read
earlier, and the reply that follows it. -/
def saveNewBiodata (s : Store) (oid : ObjectId) (newId : Int) (body : BiodataBody) :
    Store × Reply :=
  match newBiodata oid newId body with
  | none => (s, biodataError StoreError.validation)
  | some nb =>
    if !nb.valid then (s, biodataError StoreError.validation)
    else if s.biodatas.any
        (fun o => o.biodataId == nb.biodataId || o.userEmail == nb.userEmail) then
      (s, biodataError StoreError.duplicateKey)
    else
      ({ s with biodatas := s.biodatas ++ [nb] },
        { status := 200, message := "Biodata Created Successfully",
          biodata := some nb, error := none })

/-- One atomic step of an execution of the create path. -/
def advance (s : Store) (oid : ObjectId) (body : BiodataBody) : CreateTask → Store × CreateTask
  | CreateTask.start =>
    match findOwned s.biodatas body.userEmail with
    | some _ => (s, CreateTask.update)
    | none => (s, CreateTask.looked)
  | CreateTask.looked => (s, CreateTask.allocated (newBiodataId s.biodatas))
  | CreateTask.allocated newId =>
    ((saveNewBiodata s oid newId body).1, CreateTask.done (saveNewBiodata s oid newId body).2)
  | CreateTask.update => (s, CreateTask.update)
  | CreateTask.done r => (s, CreateTask.done r)

/-- The number of atomic steps an execution still has to take. -/
def CreateTask.stepsLeft : CreateTask → Nat
  | CreateTask.start => 3
  | CreateTask.looked => 2
  | CreateTask.allocated _ => 1
  | CreateTask.update => 0
  | CreateTask.done _ => 0

/-- The shared store and the two executions. -/
structure Race where
  store : Store
  first : CreateTask
  second : CreateTask
  deriving DecidableEq, Repr

/-- One scheduling decision: `true` lets the first execution take its next
step, `false` the second. -/
def Race.move (oidA oidB : ObjectId) (bodyA bodyB : BiodataBody) (r : Race) (pick : Bool) :
    Race :=
  if pick then
    { store := (advance r.store oidA bodyA r.first).1
      first := (advance r.store oidA bodyA r.first).2
      second := r.second }
  else
    { store := (advance r.store oidB bodyB r.second).1
      first := r.first
      second := (advance r.store oidB bodyB r.second).2 }

/-- The race run under a schedule, from both executions at their start. -/
def runRace (s : Store) (oidA oidB : ObjectId) (bodyA bodyB : BiodataBody)
    (schedule : List Bool) : Race :=
  schedule.foldl (Race.move oidA oidB bodyA bodyB)
    { store := s, first := CreateTask.start, second := CreateTask.start }

/-- The hypotheses of a race between two valid create requests of two different
new owners: `dA` and `dB` are the documents built from the two bodies with the
id read from `s`. -/
structure FreshPair (s : Store) (oidA oidB : ObjectId) (bodyA bodyB : BiodataBody)
    (dA dB : Biodata) : Prop where
  safe : ∀ b ∈ s.biodatas,
    -9007199254740992 ≤ b.biodataId ∧ b.biodataId < 9007199254740991
  builtA : newBiodata oidA (newBiodataId s.biodatas) bodyA = some dA
  validA : dA.valid = true
  builtB : newBiodata oidB (newBiodataId s.biodatas) bodyB = some dB
  validB : dB.valid = true
  newA : ∀ b ∈ s.biodatas, b.userEmail ≠ dA.userEmail
  newB : ∀ b ∈ s.biodatas, b.userEmail ≠ dB.userEmail
  distinct : dA.userEmail ≠ dB.userEmail

/-- A sequence of `POST /biodatas` upserts, one after the other. -/
def upserts (s : Store) (ops : List (ObjectId × BiodataBody)) : Store :=
  ops.foldl (fun st op => (postBiodata st op.1 op.2).1) s

/-! ## Sample data -/

/-- A body that passes validation, owned by `a@x.com`. -/
def bodyA : BiodataBody :=
  { BiodataBody.none with
    biodataType := some "Male", name := some "A", profileImage := some "a.png",
    dateOfBirth := some "1995-01-01", height := some "170", weight := some "65",
    age := some 30, occupation := some "Engineer", race := some "r",
    fathersName := some "F", mothersName := some "M",
    permanentDivision := some "Dhaka", presentDivision := some "Dhaka",
    mobileNumber := some "0100", userEmail := some "a@x.com" }

/-- The update that carries only the owner's email and a `biodataId`. -/
def bodyRenumber : BiodataBody :=
  { BiodataBody.none with userEmail := some "a@x.com", biodataId := some 7 }

/-- The Biodata that the valid body of `a@x.com` creates on the empty store. -/
def recordA : Biodata :=
  { _id := 0, biodataId := 1, biodataType := "Male", name := "A", profileImage := "a.png",
    dateOfBirth := "1995-01-01", height := "170", weight := "65", age := 30,
    occupation := "Engineer", race := "r", fathersName := "F", mothersName := "M",
    permanentDivision := "Dhaka", presentDivision := "Dhaka", expectedPartnerAge := none,
    expectedPartnerHeight := none, expectedPartnerWeight := none,
    contactEmail := "a@x.com", mobileNumber := "0100", userEmail := "a@x.com",
    isPremium := false, status := "active" }

/-- The store after `a@x.com` saved the valid body: one Biodata, `biodataId` 1. -/
def storeA : Store := (postBiodata Store.empty 0 bodyA).1

/-- A make-premium body without `userName`. -/
def premiumBodyNoName : PremiumBody :=
  { biodataId := some 1, userEmail := some "a@x.com", userName := none }

/-- A complete make-premium body. -/
def premiumBodyA : PremiumBody :=
  { biodataId := some 1, userEmail := some "a@x.com", userName := some "A" }

/-- A complete make-premium body of `a@x.com` that names `biodataId` 2. -/
def premiumBodyOtherId : PremiumBody :=
  { biodataId := some 2, userEmail := some "a@x.com", userName := some "A" }

/-- The user `a@x.com`, one Biodata owned by `a@x.com` with `biodataId` 1, and a
pending PremiumRequest that names `a@x.com` and `biodataId` 2. -/
def storeMismatch : Store :=
  { storeA with
    users := [{ _id := 10, name := "A", email := "a@x.com", photoURL := none,
                role := Role.user, isPremium := false }]
    premiumRequests := [{ _id := 20, biodataId := 2, userEmail := "a@x.com",
                          userName := "A", status := ReqStatus.pending }] }

/-- A `jwt.sign` stand-in. -/
def sampleSign (email : Option String) : String := "token:" ++ email.getD ""

/-- A sign-in body without `name`. -/
def jwtBodyNoName : JwtBody :=
  { email := some "a@x.com", name := none, photoURL := none }

/-- A complete sign-in body. -/
def jwtBodyA : JwtBody :=
  { email := some "a@x.com", name := some "A", photoURL := none }

/-- A save-info body without `userEmail`, for `biodataId` 1. -/
def payBodyNoEmail : SaveInfoBody :=
  { biodataId := some 1, userEmail := none, transactionId := some "tx_1" }

/-- A save-info body of requester `c@x.com` for `biodataId` 1, without
`transactionId`. -/
def payBodyC : SaveInfoBody :=
  { biodataId := some 1, userEmail := some "c@x.com", transactionId := none }

/-- The store `storeA` after `c@x.com` paid for `biodataId` 1: one pending
ContactRequest with `_id` 30. -/
def storeContact : Store := (saveInfo storeA 30 payBodyC).1

/-- A `jwt.verify` stand-in that accepts every token. -/
def acceptAll (_ : String) : Option Claims := some { email := some "a@x.com" }

/-- An update of `a@x.com` that asks for `biodataId` 2^53 + 2. -/
def bodyRenumberHigh : BiodataBody :=
  { BiodataBody.none with userEmail := some "a@x.com", biodataId := some 9007199254740994 }

/-- The store `storeA` after that update: one record, `biodataId` 2^53 + 2. -/
def storeHigh : Store := (postBiodata storeA 1 bodyRenumberHigh).1

/-- An update of `a@x.com` that asks for `biodataId` 2^53. -/
def bodyRenumberEdge : BiodataBody :=
  { BiodataBody.none with userEmail := some "a@x.com", biodataId := some 9007199254740992 }

/-- The store `storeA` after that update: one record, `biodataId` 2^53. -/
def storeEdge : Store := (postBiodata storeA 1 bodyRenumberEdge).1

/-- The claims of a token issued to `a@x.com`. -/
def claimsA : Claims := { email := some "a@x.com" }

/-- A complete sign-in body of `root@x.com`. -/
def jwtBodyRoot : JwtBody :=
  { email := some "root@x.com", name := some "Root", photoURL := none }

/-- The claims of a token issued to `root@x.com`. -/
def claimsRoot : Claims := { email := some "root@x.com" }

/-- Two users: `root@x.com` signed in first and was made admin, then `a@x.com`
signed in, saved a Biodata and sent a make-premium request with `_id` 20; the
first User of the collection is the admin. -/
def storeTwoUsers : Store :=
  (makePremium (postBiodata (postJwt sampleSign
    (makeAdmin (postJwt sampleSign Store.empty 11 jwtBodyRoot).1 11).1 10 jwtBodyA).1
    0 bodyA).1 20 premiumBodyOtherId).1

/-- A valid body owned by `b@x.com`. -/
def bodyB : BiodataBody :=
  { bodyA with name := some "B", userEmail := some "b@x.com", mobileNumber := some "0200" }

/-- The store after `a@x.com` and then `b@x.com` saved a valid body:
`biodataId` 1 and 2. -/
def storeAB : Store := (postBiodata storeA 1 bodyB).1

/-- An update of `a@x.com` that blanks the required `name`. -/
def bodyBlankName : BiodataBody :=
  { BiodataBody.none with userEmail := some "a@x.com", name := some "" }

/-- An update of `a@x.com` that asks for `biodataId` 2. -/
def bodyTakeTwo : BiodataBody :=
  { BiodataBody.none with userEmail := some "a@x.com", biodataId := some 2 }

/-- A favourites body: `a@x.com` marks `biodataId` 2. -/
def favBodyA : FavouriteBody :=
  { userEmail := some "a@x.com", biodataId := some 2, name := some "B",
    permanentAddress := some "Dhaka", occupation := some "Engineer" }

/-- A store that already holds the Favourite of `favBodyA`, with `_id` 40. -/
def storeFav : Store :=
  { storeAB with
    favourites := [{ _id := 40, userEmail := "a@x.com", biodataId := 2, name := some "B",
                     permanentAddress := some "Dhaka", occupation := some "Engineer" }] }

/-- A sign-in body without `email`. -/
def jwtBodyNoEmail : JwtBody :=
  { email := none, name := some "A", photoURL := none }

/-- A payment adapter whose call is rejected. -/
def stripeDown (_ : Int) : Option String := none

/-- The second page of two, youngest first, of the `Male` records between 20
and 40. -/
def querySecondPage : ListQuery :=
  { page := some 2, limit := some 1, type := some "Male", division := none,
    ageMin := some 20, ageMax := some 40, sort := some "ascending" }

/-- The query string `?type=`: the filter `type` is supplied with the empty
value, nothing else is. -/
def queryEmptyType : ListQuery :=
  { page := none, limit := none, type := some "", division := none,
    ageMin := none, ageMax := none, sort := none }

/-- Two make-premium requests for `biodataId` 1, each approved before the
next is sent. -/
def twoApprovals : List Request :=
  [Request.makePremium 0 premiumBodyA, Request.approvePremium (PathId.oid 0) WriteFault.none,
   Request.makePremium 1 premiumBodyA, Request.approvePremium (PathId.oid 1) WriteFault.none]

/-- The document built from `bodyB` with `_id` 1 and `biodataId` 1. -/
def recordBFirst : Biodata :=
  { recordA with
    _id := 1, name := "B", contactEmail := "b@x.com", mobileNumber := "0200",
    userEmail := "b@x.com" }

/-- The schedule in which both executions look up, then both read the largest
id, then both save. -/
def racySchedule : List Bool := [true, false, true, false, true, false]

/-- The store after `a@x.com` signed in: one User with role `user`. -/
def storeSignedIn : Store := (postJwt sampleSign Store.empty 10 jwtBodyA).1

/-- The valid body of `a@x.com` with `isPremium: true` added. -/
def bodyPremiumA : BiodataBody :=
  { bodyA with isPremium := some true }

/-- An update of `a@x.com` that carries `isPremium`, `status`, `biodataId` and
`contactEmail`. -/
def bodyEscalate : BiodataBody :=
  { BiodataBody.none with
    userEmail := some "a@x.com", isPremium := some true, status := some "vip",
    biodataId := some 9, contactEmail := some "z@x.com" }

/-- Three upserts without `biodataId`: `a@x.com` creates, `b@x.com` creates,
`a@x.com` updates. -/
def threeUpserts : List (ObjectId × BiodataBody) :=
  [(0, bodyA), (1, bodyB), (2, { bodyA with occupation := some "Doctor" })]

/-- A `jwt.verify` stand-in with two valid tokens: `tokA` issued to `a@x.com`
and `tokB` issued to `b@x.com`. -/
def verifyTwo (token : String) : Option Claims :=
  if token == "tokA" then some { email := some "a@x.com" }
  else if token == "tokB" then some { email := some "b@x.com" }
  else none

/-- A body that names the owner `b@x.com` and changes the occupation. -/
def bodyOverwriteB : BiodataBody :=
  { BiodataBody.none with userEmail := some "b@x.com", occupation := some "Taken over" }

/-! ## Lemmas on the generic helpers -/

theorem splitFirst_eq_none {α : Type} (p : α → Bool) (l : List α)
    (h : ∀ x ∈ l, p x = false) : splitFirst p l = none := by
  induction l with
  | nil => rfl
  | cons x xs ih =>
    have hx : p x = false := h x (List.mem_cons_self x xs)
    have hxs : ∀ y ∈ xs, p y = false := fun y hy => h y (List.mem_cons_of_mem x hy)
    simp [splitFirst, hx, ih hxs]

theorem splitFirst_eq_some {α : Type} (p : α → Bool) (l pre post : List α) (x : α)
    (h : splitFirst p l = some (pre, x, post)) :
    l = pre ++ x :: post ∧ p x = true ∧ ∀ y ∈ pre, p y = false := by
  induction l generalizing pre with
  | nil => simp [splitFirst] at h
  | cons a as ih =>
    unfold splitFirst at h
    by_cases ha : p a = true
    · simp only [ha, if_true, Option.some.injEq, Prod.mk.injEq] at h
      obtain ⟨h1, h2, h3⟩ := h
      subst h1 h2 h3
      simp [ha]
    · simp only [ha] at h
      cases hrec : splitFirst p as with
      | none => simp [hrec] at h
      | some t =>
        obtain ⟨pre', y, post'⟩ := t
        simp only [hrec, Bool.false_eq_true, if_false, Option.some.injEq, Prod.mk.injEq] at h
        obtain ⟨h1, h2, h3⟩ := h
        subst h1 h2 h3
        obtain ⟨e1, e2, e3⟩ := ih pre' hrec
        refine ⟨by simp [e1], e2, ?_⟩
        intro z hz
        rcases List.mem_cons.mp hz with hz | hz
        · subst hz
          simpa using ha
        · exact e3 z hz

theorem lastBiodata_eq_none (l : List Biodata) (h : lastBiodata l = none) : l = [] := by
  cases l with
  | nil => rfl
  | cons b bs =>
    unfold lastBiodata at h
    cases hrec : lastBiodata bs with
    | none => simp [hrec] at h
    | some m =>
      simp only [hrec] at h
      split at h <;> simp at h

theorem lastBiodata_max (l : List Biodata) (m : Biodata) (h : lastBiodata l = some m) :
    m ∈ l ∧ ∀ b ∈ l, b.biodataId ≤ m.biodataId := by
  induction l generalizing m with
  | nil => simp [lastBiodata] at h
  | cons b bs ih =>
    unfold lastBiodata at h
    cases hrec : lastBiodata bs with
    | none =>
      simp only [hrec, Option.some.injEq] at h
      subst h
      have hnil := lastBiodata_eq_none bs hrec
      subst hnil
      simp
    | some m' =>
      obtain ⟨hm, hle⟩ := ih m' hrec
      simp only [hrec] at h
      by_cases hlt : b.biodataId < m'.biodataId
      · simp only [hlt, if_true, Option.some.injEq] at h
        subst h
        refine ⟨List.mem_cons_of_mem b hm, ?_⟩
        intro c hc
        rcases List.mem_cons.mp hc with hc | hc
        · subst hc
          exact le_of_lt hlt
        · exact hle c hc
      · simp only [hlt, if_false, Option.some.injEq] at h
        subst h
        refine ⟨List.mem_cons_self _ _, ?_⟩
        intro c hc
        rcases List.mem_cons.mp hc with hc | hc
        · subst hc
          exact le_refl _
        · exact le_trans (hle c hc) (not_lt.mp hlt)

theorem jsAddOne_exact (n : Int) (h1 : -9007199254740992 ≤ n) (h2 : n < 9007199254740992) :
    jsAddOne n = n + 1 := by
  have h : (n + 1).natAbs ≤ 9007199254740992 := by omega
  unfold jsAddOne roundDouble
  dsimp only
  rw [if_pos h]

theorem newBiodataId_gt (l : List Biodata) (b : Biodata) (hb : b ∈ l)
    (hSafe : ∀ x ∈ l, -9007199254740992 ≤ x.biodataId ∧ x.biodataId < 9007199254740992) :
    b.biodataId < newBiodataId l := by
  unfold newBiodataId
  cases hrec : lastBiodata l with
  | none =>
    have := lastBiodata_eq_none l hrec
    subst this
    simp at hb
  | some m =>
    obtain ⟨hm, hmax⟩ := lastBiodata_max l m hrec
    have := hmax b hb
    have hs := hSafe m hm
    simp only
    rw [jsAddOne_exact m.biodataId hs.1 hs.2]
    omega

theorem splitFirst_of_find {α : Type} (p : α → Bool) (l : List α) (x : α)
    (h : l.find? p = some x) : ∃ pre post, splitFirst p l = some (pre, x, post) := by
  induction l with
  | nil => simp at h
  | cons a as ih =>
    by_cases ha : p a = true
    · simp only [List.find?_cons, ha, Option.some.injEq] at h
      subst h
      exact ⟨[], as, by simp [splitFirst, ha]⟩
    · have ha' : p a = false := by simpa using ha
      simp only [List.find?_cons, ha'] at h
      obtain ⟨pre, post, hrec⟩ := ih h
      exact ⟨a :: pre, post, by simp [splitFirst, ha', hrec]⟩

theorem find_eq_none_of_forall {α : Type} (p : α → Bool) (l : List α)
    (h : ∀ x ∈ l, p x = false) : l.find? p = none := by
  rw [List.find?_eq_none]
  intro x hx
  simp [h x hx]

theorem updateFirst_of_split {α : Type} (p : α → Bool) (f : α → α) (l pre post : List α)
    (x : α) (h : splitFirst p l = some (pre, x, post)) :
    updateFirst p f l = pre ++ f x :: post := by
  induction l generalizing pre with
  | nil => simp [splitFirst] at h
  | cons a as ih =>
    unfold splitFirst at h
    by_cases ha : p a = true
    · simp only [ha, if_true, Option.some.injEq, Prod.mk.injEq] at h
      obtain ⟨h1, h2, h3⟩ := h
      subst h1 h2 h3
      simp [updateFirst, ha]
    · simp only [ha] at h
      cases hrec : splitFirst p as with
      | none => simp [hrec] at h
      | some t =>
        obtain ⟨pre', y, post'⟩ := t
        simp only [hrec, Bool.false_eq_true, if_false, Option.some.injEq, Prod.mk.injEq] at h
        obtain ⟨h1, h2, h3⟩ := h
        subst h1 h2 h3
        simp [updateFirst, ha, ih pre' hrec]

theorem updateFirst_of_forall {α : Type} (p : α → Bool) (f : α → α) (l : List α)
    (h : ∀ x ∈ l, p x = false) : updateFirst p f l = l := by
  induction l with
  | nil => rfl
  | cons a as ih =>
    have ha : p a = false := h a (List.mem_cons_self a as)
    have has : ∀ y ∈ as, p y = false := fun y hy => h y (List.mem_cons_of_mem a hy)
    simp [updateFirst, ha, ih has]

theorem find_updateFirst {α : Type} (p : α → Bool) (f : α → α) (l : List α)
    (hpf : ∀ x, p (f x) = p x) :
    (updateFirst p f l).find? p = (l.find? p).map f := by
  induction l with
  | nil => rfl
  | cons a as ih =>
    by_cases ha : p a = true
    · simp [updateFirst, ha, hpf]
    · have ha' : p a = false := by simpa using ha
      simp [updateFirst, ha', ih]

theorem countDocuments_eq_filter_length {α : Type} (p : α → Bool) (l : List α) :
    countDocuments p l = (l.filter p).length := by
  induction l with
  | nil => rfl
  | cons a as ih =>
    by_cases ha : p a = true
    · simp [countDocuments, ha, ih]
    · have ha' : p a = false := by simpa using ha
      simp [countDocuments, ha', ih]

theorem find_some_pred {α : Type} (p : α → Bool) (l : List α) (x : α)
    (h : l.find? p = some x) : p x = true := by
  obtain ⟨pre, post, hs⟩ := splitFirst_of_find p l x h
  exact (splitFirst_eq_some p l pre post x hs).2.1

theorem find_updateFirst_other {α : Type} (p q : α → Bool) (f : α → α) (l : List α) (x : α)
    (hp : l.find? p = some x) (hq : l.find? q = some x) (hpf : ∀ y, p (f y) = p y) :
    (updateFirst q f l).find? p = some (f x) := by
  induction l with
  | nil => simp at hp
  | cons a as ih =>
    have hpx := find_some_pred p _ x hp
    have hqx := find_some_pred q _ x hq
    by_cases hpa : p a = true
    · have hax : a = x := by simpa [List.find?_cons, hpa] using hp
      subst hax
      simp [updateFirst, hqx, hpf, hpa]
    · have hpa' : p a = false := by simpa using hpa
      by_cases hqa : q a = true
      · have hax : a = x := by simpa [List.find?_cons, hqa] using hq
        subst hax
        rw [hpx] at hpa'
        cases hpa'
      · have hqa' : q a = false := by simpa using hqa
        simp only [List.find?_cons, hpa'] at hp
        simp only [List.find?_cons, hqa'] at hq
        simp [updateFirst, hqa', hpa', ih hp hq]

theorem sortByAge_perm (sort : Option String) (bs : List Biodata) :
    (sortByAge sort bs).Perm bs := by
  unfold sortByAge
  split
  · exact List.perm_insertionSort _ _
  · split
    · exact List.perm_insertionSort _ _
    · exact List.Perm.refl _

theorem sortByAge_ascending (bs : List Biodata) :
    (sortByAge (some "ascending") bs).Sorted (fun x y => x.age ≤ y.age) := by
  have ht : IsTotal Biodata (fun x y => x.age ≤ y.age) := ⟨fun a b => le_total a.age b.age⟩
  have hr : IsTrans Biodata (fun x y => x.age ≤ y.age) := ⟨fun _ _ _ h1 h2 => le_trans h1 h2⟩
  simp only [sortByAge, if_true]
  exact List.sorted_insertionSort (fun x y : Biodata => x.age ≤ y.age) bs

theorem sortByAge_descending (bs : List Biodata) :
    (sortByAge (some "descending") bs).Sorted (fun x y => y.age ≤ x.age) := by
  have ht : IsTotal Biodata (fun x y => y.age ≤ x.age) := ⟨fun a b => le_total b.age a.age⟩
  have hr : IsTrans Biodata (fun x y => y.age ≤ x.age) := ⟨fun _ _ _ h1 h2 => le_trans h2 h1⟩
  have hne : (some "descending" : Option String) ≠ some "ascending" := by decide
  simp only [sortByAge, if_neg hne, if_true]
  exact List.sorted_insertionSort (fun x y : Biodata => y.age ≤ x.age) bs

theorem matchesQuery_iff (type division : Option String) (ageMin ageMax : Option Int)
    (b : Biodata) :
    matchesQuery type division ageMin ageMax b = true ↔
      ((∀ t, type = some t → t ≠ "" → b.biodataType = t) ∧
       (∀ d, division = some d → d ≠ "" → b.permanentDivision = d) ∧
       (∀ lo, ageMin = some lo → lo ≤ b.age) ∧
       (∀ hi, ageMax = some hi → b.age ≤ hi)) := by
  cases type <;> cases division <;> cases ageMin <;> cases ageMax <;>
    simp [matchesQuery, or_iff_not_imp_left, and_assoc]

theorem mem_updateFirst_of_fixed {α : Type} (p : α → Bool) (f : α → α) (l : List α) (x : α)
    (hx : x ∈ l) (hf : f x = x) : x ∈ updateFirst p f l := by
  induction l with
  | nil => simp at hx
  | cons a as ih =>
    by_cases ha : p a = true
    · simp only [updateFirst, ha, if_true]
      rcases List.mem_cons.mp hx with h | h
      · subst h
        rw [hf]
        exact List.mem_cons_self _ _
      · exact List.mem_cons_of_mem _ h
    · have ha' : p a = false := by simpa using ha
      simp only [updateFirst, ha', Bool.false_eq_true, if_false]
      rcases List.mem_cons.mp hx with h | h
      · subst h
        exact List.mem_cons_self _ _
      · exact List.mem_cons_of_mem _ (ih h)

theorem map_updateFirst {α β : Type} (p : α → Bool) (f : α → α) (g : α → β) (l : List α)
    (hg : ∀ x, g (f x) = g x) : (updateFirst p f l).map g = l.map g := by
  induction l with
  | nil => rfl
  | cons a as ih =>
    by_cases ha : p a = true
    · simp [updateFirst, ha, hg]
    · have ha' : p a = false := by simpa using ha
      simp [updateFirst, ha', ih]

theorem mem_deleteFirst_or {α : Type} (p : α → Bool) (l : List α) (x : α) (hx : x ∈ l) :
    x ∈ deleteFirst p l ∨ p x = true := by
  induction l with
  | nil => simp at hx
  | cons a as ih =>
    by_cases ha : p a = true
    · simp only [deleteFirst, ha, if_true]
      rcases List.mem_cons.mp hx with h | h
      · subst h
        exact Or.inr ha
      · exact Or.inl h
    · have ha' : p a = false := by simpa using ha
      simp only [deleteFirst, ha', Bool.false_eq_true, if_false]
      rcases List.mem_cons.mp hx with h | h
      · subst h
        exact Or.inl (List.mem_cons_self _ _)
      · rcases ih h with h' | h'
        · exact Or.inl (List.mem_cons_of_mem _ h')
        · exact Or.inr h'

theorem pendingCount_updateFirst_le (id : Int) (p : PremiumRequest → Bool)
    (l : List PremiumRequest) :
    pendingCount id (updateFirst p (fun r => { r with status := ReqStatus.approved }) l)
      ≤ pendingCount id l := by
  induction l with
  | nil => exact Nat.le_refl _
  | cons a as ih =>
    by_cases ha : p a = true
    · simp only [updateFirst, ha, if_true, pendingCount]
      by_cases hc : (a.biodataId == id && a.status == ReqStatus.pending) = true
      · simp [List.filter_cons, hc]
      · simp [List.filter_cons, hc]
    · have ha' : p a = false := by simpa using ha
      simp only [updateFirst, ha', Bool.false_eq_true, if_false, pendingCount]
      simp only [pendingCount] at ih
      by_cases hc : (a.biodataId == id && a.status == ReqStatus.pending) = true
      · simp only [List.filter_cons, hc, if_true, List.length_cons]
        omega
      · simp only [List.filter_cons, hc, if_false]
        exact ih

/-- `find?` returns `u` exactly when `u` is the first element that satisfies
the predicate. -/
theorem find_eq_some_iff_first {α : Type} (p : α → Bool) (l : List α) (u : α) :
    l.find? p = some u ↔
      ∃ pre post, l = pre ++ u :: post ∧ (∀ x ∈ pre, p x = false) ∧ p u = true := by
  constructor
  · intro h
    induction l with
    | nil => simp at h
    | cons a as ih =>
      by_cases hpa : p a = true
      · have hau : a = u := by simpa [List.find?_cons, hpa] using h
        subst hau
        exact ⟨[], as, rfl, by simp, hpa⟩
      · have hpa' : p a = false := by simpa using hpa
        have h' : as.find? p = some u := by simpa [List.find?_cons, hpa'] using h
        obtain ⟨pre, post, hl, hpre, hu⟩ := ih h'
        refine ⟨a :: pre, post, by rw [hl]; rfl, ?_, hu⟩
        intro x hx
        rcases List.mem_cons.mp hx with rfl | hx
        · exact hpa'
        · exact hpre x hx
  · rintro ⟨pre, post, rfl, hpre, hu⟩
    induction pre with
    | nil => simp [hu]
    | cons a as ih =>
      have ha : p a = false := hpre a (List.mem_cons_self _ _)
      simp only [List.cons_append, List.find?_cons, ha]
      exact ih (fun x hx => hpre x (List.mem_cons_of_mem _ hx))

/-- In a list without two elements of the same key, looking an element up by
its key finds that element. -/
theorem find_of_mem_nodup {α β : Type} [DecidableEq β] (f : α → β) (l : List α) (u : α)
    (hn : (l.map f).Nodup) (hu : u ∈ l) : l.find? (fun x => f x == f u) = some u := by
  induction l with
  | nil => cases hu
  | cons a as ih =>
    rw [List.map_cons, List.nodup_cons] at hn
    rcases List.mem_cons.mp hu with rfl | hu'
    · simp [List.find?_cons]
    · have hne : f a ≠ f u := fun h => hn.1 (h ▸ List.mem_map_of_mem f hu')
      have hb : (f a == f u) = false := by simpa using hne
      simp only [List.find?_cons, hb]
      exact ih hn.2 hu'

/-- `User.findOne({email})` returns `u` exactly when the email is present and
`u` is the first User of the collection that carries it. -/
theorem findUserByEmail_eq_some_iff (us : List User) (email : Option String) (u : User) :
    findUserByEmail us email = some u ↔
      ∃ e pre post, email = some e ∧ us = pre ++ u :: post ∧
        (∀ x ∈ pre, x.email ≠ e) ∧ u.email = e := by
  cases email with
  | none => simp [findUserByEmail]
  | some e =>
    simp only [findUserByEmail]
    rw [find_eq_some_iff_first]
    constructor
    · rintro ⟨pre, post, hl, hpre, hu⟩
      exact ⟨e, pre, post, rfl, hl, fun x hx => by simpa using hpre x hx, by simpa using hu⟩
    · rintro ⟨e', pre, post, he, hl, hpre, hu⟩
      cases he
      exact ⟨pre, post, hl, fun x hx => by simpa using hpre x hx, by simpa using hu⟩

/-- `verifyAdmin` passes exactly when the lookup returns an admin. -/
theorem verifyAdmin_next_iff (s : Store) (user : Claims) :
    verifyAdmin s user = Gate.next user ↔
      ∃ u, findUserByEmail s.users user.email = some u ∧ u.role = Role.admin := by
  cases hf : findUserByEmail s.users user.email with
  | none => simp [verifyAdmin, hf]
  | some u =>
    by_cases hr : u.role = Role.admin
    · simp [verifyAdmin, hf, hr]
    · simp [verifyAdmin, hf, hr]

/-- `verifyAdmin` either passes or replies 403. -/
theorem verifyAdmin_cases (s : Store) (user : Claims) :
    verifyAdmin s user = Gate.next user ∨
    verifyAdmin s user = Gate.reply (Reply.msg 403 "Forbidden: Admins only") := by
  cases hf : findUserByEmail s.users user.email with
  | none => simp [verifyAdmin, hf]
  | some u =>
    by_cases hr : u.role = Role.admin
    · simp [verifyAdmin, hf, hr]
    · simp [verifyAdmin, hf, hr]

/-! ## What each handler leaves untouched -/

theorem postJwt_frame (sign : Option String → String) (s : Store) (oid : ObjectId)
    (body : JwtBody) :
    (postJwt sign s oid body).1.premiumRequests = s.premiumRequests ∧
    (postJwt sign s oid body).1.contactRequests = s.contactRequests := by
  unfold postJwt
  repeat' split
  all_goals exact ⟨rfl, rfl⟩

theorem postBiodata_frame (s : Store) (oid : ObjectId) (body : BiodataBody) :
    (postBiodata s oid body).1.premiumRequests = s.premiumRequests ∧
    (postBiodata s oid body).1.contactRequests = s.contactRequests := by
  unfold postBiodata
  split
  · dsimp only
    repeat' split
    all_goals exact ⟨rfl, rfl⟩
  · repeat' split
    all_goals exact ⟨rfl, rfl⟩

theorem makeUserPremium_frame (s : Store) (id : ObjectId) :
    (makeUserPremium s id).1.premiumRequests = s.premiumRequests ∧
    (makeUserPremium s id).1.contactRequests = s.contactRequests := by
  unfold makeUserPremium
  simp only
  split <;> exact ⟨rfl, rfl⟩

theorem makePremium_cases (s : Store) (oid : ObjectId) (body : PremiumBody) :
    (makePremium s oid body).1.contactRequests = s.contactRequests ∧
    ((makePremium s oid body).1.premiumRequests = s.premiumRequests ∨
      ∃ id e n, pendingCount id s.premiumRequests = 0 ∧
        (makePremium s oid body).1.premiumRequests = s.premiumRequests ++
          [{ _id := oid, biodataId := id, userEmail := e, userName := n,
             status := ReqStatus.pending }]) := by
  cases hId : body.biodataId with
  | none => simp [makePremium, findPendingPremium, newPremiumRequest, hId]
  | some id =>
    cases hf : s.premiumRequests.find?
        (fun r => r.biodataId == id && r.status == ReqStatus.pending) with
    | some x => simp [makePremium, findPendingPremium, hId, hf]
    | none =>
      cases hE : body.userEmail with
      | none => simp [makePremium, findPendingPremium, hf, newPremiumRequest, hId, hE]
      | some e =>
        cases hN : body.userName with
        | none => simp [makePremium, findPendingPremium, hf, newPremiumRequest, hId, hE, hN]
        | some n =>
          have hzero : pendingCount id s.premiumRequests = 0 := by
            simp only [pendingCount, List.length_eq_zero, List.filter_eq_nil_iff]
            intro r hr
            have := List.find?_eq_none.mp hf r hr
            simpa using this
          by_cases hv : (nonEmpty e && nonEmpty n) = true
          · refine ⟨?_, Or.inr ⟨id, e, n, hzero, ?_⟩⟩
            · simp [makePremium, findPendingPremium, hf, newPremiumRequest, hId, hE, hN,
                PremiumRequest.valid, hv]
            · simp [makePremium, findPendingPremium, hf, newPremiumRequest, hId, hE, hN,
                PremiumRequest.valid, hv]
          · have hv' : (nonEmpty e && nonEmpty n) = false := by simpa using hv
            simp [makePremium, findPendingPremium, hf, newPremiumRequest, hId, hE, hN,
              PremiumRequest.valid, hv']

theorem saveInfo_cases (s : Store) (oid : ObjectId) (body : SaveInfoBody) :
    (saveInfo s oid body).1.premiumRequests = s.premiumRequests ∧
    ((saveInfo s oid body).1.contactRequests = s.contactRequests ∨
      ∃ c, (saveInfo s oid body).1.contactRequests = s.contactRequests ++ [c]) := by
  unfold saveInfo
  repeat' split
  all_goals first
    | exact ⟨rfl, Or.inl rfl⟩
    | exact ⟨rfl, Or.inr ⟨_, rfl⟩⟩

theorem approvePremium_cases (s : Store) (id : PathId) (fault : WriteFault) :
    (approvePremium s id fault).1.contactRequests = s.contactRequests ∧
    ((approvePremium s id fault).1.premiumRequests = s.premiumRequests ∨
      ∃ i, (approvePremium s id fault).1.premiumRequests =
        updateFirst (fun r => r._id == i)
          (fun r => { r with status := ReqStatus.approved }) s.premiumRequests) := by
  cases id with
  | malformed => exact ⟨rfl, Or.inl rfl⟩
  | oid i =>
    cases hs : splitFirst (fun r : PremiumRequest => r._id == i) s.premiumRequests with
    | none => simp [approvePremium, hs]
    | some t =>
      obtain ⟨pre, request, post⟩ := t
      have hupd := updateFirst_of_split (fun r : PremiumRequest => r._id == i)
        (fun r => { r with status := ReqStatus.approved }) _ _ _ _ hs
      by_cases hv : request.valid = true
      · have hv' : ({ request with status := ReqStatus.approved } : PremiumRequest).valid
            = true := hv
        cases fault with
        | none =>
          refine ⟨?_, Or.inr ⟨i, ?_⟩⟩
          · simp [approvePremium, hs, hv']
          · rw [hupd]
            simp [approvePremium, hs, hv']
        | requestSave => simp [approvePremium, hs, hv']
        | userUpdate =>
          refine ⟨?_, Or.inr ⟨i, ?_⟩⟩
          · simp [approvePremium, hs, hv']
          · rw [hupd]
            simp [approvePremium, hs, hv']
        | biodataUpdate =>
          refine ⟨?_, Or.inr ⟨i, ?_⟩⟩
          · simp [approvePremium, hs, hv']
          · rw [hupd]
            simp [approvePremium, hs, hv']
      · have hv' : ({ request with status := ReqStatus.approved } : PremiumRequest).valid
            = false := by simpa using hv
        simp [approvePremium, hs, hv']

theorem newBiodata_fields (oid : ObjectId) (n : Int) (body : BiodataBody) (nb : Biodata)
    (h : newBiodata oid n body = some nb) :
    nb.biodataId = n ∧ body.userEmail = some nb.userEmail ∧
      nb.contactEmail = nb.userEmail := by
  unfold newBiodata at h
  split at h
  · rename_i hc
    simp only [Option.some.injEq] at h
    subst h
    have hu : body.userEmail.isSome = true := by
      simp only [BiodataBody.complete, Bool.and_eq_true] at hc
      exact hc.2
    cases hue : body.userEmail with
    | none => simp [hue] at hu
    | some e => simp
  · simp at h

/-! ## Approved requests and pending counts along the step relation -/

theorem keepsApproved_of_eq (s t : Store) (hp : t.premiumRequests = s.premiumRequests)
    (hc : t.contactRequests = s.contactRequests) : KeepsApproved s t := by
  refine ⟨?_, ?_, ?_⟩
  · intro r hr _
    rw [hp]
    exact hr
  · intro c hc' _
    rw [hc]
    exact hc'
  · rw [hp]

theorem keepsApproved_trans (s t u : Store) (h1 : KeepsApproved s t) (h2 : KeepsApproved t u) :
    KeepsApproved s u :=
  ⟨fun r hr ha => h2.1 r (h1.1 r hr ha) ha, fun c hc ha => h2.2.1 c (h1.2.1 c hc ha) ha,
    h1.2.2.trans h2.2.2⟩

theorem step_keepsApproved (s : Store) (req : Request) : KeepsApproved s (step s req) := by
  cases req with
  | postJwt oid body =>
    exact keepsApproved_of_eq _ _ (postJwt_frame _ s oid body).1 (postJwt_frame _ s oid body).2
  | postBiodata oid body =>
    exact keepsApproved_of_eq _ _ (postBiodata_frame s oid body).1 (postBiodata_frame s oid body).2
  | makePremium oid body =>
    obtain ⟨hc, hp⟩ := makePremium_cases s oid body
    rcases hp with hp | ⟨id, e, n, _, hp⟩
    · exact keepsApproved_of_eq _ _ hp hc
    · refine ⟨?_, ?_, ?_⟩
      · intro r hr _
        show r ∈ (makePremium s oid body).1.premiumRequests
        rw [hp]
        exact List.mem_append_left _ hr
      · intro c hc' _
        show c ∈ (makePremium s oid body).1.contactRequests
        rw [hc]
        exact hc'
      · show _ <+: (makePremium s oid body).1.premiumRequests.map (fun r => r._id)
        rw [hp, List.map_append]
        exact List.prefix_append _ _
  | saveInfo oid body =>
    obtain ⟨hp, hc⟩ := saveInfo_cases s oid body
    rcases hc with hc | ⟨c0, hc⟩
    · exact keepsApproved_of_eq _ _ hp hc
    · refine ⟨?_, ?_, ?_⟩
      · intro r hr _
        show r ∈ (saveInfo s oid body).1.premiumRequests
        rw [hp]
        exact hr
      · intro c hc' _
        show c ∈ (saveInfo s oid body).1.contactRequests
        rw [hc]
        exact List.mem_append_left _ hc'
      · show _ <+: (saveInfo s oid body).1.premiumRequests.map (fun r => r._id)
        rw [hp]
  | postFavourite oid body => exact keepsApproved_of_eq _ _ rfl rfl
  | deleteFavourite id => exact keepsApproved_of_eq _ _ rfl rfl
  | deleteContactRequest id => exact keepsApproved_of_eq _ _ rfl rfl
  | makeAdmin id => exact keepsApproved_of_eq _ _ rfl rfl
  | makeUserPremium id =>
    exact keepsApproved_of_eq _ _ (makeUserPremium_frame s id).1 (makeUserPremium_frame s id).2
  | approvePremium id fault =>
    obtain ⟨hc, hp⟩ := approvePremium_cases s id fault
    rcases hp with hp | ⟨i, hp⟩
    · exact keepsApproved_of_eq _ _ hp hc
    · refine ⟨?_, ?_, ?_⟩
      · intro r hr ha
        show r ∈ (approvePremium s id fault).1.premiumRequests
        rw [hp]
        apply mem_updateFirst_of_fixed _ _ _ _ hr
        cases r
        simp only at ha
        subst ha
        rfl
      · intro c hc' _
        show c ∈ (approvePremium s id fault).1.contactRequests
        rw [hc]
        exact hc'
      · show _ <+: (approvePremium s id fault).1.premiumRequests.map (fun r => r._id)
        rw [hp, map_updateFirst (fun r : PremiumRequest => r._id == i)
          (fun r => { r with status := ReqStatus.approved }) (fun r => r._id)
          s.premiumRequests (fun _ => rfl)]
  | approveContact id =>
    refine ⟨fun r hr _ => hr, ?_, List.prefix_refl _⟩
    intro c hc' ha
    show c ∈ updateFirst (fun c => c._id == id)
      (fun c => { c with status := ReqStatus.approved }) s.contactRequests
    apply mem_updateFirst_of_fixed _ _ _ _ hc'
    cases c
    simp only at ha
    subst ha
    rfl
  | other => exact keepsApproved_of_eq _ _ rfl rfl

theorem run_cons (s : Store) (req : Request) (reqs : List Request) :
    run s (req :: reqs) = run (step s req) reqs := rfl

theorem run_keepsApproved (reqs : List Request) (s : Store) : KeepsApproved s (run s reqs) := by
  induction reqs generalizing s with
  | nil => exact keepsApproved_of_eq _ _ rfl rfl
  | cons req reqs ih =>
    rw [run_cons]
    exact keepsApproved_trans _ _ _ (step_keepsApproved s req) (ih (step s req))

theorem pendingCount_append_one (id : Int) (l : List PremiumRequest) (x : PremiumRequest) :
    pendingCount id (l ++ [x]) =
      pendingCount id l +
        (if (x.biodataId == id && x.status == ReqStatus.pending) = true then 1 else 0) := by
  unfold pendingCount
  rw [List.filter_append, List.length_append]
  by_cases hc : (x.biodataId == id && x.status == ReqStatus.pending) = true
  · simp [List.filter_cons, hc]
  · simp [List.filter_cons, hc]

theorem step_pending_bound (s : Store) (req : Request)
    (h : ∀ id, pendingCount id s.premiumRequests ≤ 1) :
    ∀ id, pendingCount id (step s req).premiumRequests ≤ 1 := by
  intro id
  cases req with
  | postJwt oid body =>
    show pendingCount id (postJwt _ s oid body).1.premiumRequests ≤ 1
    rw [(postJwt_frame _ s oid body).1]
    exact h id
  | postBiodata oid body =>
    show pendingCount id (postBiodata s oid body).1.premiumRequests ≤ 1
    rw [(postBiodata_frame s oid body).1]
    exact h id
  | makePremium oid body =>
    show pendingCount id (makePremium s oid body).1.premiumRequests ≤ 1
    rcases (makePremium_cases s oid body).2 with hp | ⟨id0, e, n, hzero, hp⟩
    · rw [hp]
      exact h id
    · rw [hp, pendingCount_append_one]
      by_cases hid : id0 = id
      · subst hid
        rw [hzero]
        split <;> omega
      · have := h id
        simp [hid]
        exact this
  | saveInfo oid body =>
    show pendingCount id (saveInfo s oid body).1.premiumRequests ≤ 1
    rw [(saveInfo_cases s oid body).1]
    exact h id
  | postFavourite oid body => exact h id
  | deleteFavourite id' => exact h id
  | deleteContactRequest id' => exact h id
  | makeAdmin id' => exact h id
  | makeUserPremium id' =>
    show pendingCount id (makeUserPremium s id').1.premiumRequests ≤ 1
    rw [(makeUserPremium_frame s id').1]
    exact h id
  | approvePremium id' fault =>
    show pendingCount id (approvePremium s id' fault).1.premiumRequests ≤ 1
    rcases (approvePremium_cases s id' fault).2 with hp | ⟨i, hp⟩
    · rw [hp]
      exact h id
    · rw [hp]
      exact le_trans (pendingCount_updateFirst_le id _ _) (h id)
  | approveContact id' => exact h id
  | other => exact h id

theorem run_pending_bound (reqs : List Request) (s : Store)
    (h : ∀ id, pendingCount id s.premiumRequests ≤ 1) :
    ∀ id, pendingCount id (run s reqs).premiumRequests ≤ 1 := by
  induction reqs generalizing s with
  | nil => exact h
  | cons req reqs ih =>
    rw [run_cons]
    exact ih (step s req) (step_pending_bound s req h)

/-! ## The create path under interleaving -/

theorem saveNewBiodata_nodup (s : Store) (oid : ObjectId) (newId : Int) (body : BiodataBody)
    (h : (s.biodatas.map (fun b => b.biodataId)).Nodup) :
    ((saveNewBiodata s oid newId body).1.biodatas.map (fun b => b.biodataId)).Nodup := by
  unfold saveNewBiodata
  split
  · exact h
  · rename_i nb _
    split
    · exact h
    · split
      · exact h
      · rename_i hany
        have hfree : s.biodatas.any
            (fun o => o.biodataId == nb.biodataId || o.userEmail == nb.userEmail) = false := by
          simpa using hany
        rw [List.any_eq_false] at hfree
        show ((s.biodatas ++ [nb]).map (fun b => b.biodataId)).Nodup
        rw [List.map_append, List.nodup_append]
        refine ⟨h, by simp, ?_⟩
        intro x hx hx'
        simp only [List.map_cons, List.map_nil, List.mem_singleton] at hx'
        subst hx'
        obtain ⟨o, ho, hoid⟩ := List.mem_map.mp hx
        have := hfree o ho
        simp [hoid] at this

theorem advance_nodup (s : Store) (oid : ObjectId) (body : BiodataBody) (t : CreateTask)
    (h : (s.biodatas.map (fun b => b.biodataId)).Nodup) :
    ((advance s oid body t).1.biodatas.map (fun b => b.biodataId)).Nodup := by
  cases t with
  | start =>
    cases hf : findOwned s.biodatas body.userEmail <;> simp [advance, hf, h]
  | looked => exact h
  | allocated newId => exact saveNewBiodata_nodup s oid newId body h
  | update => exact h
  | done r => exact h

theorem advance_stepsLeft (s : Store) (oid : ObjectId) (body : BiodataBody) (t : CreateTask) :
    (advance s oid body t).2.stepsLeft ≤ t.stepsLeft - 1 := by
  cases t with
  | start =>
    cases hf : findOwned s.biodatas body.userEmail <;> simp [advance, hf, CreateTask.stepsLeft]
  | looked => simp [advance, CreateTask.stepsLeft]
  | allocated newId => simp [advance, CreateTask.stepsLeft]
  | update => simp [advance, CreateTask.stepsLeft]
  | done r => simp [advance, CreateTask.stepsLeft]

theorem race_invariants (oidA oidB : ObjectId) (bodyA bodyB : BiodataBody)
    (schedule : List Bool) (r : Race)
    (h : (r.store.biodatas.map (fun b => b.biodataId)).Nodup) :
    (((schedule.foldl (Race.move oidA oidB bodyA bodyB) r).store.biodatas.map
        (fun b => b.biodataId)).Nodup) ∧
    (schedule.foldl (Race.move oidA oidB bodyA bodyB) r).first.stepsLeft
      ≤ r.first.stepsLeft - schedule.count true ∧
    (schedule.foldl (Race.move oidA oidB bodyA bodyB) r).second.stepsLeft
      ≤ r.second.stepsLeft - schedule.count false := by
  induction schedule generalizing r with
  | nil => exact ⟨h, by simp, by simp⟩
  | cons pick rest ih =>
    rw [List.foldl_cons]
    cases pick with
    | true =>
      have hn : ((Race.move oidA oidB bodyA bodyB r true).store.biodatas.map
          (fun b => b.biodataId)).Nodup := advance_nodup _ _ _ _ h
      obtain ⟨h1, h2, h3⟩ := ih (Race.move oidA oidB bodyA bodyB r true) hn
      have hs := advance_stepsLeft r.store oidA bodyA r.first
      have hf : (Race.move oidA oidB bodyA bodyB r true).first
          = (advance r.store oidA bodyA r.first).2 := rfl
      have hg : (Race.move oidA oidB bodyA bodyB r true).second = r.second := rfl
      rw [hf] at h2
      rw [hg] at h3
      refine ⟨h1, ?_, ?_⟩
      · simp only [List.count_cons_self]
        omega
      · have : List.count false (true :: rest) = List.count false rest := by simp
        rw [this]
        exact h3
    | false =>
      have hn : ((Race.move oidA oidB bodyA bodyB r false).store.biodatas.map
          (fun b => b.biodataId)).Nodup := advance_nodup _ _ _ _ h
      obtain ⟨h1, h2, h3⟩ := ih (Race.move oidA oidB bodyA bodyB r false) hn
      have hs := advance_stepsLeft r.store oidB bodyB r.second
      have hf : (Race.move oidA oidB bodyA bodyB r false).second
          = (advance r.store oidB bodyB r.second).2 := rfl
      have hg : (Race.move oidA oidB bodyA bodyB r false).first = r.first := rfl
      rw [hf] at h3
      rw [hg] at h2
      refine ⟨h1, ?_, ?_⟩
      · have : List.count true (false :: rest) = List.count true rest := by simp
        rw [this]
        exact h2
      · simp only [List.count_cons_self]
        omega

theorem advance_thrice_eq_postBiodata (s : Store) (oid : ObjectId) (body : BiodataBody)
    (hNew : findOwned s.biodatas body.userEmail = none) :
    (advance (advance (advance s oid body CreateTask.start).1 oid body
        (advance s oid body CreateTask.start).2).1 oid body
      (advance (advance s oid body CreateTask.start).1 oid body
        (advance s oid body CreateTask.start).2).2) =
      ((postBiodata s oid body).1, CreateTask.done (postBiodata s oid body).2) := by
  have h1 : advance s oid body CreateTask.start = (s, CreateTask.looked) := by
    simp [advance, hNew]
  rw [h1]
  have h2 : advance s oid body CreateTask.looked =
      (s, CreateTask.allocated (newBiodataId s.biodatas)) := rfl
  rw [h2]
  have h3 : saveNewBiodata s oid (newBiodataId s.biodatas) body = postBiodata s oid body := by
    unfold saveNewBiodata postBiodata
    rw [hNew]
  simp only [advance, h3]

theorem findOwned_eq_none (l : List Biodata) (e : String) (h : ∀ b ∈ l, b.userEmail ≠ e) :
    findOwned l (some e) = none := by
  simp only [findOwned]
  exact splitFirst_eq_none _ _ (fun b hb => by simpa using h b hb)

theorem newBiodata_at (oid : ObjectId) (k k' : Int) (body : BiodataBody) (d : Biodata)
    (hd : newBiodata oid k body = some d) :
    newBiodata oid k' body = some { d with biodataId := k' } := by
  unfold newBiodata at hd ⊢
  split at hd
  · rename_i hc
    rw [if_pos hc]
    simp only [Option.some.injEq] at hd
    subst hd
    rfl
  · cases hd

theorem saveNewBiodata_stored (st : Store) (oid : ObjectId) (k : Int) (body : BiodataBody)
    (d : Biodata) (hd : newBiodata oid k body = some d) (hv : d.valid = true)
    (hfree : ∀ o ∈ st.biodatas, o.biodataId ≠ d.biodataId ∧ o.userEmail ≠ d.userEmail) :
    saveNewBiodata st oid k body =
      ({ st with biodatas := st.biodatas ++ [d] },
        { status := 200, message := "Biodata Created Successfully",
          biodata := some d, error := none }) := by
  have hany : st.biodatas.any
      (fun o => o.biodataId == d.biodataId || o.userEmail == d.userEmail) = false := by
    rw [List.any_eq_false]
    intro o ho
    simp [(hfree o ho).1, (hfree o ho).2]
  unfold saveNewBiodata
  rw [hd]
  dsimp only
  rw [hv, hany]
  rfl

theorem saveNewBiodata_refused (st : Store) (oid : ObjectId) (k : Int) (body : BiodataBody)
    (d o : Biodata) (hd : newBiodata oid k body = some d) (hv : d.valid = true)
    (ho : o ∈ st.biodatas) (hclash : o.biodataId = d.biodataId) :
    saveNewBiodata st oid k body = (st, biodataError StoreError.duplicateKey) := by
  have hany : st.biodatas.any
      (fun o => o.biodataId == d.biodataId || o.userEmail == d.userEmail) = true := by
    rw [List.any_eq_true]
    exact ⟨o, ho, by simp [hclash]⟩
  unfold saveNewBiodata
  rw [hd]
  dsimp only
  rw [hv, hany]
  rfl

theorem newBiodataId_append_new (l : List Biodata) (d : Biodata)
    (hSafe : ∀ b ∈ l, -9007199254740992 ≤ b.biodataId ∧ b.biodataId < 9007199254740991)
    (hd : d.biodataId = newBiodataId l) :
    newBiodataId (l ++ [d]) = newBiodataId l + 1 := by
  have hSafe' : ∀ b ∈ l, -9007199254740992 ≤ b.biodataId ∧ b.biodataId < 9007199254740992 :=
    fun b hb => ⟨(hSafe b hb).1, by have := (hSafe b hb).2; omega⟩
  have hbound : -9007199254740992 ≤ newBiodataId l ∧ newBiodataId l < 9007199254740992 := by
    unfold newBiodataId
    cases hl : lastBiodata l with
    | none => exact ⟨by decide, by decide⟩
    | some m =>
      have hm := (lastBiodata_max l m hl).1
      have h1 := hSafe m hm
      show -9007199254740992 ≤ jsAddOne m.biodataId ∧ jsAddOne m.biodataId < 9007199254740992
      rw [jsAddOne_exact m.biodataId h1.1 (by omega)]
      omega
  cases hl : lastBiodata (l ++ [d]) with
  | none =>
    have := lastBiodata_eq_none _ hl
    simp at this
  | some m =>
    obtain ⟨hm, hmax⟩ := lastBiodata_max _ m hl
    have hge : d.biodataId ≤ m.biodataId := hmax d (by simp)
    have hmid : m.biodataId = newBiodataId l := by
      rcases List.mem_append.mp hm with hml | hmd
      · have := newBiodataId_gt l m hml hSafe'
        omega
      · simp only [List.mem_singleton] at hmd
        rw [hmd, hd]
    have : newBiodataId (l ++ [d]) = jsAddOne m.biodataId := by
      simp only [newBiodataId, hl]
    rw [this, hmid]
    exact jsAddOne_exact _ hbound.1 hbound.2

theorem FreshPair.symm {s : Store} {oidA oidB : ObjectId} {bodyA bodyB : BiodataBody}
    {dA dB : Biodata} (h : FreshPair s oidA oidB bodyA bodyB dA dB) :
    FreshPair s oidB oidA bodyB bodyA dB dA :=
  ⟨h.safe, h.builtB, h.validB, h.builtA, h.validA, h.newB, h.newA, fun e => h.distinct e.symm⟩

/-- What the single steps of the first execution do in such a race. -/
theorem FreshPair.steps {s : Store} {oidA oidB : ObjectId} {bodyA bodyB : BiodataBody}
    {dA dB : Biodata} (h : FreshPair s oidA oidB bodyA bodyB dA dB) :
    findOwned s.biodatas bodyA.userEmail = none ∧
    findOwned (s.biodatas ++ [dB]) bodyA.userEmail = none ∧
    saveNewBiodata s oidA (newBiodataId s.biodatas) bodyA =
      ({ s with biodatas := s.biodatas ++ [dA] },
        { status := 200, message := "Biodata Created Successfully",
          biodata := some dA, error := none }) ∧
    saveNewBiodata { s with biodatas := s.biodatas ++ [dB] } oidA
        (newBiodataId s.biodatas) bodyA =
      ({ s with biodatas := s.biodatas ++ [dB] }, biodataError StoreError.duplicateKey) ∧
    newBiodataId (s.biodatas ++ [dB]) = newBiodataId s.biodatas + 1 ∧
    saveNewBiodata { s with biodatas := s.biodatas ++ [dB] } oidA
        (newBiodataId s.biodatas + 1) bodyA =
      ({ s with biodatas := s.biodatas ++ [dB,
            { dA with biodataId := newBiodataId s.biodatas + 1 }] },
        { status := 200, message := "Biodata Created Successfully",
          biodata := some { dA with biodataId := newBiodataId s.biodatas + 1 },
          error := none }) := by
  obtain ⟨hidA, hueA, _⟩ := newBiodata_fields oidA _ bodyA dA h.builtA
  obtain ⟨hidB, _, _⟩ := newBiodata_fields oidB _ bodyB dB h.builtB
  have hSafe' : ∀ b ∈ s.biodatas,
      -9007199254740992 ≤ b.biodataId ∧ b.biodataId < 9007199254740992 :=
    fun b hb => ⟨(h.safe b hb).1, by have := (h.safe b hb).2; omega⟩
  refine ⟨?_, ?_, ?_, ?_, ?_, ?_⟩
  · rw [hueA]
    exact findOwned_eq_none _ _ h.newA
  · rw [hueA]
    refine findOwned_eq_none _ _ (fun b hb => ?_)
    rcases List.mem_append.mp hb with hb | hb
    · exact h.newA b hb
    · simp only [List.mem_singleton] at hb
      rw [hb]
      exact fun e => h.distinct e.symm
  · refine saveNewBiodata_stored s oidA _ bodyA dA h.builtA h.validA (fun o ho => ⟨?_, h.newA o ho⟩)
    rw [hidA]
    exact ne_of_lt (newBiodataId_gt s.biodatas o ho hSafe')
  · exact saveNewBiodata_refused _ oidA _ bodyA dA dB h.builtA h.validA
      (by simp) (by rw [hidA, hidB])
  · exact newBiodataId_append_new s.biodatas dB h.safe hidB
  · have hb := newBiodata_at oidA _ (newBiodataId s.biodatas + 1) bodyA dA h.builtA
    have hs := saveNewBiodata_stored { s with biodatas := s.biodatas ++ [dB] } oidA _ bodyA
      { dA with biodataId := newBiodataId s.biodatas + 1 } hb h.validA (fun o ho => ?_)
    · rw [hs]
      simp
    · have ho' : o ∈ s.biodatas ++ [dB] := ho
      rcases List.mem_append.mp ho' with ho1 | ho1
      · refine ⟨?_, h.newA o ho1⟩
        have := newBiodataId_gt s.biodatas o ho1 hSafe'
        show o.biodataId ≠ newBiodataId s.biodatas + 1
        omega
      · simp only [List.mem_singleton] at ho1
        rw [ho1]
        refine ⟨?_, fun e => h.distinct e.symm⟩
        show dB.biodataId ≠ newBiodataId s.biodatas + 1
        omega

theorem runRace_append (s : Store) (oidA oidB : ObjectId) (bodyA bodyB : BiodataBody)
    (pre post : List Bool) :
    runRace s oidA oidB bodyA bodyB (pre ++ post) =
      post.foldl (Race.move oidA oidB bodyA bodyB) (runRace s oidA oidB bodyA bodyB pre) := by
  simp only [runRace, List.foldl_append]

theorem four_of_counts (pre : List Bool) (n m : Nat) (h1 : pre.count true = n)
    (h2 : pre.count false = m) (h : n + m = 4) : ∃ a b c d, pre = [a, b, c, d] := by
  have hlen : pre.length = 4 := by
    rw [← List.count_true_add_count_false pre]
    omega
  match pre, hlen with
  | [a, b, c, d], _ => exact ⟨a, b, c, d, rfl⟩

/-- Both executions have read the largest id and neither has saved. -/
theorem race_reads_first {s : Store} {oidA oidB : ObjectId} {bodyA bodyB : BiodataBody}
    {dA dB : Biodata} (h : FreshPair s oidA oidB bodyA bodyB dA dB) (pre : List Bool)
    (h1 : pre.count true = 2) (h2 : pre.count false = 2) :
    runRace s oidA oidB bodyA bodyB pre =
      { store := s, first := CreateTask.allocated (newBiodataId s.biodatas),
        second := CreateTask.allocated (newBiodataId s.biodatas) } := by
  obtain ⟨a, b, c, d, rfl⟩ := four_of_counts pre 2 2 h1 h2 rfl
  have hA := h.steps.1
  have hB := h.symm.steps.1
  cases a <;> cases b <;> cases c <;> cases d <;>
    first
    | (exfalso; revert h1 h2; decide)
    | simp [runRace, Race.move, advance, hA, hB]

/-- The first execution has saved and the second has not read yet. -/
theorem race_first_saved {s : Store} {oidA oidB : ObjectId} {bodyA bodyB : BiodataBody}
    {dA dB : Biodata} (h : FreshPair s oidA oidB bodyA bodyB dA dB) (pre : List Bool)
    (h1 : pre.count true = 3) (h2 : pre.count false = 1) :
    runRace s oidA oidB bodyA bodyB pre =
      { store := { s with biodatas := s.biodatas ++ [dA] },
        first := CreateTask.done
          { status := 200, message := "Biodata Created Successfully",
            biodata := some dA, error := none },
        second := CreateTask.looked } := by
  obtain ⟨a, b, c, d, rfl⟩ := four_of_counts pre 3 1 h1 h2 rfl
  have hA := h.steps.1
  have hsave := h.steps.2.2.1
  have hB := h.symm.steps.1
  have hB' := h.symm.steps.2.1
  cases a <;> cases b <;> cases c <;> cases d <;>
    first
    | (exfalso; revert h1 h2; decide)
    | simp [runRace, Race.move, advance, hA, hB, hB', hsave]

/-- The second execution has saved and the first has not read yet. -/
theorem race_second_saved {s : Store} {oidA oidB : ObjectId} {bodyA bodyB : BiodataBody}
    {dA dB : Biodata} (h : FreshPair s oidA oidB bodyA bodyB dA dB) (pre : List Bool)
    (h1 : pre.count true = 1) (h2 : pre.count false = 3) :
    runRace s oidA oidB bodyA bodyB pre =
      { store := { s with biodatas := s.biodatas ++ [dB] },
        first := CreateTask.looked,
        second := CreateTask.done
          { status := 200, message := "Biodata Created Successfully",
            biodata := some dB, error := none } } := by
  obtain ⟨a, b, c, d, rfl⟩ := four_of_counts pre 1 3 h1 h2 rfl
  have hA := h.steps.1
  have hA' := h.steps.2.1
  have hB := h.symm.steps.1
  have hsave := h.symm.steps.2.2.1
  cases a <;> cases b <;> cases c <;> cases d <;>
    first
    | (exfalso; revert h1 h2; decide)
    | simp [runRace, Race.move, advance, hA, hB, hA', hsave]

/-- A schedule that gives each execution its three steps ends in one of four
ways. -/
theorem complete_schedule_cases (schedule : List Bool) (h1 : schedule.count true = 3)
    (h2 : schedule.count false = 3) :
    ∃ pre, (pre.count true = 2 ∧ pre.count false = 2 ∧
        (schedule = pre ++ [true, false] ∨ schedule = pre ++ [false, true])) ∨
      (pre.count true = 3 ∧ pre.count false = 1 ∧ schedule = pre ++ [false, false]) ∨
      (pre.count true = 1 ∧ pre.count false = 3 ∧ schedule = pre ++ [true, true]) := by
  have hlen : schedule.length = 6 := by
    rw [← List.count_true_add_count_false schedule]
    omega
  match schedule, hlen with
  | [a, b, c, d, e, f], _ =>
    refine ⟨[a, b, c, d], ?_⟩
    revert h1 h2
    cases a <;> cases b <;> cases c <;> cases d <;> cases e <;> cases f <;> decide


theorem postBiodata_of_new (s : Store) (oid : ObjectId) (body : BiodataBody)
    (hNew : findOwned s.biodatas body.userEmail = none) :
    postBiodata s oid body = saveNewBiodata s oid (newBiodataId s.biodatas) body := by
  unfold saveNewBiodata postBiodata
  rw [hNew]

theorem race_after_reads {s : Store} {oidA oidB : ObjectId} {bodyA bodyB : BiodataBody}
    {dA dB : Biodata} (h : FreshPair s oidA oidB bodyA bodyB dA dB) (pre : List Bool)
    (h1 : pre.count true = 2) (h2 : pre.count false = 2) :
    runRace s oidA oidB bodyA bodyB (pre ++ [true, false]) =
      { store := { s with biodatas := s.biodatas ++ [dA] },
        first := CreateTask.done
          { status := 200, message := "Biodata Created Successfully",
            biodata := some dA, error := none },
        second := CreateTask.done (biodataError StoreError.duplicateKey) } ∧
    runRace s oidA oidB bodyA bodyB (pre ++ [false, true]) =
      { store := { s with biodatas := s.biodatas ++ [dB] },
        first := CreateTask.done (biodataError StoreError.duplicateKey),
        second := CreateTask.done
          { status := 200, message := "Biodata Created Successfully",
            biodata := some dB, error := none } } := by
  have hA := h.steps.2.2.1
  have hAd := h.steps.2.2.2.1
  have hB := h.symm.steps.2.2.1
  have hBd := h.symm.steps.2.2.2.1
  rw [runRace_append, runRace_append, race_reads_first h pre h1 h2]
  constructor
  · simp [Race.move, advance, hA, hBd]
  · simp [Race.move, advance, hB, hAd]

theorem race_after_first_saved {s : Store} {oidA oidB : ObjectId} {bodyA bodyB : BiodataBody}
    {dA dB : Biodata} (h : FreshPair s oidA oidB bodyA bodyB dA dB) (pre : List Bool)
    (h1 : pre.count true = 3) (h2 : pre.count false = 1) :
    runRace s oidA oidB bodyA bodyB (pre ++ [false, false]) =
      { store := { s with biodatas := s.biodatas ++
          [dA, { dB with biodataId := newBiodataId s.biodatas + 1 }] },
        first := CreateTask.done
          { status := 200, message := "Biodata Created Successfully",
            biodata := some dA, error := none },
        second := CreateTask.done
          { status := 200, message := "Biodata Created Successfully",
            biodata := some { dB with biodataId := newBiodataId s.biodatas + 1 },
            error := none } } := by
  have hn := h.symm.steps.2.2.2.2.1
  have hs := h.symm.steps.2.2.2.2.2
  rw [runRace_append, race_first_saved h pre h1 h2]
  simp [Race.move, advance, hn, hs]

theorem race_after_second_saved {s : Store} {oidA oidB : ObjectId}
    {bodyA bodyB : BiodataBody}
    {dA dB : Biodata} (h : FreshPair s oidA oidB bodyA bodyB dA dB) (pre : List Bool)
    (h1 : pre.count true = 1) (h2 : pre.count false = 3) :
    runRace s oidA oidB bodyA bodyB (pre ++ [true, true]) =
      { store := { s with biodatas := s.biodatas ++
          [dB, { dA with biodataId := newBiodataId s.biodatas + 1 }] },
        first := CreateTask.done
          { status := 200, message := "Biodata Created Successfully",
            biodata := some { dA with biodataId := newBiodataId s.biodatas + 1 },
            error := none },
        second := CreateTask.done
          { status := 200, message := "Biodata Created Successfully",
            biodata := some dB, error := none } } := by
  have hn := h.steps.2.2.2.2.1
  have hs := h.steps.2.2.2.2.2
  rw [runRace_append, race_second_saved h pre h1 h2]
  simp [Race.move, advance, hn, hs]

theorem sequential_creates {s : Store} {oidA oidB : ObjectId}
    {bodyA bodyB : BiodataBody}
    {dA dB : Biodata} (h : FreshPair s oidA oidB bodyA bodyB dA dB) :
    postBiodata s oidA bodyA =
      ({ s with biodatas := s.biodatas ++ [dA] },
        { status := 200, message := "Biodata Created Successfully",
          biodata := some dA, error := none }) ∧
    postBiodata { s with biodatas := s.biodatas ++ [dA] } oidB bodyB =
      ({ s with biodatas := s.biodatas ++
          [dA, { dB with biodataId := newBiodataId s.biodatas + 1 }] },
        { status := 200, message := "Biodata Created Successfully",
          biodata := some { dB with biodataId := newBiodataId s.biodatas + 1 },
          error := none }) := by
  constructor
  · rw [postBiodata_of_new s oidA bodyA h.steps.1]
    exact h.steps.2.2.1
  · rw [postBiodata_of_new _ oidB bodyB h.symm.steps.2.1]
    show saveNewBiodata _ oidB (newBiodataId (s.biodatas ++ [dA])) bodyB = _
    rw [h.symm.steps.2.2.2.2.1]
    exact h.symm.steps.2.2.2.2.2

/-! ## Sequential id allocation -/

theorem splitFirst_none_forall {α : Type} (p : α → Bool) (l : List α)
    (h : splitFirst p l = none) : ∀ x ∈ l, p x = false := by
  intro x hx
  by_contra hp
  have hpx : p x = true := by simpa using hp
  have hsome : (l.find? p).isSome = true := by
    rw [List.find?_isSome]
    exact ⟨x, hx, hpx⟩
  obtain ⟨y, hy⟩ := Option.isSome_iff_exists.mp hsome
  obtain ⟨pre, post, hs⟩ := splitFirst_of_find p l y hy
  rw [h] at hs
  cases hs

theorem postBiodata_cases (s : Store) (oid : ObjectId) (body : BiodataBody) :
    (postBiodata s oid body).1 = s ∨
    (∃ pre b post, s.biodatas = pre ++ b :: post ∧ body.userEmail = some b.userEmail ∧
      (postBiodata s oid body).1.biodatas = pre ++ objectAssign b body :: post) ∨
    (∃ nb, body.userEmail = some nb.userEmail ∧
      (∀ b ∈ s.biodatas, b.userEmail ≠ nb.userEmail) ∧
      (∀ b ∈ s.biodatas, b.biodataId ≠ nb.biodataId) ∧
      nb.biodataId = newBiodataId s.biodatas ∧
      (postBiodata s oid body).1.biodatas = s.biodatas ++ [nb]) := by
  cases hE : body.userEmail with
  | none =>
    left
    cases hnb : newBiodata oid (newBiodataId s.biodatas) body with
    | none => simp [postBiodata, findOwned, hE, hnb]
    | some nb =>
      have := (newBiodata_fields oid _ body nb hnb).2.1
      rw [hE] at this
      cases this
  | some e =>
    cases hs : splitFirst (fun b : Biodata => b.userEmail == e) s.biodatas with
    | some t =>
      obtain ⟨pre, b, post⟩ := t
      obtain ⟨hl, hp, _⟩ := splitFirst_eq_some _ _ _ _ _ hs
      have hbe : b.userEmail = e := by simpa using hp
      by_cases hv : (objectAssign b body).valid = true
      · by_cases hd : ((objectAssign b body).biodataId != b.biodataId &&
            (pre ++ post).any (fun o => o.biodataId == (objectAssign b body).biodataId)) = true
        · left
          simp only [postBiodata, findOwned, hE, hs, hv, hd]
          rfl
        · right
          left
          have hd' : ((objectAssign b body).biodataId != b.biodataId &&
            (pre ++ post).any (fun o => o.biodataId == (objectAssign b body).biodataId))
              = false := by simpa using hd
          refine ⟨pre, b, post, hl, by rw [hbe], ?_⟩
          simp only [postBiodata, findOwned, hE, hs, hv, hd']
          rfl
      · left
        have hv' : (objectAssign b body).valid = false := by simpa using hv
        simp [postBiodata, findOwned, hE, hs, hv']
    | none =>
      have hall := splitFirst_none_forall _ _ hs
      cases hnb : newBiodata oid (newBiodataId s.biodatas) body with
      | none =>
        left
        simp [postBiodata, findOwned, hE, hs, hnb]
      | some nb =>
        obtain ⟨hid, hue, _⟩ := newBiodata_fields oid _ body nb hnb
        have hne : nb.userEmail = e := by
          rw [hE] at hue
          exact (Option.some.inj hue).symm
        by_cases hv : nb.valid = true
        · by_cases hd : s.biodatas.any
              (fun o => o.biodataId == nb.biodataId || o.userEmail == nb.userEmail) = true
          · left
            simp [postBiodata, findOwned, hE, hs, hnb, hv, hd]
          · right
            right
            have hd' : s.biodatas.any
              (fun o => o.biodataId == nb.biodataId || o.userEmail == nb.userEmail)
                = false := by simpa using hd
            refine ⟨nb, by rw [hne], ?_, ?_, hid, ?_⟩
            · intro b hb
              rw [hne]
              simpa using hall b hb
            · intro b hb hbid
              have := (List.any_eq_false.mp hd') b hb
              simp [hbid] at this
            · simp only [postBiodata, findOwned, hE, hs, hnb, hv, hd']
              rfl
        · left
          have hv' : nb.valid = false := by simpa using hv
          simp [postBiodata, findOwned, hE, hs, hnb, hv']

theorem lastBiodata_of_consecutive (l : List Biodata) (m : Biodata)
    (h : l.map (fun b => b.biodataId) =
      (List.range l.length).map (fun i : Nat => (i : Int) + 1))
    (hlast : lastBiodata l = some m) : m.biodataId = (l.length : Int) := by
  obtain ⟨hm, hmax⟩ := lastBiodata_max l m hlast
  have hmid : m.biodataId ∈ l.map (fun b => b.biodataId) := List.mem_map.mpr ⟨m, hm, rfl⟩
  rw [h] at hmid
  obtain ⟨i, hi, hie⟩ := List.mem_map.mp hmid
  have hilt : i < l.length := List.mem_range.mp hi
  have hpos : 0 < l.length := List.length_pos_of_mem hm
  have htop : ((l.length - 1 : Nat) : Int) + 1 ∈
      (List.range l.length).map (fun i : Nat => (i : Int) + 1) :=
    List.mem_map.mpr ⟨l.length - 1, List.mem_range.mpr (by omega), rfl⟩
  rw [← h] at htop
  obtain ⟨b, hb, hbe⟩ := List.mem_map.mp htop
  have hle := hmax b hb
  have hbe' : b.biodataId = ((l.length - 1 : Nat) : Int) + 1 := hbe
  have hie' : (i : Int) + 1 = m.biodataId := hie
  omega

theorem newBiodataId_of_consecutive (l : List Biodata)
    (h : l.map (fun b => b.biodataId) =
      (List.range l.length).map (fun i : Nat => (i : Int) + 1))
    (hlen : l.length < 9007199254740992) :
    newBiodataId l = (l.length : Int) + 1 := by
  unfold newBiodataId
  cases hlast : lastBiodata l with
  | none =>
    have := lastBiodata_eq_none l hlast
    subst this
    rfl
  | some m =>
    have hm := lastBiodata_of_consecutive l m h hlast
    show jsAddOne m.biodataId = (l.length : Int) + 1
    rw [jsAddOne_exact m.biodataId (by omega) (by omega), hm]

theorem newBiodataId_of_full (l : List Biodata)
    (h : l.map (fun b => b.biodataId) =
      (List.range l.length).map (fun i : Nat => (i : Int) + 1))
    (hlen : l.length = 9007199254740992) :
    ∃ b ∈ l, b.biodataId = newBiodataId l := by
  unfold newBiodataId
  cases hlast : lastBiodata l with
  | none =>
    have := lastBiodata_eq_none l hlast
    subst this
    simp at hlen
  | some m =>
    have hm := lastBiodata_of_consecutive l m h hlast
    have hmem := (lastBiodata_max l m hlast).1
    refine ⟨m, hmem, ?_⟩
    show m.biodataId = jsAddOne m.biodataId
    have hval : m.biodataId = 9007199254740992 := by omega
    rw [hval]
    decide

theorem postBiodata_keeps_consecutive (s : Store) (oid : ObjectId) (body : BiodataBody)
    (hNoId : body.biodataId = none)
    (h1 : s.biodatas.map (fun b => b.biodataId) =
      (List.range s.biodatas.length).map (fun i : Nat => (i : Int) + 1))
    (h2 : (s.biodatas.map (fun b => b.userEmail)).Nodup)
    (h3 : s.biodatas.length ≤ 9007199254740992) :
    (postBiodata s oid body).1.biodatas.map (fun b => b.biodataId) =
      (List.range (postBiodata s oid body).1.biodatas.length).map
        (fun i : Nat => (i : Int) + 1) ∧
    ((postBiodata s oid body).1.biodatas.map (fun b => b.userEmail)).Nodup ∧
    (postBiodata s oid body).1.biodatas.length ≤ 9007199254740992 := by
  rcases postBiodata_cases s oid body with
    h | ⟨pre, b, post, hl, hE, hp⟩ | ⟨nb, hE, hfresh, hfreshId, hid, hp⟩
  · rw [h]
    exact ⟨h1, h2, h3⟩
  · have hidEq : (objectAssign b body).biodataId = b.biodataId := by
      simp [objectAssign, hNoId]
    have hemEq : (objectAssign b body).userEmail = b.userEmail := by
      simp [objectAssign, hE]
    have hmapId : (pre ++ objectAssign b body :: post).map (fun b => b.biodataId) =
        s.biodatas.map (fun b => b.biodataId) := by
      rw [hl]
      simp [hidEq]
    have hmapEm : (pre ++ objectAssign b body :: post).map (fun b => b.userEmail) =
        s.biodatas.map (fun b => b.userEmail) := by
      rw [hl]
      simp [hemEq]
    have hlen : (pre ++ objectAssign b body :: post).length = s.biodatas.length := by
      rw [hl]
      simp
    rw [hp, hmapId, hmapEm, hlen]
    exact ⟨h1, h2, h3⟩
  · have hlt : s.biodatas.length < 9007199254740992 := by
      by_contra hge
      have heq : s.biodatas.length = 9007199254740992 := by omega
      obtain ⟨b, hb, hbid⟩ := newBiodataId_of_full s.biodatas h1 heq
      exact hfreshId b hb (by rw [hbid, hid])
    rw [hp]
    refine ⟨?_, ?_, ?_⟩
    · rw [List.map_append, List.length_append, h1]
      simp only [List.map_cons, List.map_nil, List.length_singleton]
      rw [List.range_succ, List.map_append, hid, newBiodataId_of_consecutive _ h1 hlt]
      rfl
    · rw [List.map_append, List.nodup_append]
      refine ⟨h2, by simp, ?_⟩
      intro x hx hx'
      simp only [List.map_cons, List.map_nil, List.mem_singleton] at hx'
      subst hx'
      obtain ⟨o, ho, hoe⟩ := List.mem_map.mp hx
      exact hfresh o ho hoe
    · rw [List.length_append, List.length_singleton]
      omega

theorem upserts_keep_consecutive (ops : List (ObjectId × BiodataBody)) (s : Store)
    (hNoId : ∀ op ∈ ops, op.2.biodataId = none)
    (h1 : s.biodatas.map (fun b => b.biodataId) =
      (List.range s.biodatas.length).map (fun i : Nat => (i : Int) + 1))
    (h2 : (s.biodatas.map (fun b => b.userEmail)).Nodup)
    (h3 : s.biodatas.length ≤ 9007199254740992) :
    (upserts s ops).biodatas.map (fun b => b.biodataId) =
      (List.range (upserts s ops).biodatas.length).map (fun i : Nat => (i : Int) + 1) ∧
    ((upserts s ops).biodatas.map (fun b => b.userEmail)).Nodup := by
  induction ops generalizing s with
  | nil => exact ⟨h1, h2⟩
  | cons op rest ih =>
    have hstep := postBiodata_keeps_consecutive s op.1 op.2
      (hNoId op (List.mem_cons_self _ _)) h1 h2 h3
    exact ih (postBiodata s op.1 op.2).1
      (fun o ho => hNoId o (List.mem_cons_of_mem _ ho)) hstep.1 hstep.2.1 hstep.2.2

/-! ## Theorems -/

/-- C1, the code at the failing input: on the empty store the first upsert of
`a@x.com` creates the record with `biodataId` 1; a second upsert by the same
owner whose body carries `biodataId: 7` is answered 200 and leaves the single
record of `a@x.com` with `biodataId` 7. -/
theorem postBiodata_update_takes_biodataId_from_body :
    (postBiodata Store.empty 0 bodyA).2.status = 200 ∧
    (postBiodata Store.empty 0 bodyA).1.biodatas.map
      (fun b => (b.userEmail, b.biodataId)) = [("a@x.com", 1)] ∧
    (postBiodata (postBiodata Store.empty 0 bodyA).1 1 bodyRenumber).2.status = 200 ∧
    (postBiodata (postBiodata Store.empty 0 bodyA).1 1 bodyRenumber).2.message
      = "Biodata Updated Successfully" ∧
    (postBiodata (postBiodata Store.empty 0 bodyA).1 1 bodyRenumber).1.biodatas.map
      (fun b => (b.userEmail, b.biodataId)) = [("a@x.com", 7)] := by
  decide

/-- The part of C1 that the code does: when the owner `e` of the body has a
Biodata, the upsert either fails with the store unchanged or writes the
assigned document back in place of the owner's record; that document keeps
the owner's `userEmail`, so the number of records per owner does not change,
and its `biodataId` is the body's `biodataId` when the body carries one and
the stored one otherwise. -/
theorem postBiodata_update_in_place (s : Store) (oid : ObjectId) (body : BiodataBody)
    (e : String) (pre post : List Biodata) (b : Biodata)
    (hEmail : body.userEmail = some e)
    (hFound : findOwned s.biodatas (some e) = some (pre, b, post)) :
    s.biodatas = pre ++ b :: post ∧ b.userEmail = e ∧
    (objectAssign b body).userEmail = e ∧
    (objectAssign b body).biodataId = body.biodataId.getD b.biodataId ∧
    ((postBiodata s oid body).1 = s ∨
      (postBiodata s oid body).1.biodatas = pre ++ objectAssign b body :: post) := by
  have hsplit : splitFirst (fun x => x.userEmail == e) s.biodatas = some (pre, b, post) := hFound
  obtain ⟨hl, hp, _⟩ := splitFirst_eq_some _ _ _ _ _ hsplit
  refine ⟨hl, by simpa using hp, by simp [objectAssign, hEmail], rfl, ?_⟩
  unfold postBiodata
  rw [hEmail, hFound]
  simp only
  split
  · exact Or.inl rfl
  · split
    · exact Or.inl rfl
    · exact Or.inr rfl

/-- C2, refuted as stated: `a@x.com` creates its record and then renumbers it
by an update whose body carries `biodataId`.  With the largest stored id
9007199254740994 the record that the new owner `b@x.com` creates gets
9007199254740996, two more than the largest id; with the largest stored id
9007199254740992 the sum is that same id again, the insert hits the unique
index, the reply is 500 and nothing is created. -/
theorem postBiodata_create_id_is_rounded :
    (postBiodata storeA 1 bodyRenumberHigh).2.status = 200 ∧
    storeHigh.biodatas.map (fun b => (b.userEmail, b.biodataId)) =
      [("a@x.com", 9007199254740994)] ∧
    (postBiodata storeHigh 1 bodyB).2.status = 200 ∧
    (postBiodata storeHigh 1 bodyB).1.biodatas.map (fun b => (b.userEmail, b.biodataId)) =
      [("a@x.com", 9007199254740994), ("b@x.com", 9007199254740996)] ∧
    (postBiodata storeA 1 bodyRenumberEdge).2.status = 200 ∧
    storeEdge.biodatas.map (fun b => (b.userEmail, b.biodataId)) =
      [("a@x.com", 9007199254740992)] ∧
    postBiodata storeEdge 1 bodyB = (storeEdge, biodataError StoreError.duplicateKey) := by
  decide

/-- C2, amended: when `POST /biodatas` carries a `userEmail` that owns no
Biodata and every stored `biodataId` lies between -2^53 and 2^53 - 1, a record
it creates is appended to the collection, has `contactEmail` equal to the
body's `userEmail` and has `biodataId` 1 on an empty collection and otherwise
one more than the largest stored `biodataId`, whatever `biodataId` or
`contactEmail` the body carries; a reply without a record is a 500 that leaves
the store as it was; and the record is created whenever the document built
from the body passes schema validation. -/
theorem postBiodata_create_allocates_next_id (s : Store) (oid : ObjectId)
    (body : BiodataBody) (e : String)
    (hEmail : body.userEmail = some e)
    (hNew : ∀ b ∈ s.biodatas, b.userEmail ≠ e)
    (hSafe : ∀ b ∈ s.biodatas,
      -9007199254740992 ≤ b.biodataId ∧ b.biodataId < 9007199254740992) :
    (∀ nb, (postBiodata s oid body).2.biodata = some nb →
      (postBiodata s oid body).2.status = 200 ∧
      (postBiodata s oid body).2.message = "Biodata Created Successfully" ∧
      (postBiodata s oid body).1.biodatas = s.biodatas ++ [nb] ∧
      nb.contactEmail = e ∧ nb.userEmail = e ∧
      (s.biodatas = [] → nb.biodataId = 1) ∧
      (s.biodatas ≠ [] → ∃ m ∈ s.biodatas,
        (∀ b ∈ s.biodatas, b.biodataId ≤ m.biodataId) ∧ nb.biodataId = m.biodataId + 1)) ∧
    ((postBiodata s oid body).2.biodata = none →
      (postBiodata s oid body).2.status = 500 ∧ (postBiodata s oid body).1 = s) ∧
    ((∃ d, newBiodata oid (newBiodataId s.biodatas) body = some d ∧ d.valid = true) →
      ∃ nb, (postBiodata s oid body).2.biodata = some nb) := by
  have hsplit : splitFirst (fun b => b.userEmail == e) s.biodatas = none :=
    splitFirst_eq_none _ _ (fun b hb => by simpa using hNew b hb)
  cases hnb : newBiodata oid (newBiodataId s.biodatas) body with
  | none =>
    have hpost : postBiodata s oid body = (s, biodataError StoreError.validation) := by
      simp [postBiodata, findOwned, hEmail, hsplit, hnb]
    simp [hpost, biodataError]
  | some d =>
    obtain ⟨hid, hue, hce⟩ := newBiodata_fields oid _ body d hnb
    have hde : d.userEmail = e := by
      rw [hEmail] at hue
      exact (Option.some.inj hue).symm
    by_cases hv : d.valid = true
    · have hfree : s.biodatas.any
          (fun o => o.biodataId == d.biodataId || o.userEmail == d.userEmail) = false := by
        rw [List.any_eq_false]
        intro o ho
        have h1 : o.biodataId ≠ d.biodataId := by
          rw [hid]
          exact ne_of_lt (newBiodataId_gt s.biodatas o ho hSafe)
        have h2 : o.userEmail ≠ d.userEmail := by
          rw [hde]
          exact hNew o ho
        simp [h1, h2]
      have hpost : postBiodata s oid body =
          ({ s with biodatas := s.biodatas ++ [d] },
            { status := 200, message := "Biodata Created Successfully",
              biodata := some d, error := none }) := by
        simp [postBiodata, findOwned, hEmail, hsplit, hnb, hv, hfree]
      rw [hpost]
      refine ⟨?_, by simp, fun _ => ⟨d, rfl⟩⟩
      intro nb hnbeq
      simp only [Option.some.injEq] at hnbeq
      subst hnbeq
      refine ⟨rfl, rfl, rfl, by rw [hce, hde], hde, ?_, ?_⟩
      · intro hempty
        rw [hid, hempty]
        rfl
      · intro hne
        cases hlast : lastBiodata s.biodatas with
        | none => exact absurd (lastBiodata_eq_none _ hlast) hne
        | some m =>
          obtain ⟨hm, hmax⟩ := lastBiodata_max _ m hlast
          refine ⟨m, hm, hmax, ?_⟩
          rw [hid]
          have hs := hSafe m hm
          simp only [newBiodataId, hlast]
          exact jsAddOne_exact m.biodataId hs.1 hs.2
    · have hv' : d.valid = false := by simpa using hv
      have hpost : postBiodata s oid body = (s, biodataError StoreError.validation) := by
        simp [postBiodata, findOwned, hEmail, hsplit, hnb, hv']
      rw [hpost]
      refine ⟨by simp [biodataError], by simp [biodataError], ?_⟩
      rintro ⟨d', hd', hvd⟩
      simp only [Option.some.injEq] at hd'
      subst hd'
      exact absurd hvd hv

/-- C2 amended, at a concrete input: in `storeA`, whose only record has
`biodataId` 1, the valid body of the new owner `b@x.com`, which carries no
`biodataId`, creates a record with `biodataId` 2 = 1 + 1 and `contactEmail`
`b@x.com`. -/
theorem postBiodata_create_allocates_next_id_witness :
    bodyB.userEmail = some "b@x.com" ∧
    (∀ b ∈ storeA.biodatas, b.userEmail ≠ "b@x.com") ∧
    (∀ b ∈ storeA.biodatas,
      -9007199254740992 ≤ b.biodataId ∧ b.biodataId < 9007199254740992) ∧
    storeA.biodatas ≠ [] ∧
    ∃ nb, (postBiodata storeA 1 bodyB).2.biodata = some nb ∧
      (∃ m ∈ storeA.biodatas, m.biodataId = 1 ∧ nb.biodataId = m.biodataId + 1) ∧
      nb.contactEmail = "b@x.com" := by
  have hNew : ∀ b ∈ storeA.biodatas, b.userEmail ≠ "b@x.com" := by decide
  have hSafe : ∀ b ∈ storeA.biodatas,
      -9007199254740992 ≤ b.biodataId ∧ b.biodataId < 9007199254740992 := by decide
  have hne : storeA.biodatas ≠ [] := by decide
  have h := postBiodata_create_allocates_next_id storeA 1 bodyB "b@x.com" rfl hNew hSafe
  obtain ⟨nb, hnb⟩ := h.2.2 ⟨_, rfl, by decide⟩
  have hprops := h.1 nb hnb
  obtain ⟨m, hm, _, hmid⟩ := hprops.2.2.2.2.2.2 hne
  have hm1 : m.biodataId = 1 := by
    have : ∀ x ∈ storeA.biodatas, x.biodataId = 1 := by decide
    exact this m hm
  exact ⟨rfl, hNew, hSafe, hne, nb, hnb, ⟨m, hm, hm1, hmid⟩, hprops.2.2.2.1⟩

/-- C3, refuted as stated: on the empty store no pending request for
`biodataId` 1 exists, yet the body without `userName` is answered 500 and
nothing is inserted. -/
theorem makePremium_incomplete_body_inserts_nothing :
    ¬ (∀ (s : Store) (oid : ObjectId) (body : PremiumBody) (id : Int),
        body.biodataId = some id →
        (∀ r ∈ s.premiumRequests, r.biodataId = id → r.status ≠ ReqStatus.pending) →
        ∃ r, (makePremium s oid body).1.premiumRequests = s.premiumRequests ++ [r] ∧
          r.status = ReqStatus.pending) := by
  intro h
  obtain ⟨r, hr, _⟩ := h Store.empty 0 premiumBodyNoName 1 rfl
    (by intro r hr; simp [Store.empty] at hr)
  have : (makePremium Store.empty 0 premiumBodyNoName).1.premiumRequests = [] := by decide
  rw [this] at hr
  simp [Store.empty] at hr

/-- C3, amended: when a pending PremiumRequest for the body's `biodataId`
exists, make-premium answers 400 and changes nothing; when none exists and the
body carries a non-empty `userEmail` and `userName`, it answers 200 and appends
exactly one PremiumRequest, in status pending, carrying the body's three
values; when none exists and `userEmail` or `userName` is missing or empty, it
answers 500 and changes nothing. -/
theorem makePremium_conflict_or_insert (s : Store) (oid : ObjectId) (body : PremiumBody)
    (id : Int) (hId : body.biodataId = some id) :
    ((∃ r ∈ s.premiumRequests, r.biodataId = id ∧ r.status = ReqStatus.pending) →
      makePremium s oid body = (s, Reply.msg 400 "Request already pending")) ∧
    ((∀ r ∈ s.premiumRequests, r.biodataId = id → r.status ≠ ReqStatus.pending) →
      (∀ e n, body.userEmail = some e → body.userName = some n → e ≠ "" → n ≠ "" →
        makePremium s oid body =
          ({ s with premiumRequests := s.premiumRequests ++
              [{ _id := oid, biodataId := id, userEmail := e, userName := n,
                 status := ReqStatus.pending }] },
            Reply.msg 200 "Premium request sent to admin")) ∧
      ((body.userEmail = none ∨ body.userEmail = some "" ∨
          body.userName = none ∨ body.userName = some "") →
        makePremium s oid body = (s, Reply.msg 500 "Server Error"))) := by
  constructor
  · rintro ⟨r, hr, hrid, hrst⟩
    have hsome : (s.premiumRequests.find?
        (fun r => r.biodataId == id && r.status == ReqStatus.pending)).isSome = true := by
      rw [List.find?_isSome]
      exact ⟨r, hr, by simp [hrid, hrst]⟩
    obtain ⟨x, hx⟩ := Option.isSome_iff_exists.mp hsome
    simp [makePremium, findPendingPremium, hId, hx]
  · intro hnone
    have hfind : s.premiumRequests.find?
        (fun r => r.biodataId == id && r.status == ReqStatus.pending) = none := by
      apply find_eq_none_of_forall
      intro r hr
      by_cases hrid : r.biodataId = id
      · have := hnone r hr hrid
        simp [hrid, this]
      · simp [hrid]
    constructor
    · intro e n hE hN he hn
      simp [makePremium, findPendingPremium, hId, hfind, newPremiumRequest, hE, hN,
        PremiumRequest.valid, nonEmpty, he, hn]
    · intro hbad
      rcases hbad with h | h | h | h
      · simp [makePremium, findPendingPremium, hId, hfind, newPremiumRequest, h]
      · cases hN : body.userName with
        | none => simp [makePremium, findPendingPremium, hId, hfind, newPremiumRequest, h, hN]
        | some n =>
          simp [makePremium, findPendingPremium, hId, hfind, newPremiumRequest, h, hN,
            PremiumRequest.valid, nonEmpty]
      · cases hE : body.userEmail with
        | none => simp [makePremium, findPendingPremium, hId, hfind, newPremiumRequest, h, hE]
        | some e => simp [makePremium, findPendingPremium, hId, hfind, newPremiumRequest, h, hE]
      · cases hE : body.userEmail with
        | none => simp [makePremium, findPendingPremium, hId, hfind, newPremiumRequest, h, hE]
        | some e =>
          simp [makePremium, findPendingPremium, hId, hfind, newPremiumRequest, h, hE,
            PremiumRequest.valid, nonEmpty]

/-- C3 amended, at concrete inputs: the first complete request for `biodataId`
1 is inserted as pending, and repeating it is answered 400 with no change. -/
theorem makePremium_conflict_or_insert_witness :
    premiumBodyA.biodataId = some 1 ∧
    (makePremium Store.empty 0 premiumBodyA).1.premiumRequests =
      [{ _id := 0, biodataId := 1, userEmail := "a@x.com", userName := "A",
         status := ReqStatus.pending }] ∧
    makePremium (makePremium Store.empty 0 premiumBodyA).1 1 premiumBodyA =
      ((makePremium Store.empty 0 premiumBodyA).1, Reply.msg 400 "Request already pending") := by
  have h1 := (makePremium_conflict_or_insert Store.empty 0 premiumBodyA 1 rfl).2
    (by intro r hr; simp [Store.empty] at hr)
  have h1' := h1.1 "a@x.com" "A" rfl rfl (by decide) (by decide)
  refine ⟨rfl, by rw [h1']; rfl, ?_⟩
  exact (makePremium_conflict_or_insert _ 1 premiumBodyA 1 rfl).1
    ⟨{ _id := 0, biodataId := 1, userEmail := "a@x.com", userName := "A",
       status := ReqStatus.pending }, by rw [h1']; simp [Store.empty], rfl, rfl⟩

/-- C4, refuted as stated: `storeMismatch` is the store after `a@x.com` signed
in, saved a Biodata and sent a make-premium request that names `biodataId` 2,
which no Biodata carries.  Approving the request reports success and sets the
User flag, while no Biodata with `biodataId` 2 exists and the Biodata owned by
`a@x.com` keeps `isPremium = false`. -/
theorem approvePremium_success_with_one_flag :
    (makePremium (postBiodata (postJwt sampleSign Store.empty 10 jwtBodyA).1 0 bodyA).1 20
      premiumBodyOtherId).1 = storeMismatch ∧
    (approvePremium storeMismatch (PathId.oid 20) WriteFault.none).2 =
      Outcome.sent (Reply.msg 200 "Premium Approved") ∧
    (approvePremium storeMismatch (PathId.oid 20) WriteFault.none).1.users.map
      (fun u => (u.email, u.isPremium)) = [("a@x.com", true)] ∧
    (approvePremium storeMismatch (PathId.oid 20) WriteFault.none).1.biodatas.map
      (fun b => (b.userEmail, b.biodataId, b.isPremium)) = [("a@x.com", 1, false)] ∧
    ¬ (∃ u ∈ (approvePremium storeMismatch (PathId.oid 20) WriteFault.none).1.users,
        ∃ b ∈ (approvePremium storeMismatch (PathId.oid 20) WriteFault.none).1.biodatas,
          u.email = "a@x.com" ∧ u.isPremium = true ∧
          b.biodataId = 2 ∧ b.isPremium = true ∧ b.userEmail = u.email) := by
  decide

/-- C4, amended: for an existing PremiumRequest `request` (the one `findById`
returns), the approval reports success exactly when the stored request passes
validation and the store rejects none of the three writes; otherwise it ends
in an error that reaches no reply.  When it reports success, the store is the
former one with the request marked approved, `isPremium = true` on the first
User whose email is the request's `userEmail` and on the first Biodata whose
`biodataId` is the request's, each only when such a record exists: the User
and the Biodata found by these keys afterwards are the former ones with the
flag set, and nothing says that they exist or belong to the same email. -/
theorem approvePremium_sets_flags_where_found (s : Store) (id : ObjectId) (fault : WriteFault)
    (request : PremiumRequest)
    (hFound : s.premiumRequests.find? (fun r => r._id == id) = some request) :
    ((approvePremium s (PathId.oid id) fault).2 =
        Outcome.sent (Reply.msg 200 "Premium Approved") ↔
      request.valid = true ∧ fault = WriteFault.none) ∧
    ((approvePremium s (PathId.oid id) fault).2 =
        Outcome.sent (Reply.msg 200 "Premium Approved") →
      (approvePremium s (PathId.oid id) fault).1 =
        { s with
          premiumRequests := updateFirst (fun r => r._id == id)
            (fun r => { r with status := ReqStatus.approved }) s.premiumRequests
          users := updateFirst (fun u => u.email == request.userEmail)
            (fun u => { u with isPremium := true }) s.users
          biodatas := updateFirst (fun b => b.biodataId == request.biodataId)
            (fun b => { b with isPremium := true }) s.biodatas } ∧
      (approvePremium s (PathId.oid id) fault).1.premiumRequests.find?
          (fun r => r._id == id) = some { request with status := ReqStatus.approved } ∧
      (approvePremium s (PathId.oid id) fault).1.users.find?
          (fun u => u.email == request.userEmail) =
        (s.users.find? (fun u => u.email == request.userEmail)).map
          (fun u => { u with isPremium := true }) ∧
      (approvePremium s (PathId.oid id) fault).1.biodatas.find?
          (fun b => b.biodataId == request.biodataId) =
        (s.biodatas.find? (fun b => b.biodataId == request.biodataId)).map
          (fun b => { b with isPremium := true })) ∧
    (¬ (request.valid = true ∧ fault = WriteFault.none) →
      ∃ e, (approvePremium s (PathId.oid id) fault).2 = Outcome.uncaught e) := by
  obtain ⟨pre, post, hsplit⟩ := splitFirst_of_find _ _ _ hFound
  have hupd : pre ++ { request with status := ReqStatus.approved } :: post =
      updateFirst (fun r => r._id == id)
        (fun r => { r with status := ReqStatus.approved }) s.premiumRequests :=
    (updateFirst_of_split (fun r : PremiumRequest => r._id == id)
      (fun r => { r with status := ReqStatus.approved }) _ _ _ _ hsplit).symm
  by_cases hv : request.valid = true
  · have hv' : ({ request with status := ReqStatus.approved } : PremiumRequest).valid
        = true := hv
    cases fault with
    | none =>
      have hpost : approvePremium s (PathId.oid id) WriteFault.none =
          ({ s with
              premiumRequests := updateFirst (fun r => r._id == id)
                (fun r => { r with status := ReqStatus.approved }) s.premiumRequests
              users := updateFirst (fun u => u.email == request.userEmail)
                (fun u => { u with isPremium := true }) s.users
              biodatas := updateFirst (fun b => b.biodataId == request.biodataId)
                (fun b => { b with isPremium := true }) s.biodatas },
            Outcome.sent (Reply.msg 200 "Premium Approved")) := by
        rw [← hupd]
        simp [approvePremium, hsplit, hv']
      rw [hpost]
      refine ⟨⟨fun _ => ⟨hv, rfl⟩, fun _ => rfl⟩, fun _ => ⟨rfl, ?_, ?_, ?_⟩,
        fun hn => absurd ⟨hv, rfl⟩ hn⟩
      · show (updateFirst (fun r => r._id == id)
            (fun r => { r with status := ReqStatus.approved }) s.premiumRequests).find?
            (fun r => r._id == id) = _
        rw [find_updateFirst (fun r : PremiumRequest => r._id == id)
          (fun r => { r with status := ReqStatus.approved }) s.premiumRequests (fun _ => rfl),
          hFound]
        rfl
      · exact find_updateFirst (fun u : User => u.email == request.userEmail)
          (fun u => { u with isPremium := true }) s.users (fun _ => rfl)
      · exact find_updateFirst (fun b : Biodata => b.biodataId == request.biodataId)
          (fun b => { b with isPremium := true }) s.biodatas (fun _ => rfl)
    | requestSave =>
      have hpost : (approvePremium s (PathId.oid id) WriteFault.requestSave).2 =
          Outcome.uncaught StoreError.unavailable := by
        simp [approvePremium, hsplit, hv']
      rw [hpost]
      exact ⟨⟨fun h => (by cases h), fun h => (by cases h.2)⟩, fun h => (by cases h),
        fun _ => ⟨_, rfl⟩⟩
    | userUpdate =>
      have hpost : (approvePremium s (PathId.oid id) WriteFault.userUpdate).2 =
          Outcome.uncaught StoreError.unavailable := by
        simp [approvePremium, hsplit, hv']
      rw [hpost]
      exact ⟨⟨fun h => (by cases h), fun h => (by cases h.2)⟩, fun h => (by cases h),
        fun _ => ⟨_, rfl⟩⟩
    | biodataUpdate =>
      have hpost : (approvePremium s (PathId.oid id) WriteFault.biodataUpdate).2 =
          Outcome.uncaught StoreError.unavailable := by
        simp [approvePremium, hsplit, hv']
      rw [hpost]
      exact ⟨⟨fun h => (by cases h), fun h => (by cases h.2)⟩, fun h => (by cases h),
        fun _ => ⟨_, rfl⟩⟩
  · have hv' : ({ request with status := ReqStatus.approved } : PremiumRequest).valid
        = false := by simpa using hv
    have hpost : (approvePremium s (PathId.oid id) fault).2 =
        Outcome.uncaught StoreError.validation := by
      simp [approvePremium, hsplit, hv']
    rw [hpost]
    exact ⟨⟨fun h => (by cases h), fun h => absurd h.1 hv⟩, fun h => (by cases h),
      fun _ => ⟨_, rfl⟩⟩

/-- C4 amended, at concrete inputs: approving request 20 of `storeMismatch`
with no rejected write succeeds and the User found by `a@x.com` afterwards is
the former one with `isPremium = true`; when the store rejects the Biodata
write, the approval ends in an error without a reply, with the request
approved and the User flag already set. -/
theorem approvePremium_sets_flags_where_found_witness :
    storeMismatch.premiumRequests.find? (fun r => r._id == 20) =
      some { _id := 20, biodataId := 2, userEmail := "a@x.com", userName := "A",
             status := ReqStatus.pending } ∧
    (approvePremium storeMismatch (PathId.oid 20) WriteFault.none).2 =
      Outcome.sent (Reply.msg 200 "Premium Approved") ∧
    (approvePremium storeMismatch (PathId.oid 20) WriteFault.none).1.users.find?
        (fun u => u.email == "a@x.com") =
      (storeMismatch.users.find? (fun u => u.email == "a@x.com")).map
        (fun u => { u with isPremium := true }) ∧
    (∃ e, (approvePremium storeMismatch (PathId.oid 20) WriteFault.biodataUpdate).2 =
      Outcome.uncaught e) ∧
    (approvePremium storeMismatch (PathId.oid 20) WriteFault.biodataUpdate).1.users.map
      (fun u => (u.email, u.isPremium)) = [("a@x.com", true)] ∧
    (approvePremium storeMismatch (PathId.oid 20)
      WriteFault.biodataUpdate).1.premiumRequests.map
      (fun r => (r._id, r.status)) = [(20, ReqStatus.approved)] := by
  have h := approvePremium_sets_flags_where_found storeMismatch 20 WriteFault.none
    { _id := 20, biodataId := 2, userEmail := "a@x.com", userName := "A",
      status := ReqStatus.pending } (by decide)
  have h' := approvePremium_sets_flags_where_found storeMismatch 20 WriteFault.biodataUpdate
    { _id := 20, biodataId := 2, userEmail := "a@x.com", userName := "A",
      status := ReqStatus.pending } (by decide)
  have hok := h.1.mpr ⟨by decide, rfl⟩
  exact ⟨by decide, hok, (h.2.1 hok).2.2.1, h'.2.2 (by decide), by decide, by decide⟩

/-- C5, refuted as stated: the path id `malformed`, a string that is no
ObjectId, matches no PremiumRequest of `storeMismatch`, yet no 404 is sent:
`findById` rejects with a cast error that the handler does not catch. -/
theorem approvePremium_malformed_id_sends_no_404 :
    approvePremium storeMismatch PathId.malformed WriteFault.none =
      (storeMismatch, Outcome.uncaught StoreError.castError) ∧
    (approvePremium storeMismatch PathId.malformed WriteFault.none).2 ≠
      Outcome.sent (Reply.msg 404 "Request not found") := by
  decide

/-- C5, amended: when the path id is a well-formed ObjectId that no
PremiumRequest has, the approval answers 404 with the message
`Request not found` and the whole store, so every PremiumRequest, User and
Biodata, is left as it was; no write is attempted, so this holds whatever
write the store would reject. -/
theorem approvePremium_unknown_id (s : Store) (id : ObjectId) (fault : WriteFault)
    (hNone : ∀ r ∈ s.premiumRequests, r._id ≠ id) :
    (approvePremium s (PathId.oid id) fault).2 =
      Outcome.sent (Reply.msg 404 "Request not found") ∧
    (Reply.msg 404 "Request not found").status = 404 ∧
    (approvePremium s (PathId.oid id) fault).1 = s := by
  have hsplit : splitFirst (fun r : PremiumRequest => r._id == id) s.premiumRequests = none :=
    splitFirst_eq_none _ _ (fun r hr => by simpa using hNone r hr)
  simp [approvePremium, hsplit, Reply.msg]

/-- C5 amended, at a concrete input: `storeMismatch` holds request 20 only,
and approving the well-formed id 21 is answered 404 without any change. -/
theorem approvePremium_unknown_id_witness :
    (∀ r ∈ storeMismatch.premiumRequests, r._id ≠ 21) ∧
    (approvePremium storeMismatch (PathId.oid 21) WriteFault.none).2 =
      Outcome.sent (Reply.msg 404 "Request not found") ∧
    (approvePremium storeMismatch (PathId.oid 21) WriteFault.none).1 = storeMismatch :=
  have hNone : ∀ r ∈ storeMismatch.premiumRequests, r._id ≠ 21 := by decide
  ⟨hNone, (approvePremium_unknown_id storeMismatch 21 WriteFault.none hNone).1,
    (approvePremium_unknown_id storeMismatch 21 WriteFault.none hNone).2.2⟩

/-- C6: the `revenue` of `GET /admin/stats` is 5 times the number of
ContactRequest documents whose status is approved. -/
theorem adminStats_revenue (s : Store) :
    (adminStats s).revenue =
      5 * (s.contactRequests.filter (fun c => c.status = ReqStatus.approved)).length := by
  have h := countDocuments_eq_filter_length
    (fun c : ContactRequest => c.status == ReqStatus.approved) s.contactRequests
  have hfilter : s.contactRequests.filter (fun c => c.status == ReqStatus.approved) =
      s.contactRequests.filter (fun c => decide (c.status = ReqStatus.approved)) := by
    congr 1
  simp only [adminStats, h, hfilter]
  omega

/-- C7, refuted as stated: on the empty store the sign-in body of `a@x.com`
without `name` is refused by schema validation on both calls, so no User with
that email exists afterwards. -/
theorem postJwt_without_name_creates_no_user :
    postJwt sampleSign Store.empty 0 jwtBodyNoName =
      (Store.empty, JwtOutcome.uncaught StoreError.validation) ∧
    postJwt sampleSign (postJwt sampleSign Store.empty 0 jwtBodyNoName).1 1 jwtBodyNoName =
      (Store.empty, JwtOutcome.uncaught StoreError.validation) ∧
    ((postJwt sampleSign (postJwt sampleSign Store.empty 0 jwtBodyNoName).1 1
        jwtBodyNoName).1.users.filter (fun u => u.email == "a@x.com")).length = 0 := by
  decide

/-- C7, amended: for a store with at most one User of email `e` and a body
whose `email` `e` and `name` `n` are present and non-empty, two calls of
`POST /auth/jwt` in sequence both return a token, leave exactly one User with
email `e`, and the second call changes nothing; the first call changes nothing
when a User with email `e` exists and otherwise appends one User with the
body's email, name and photoURL, role `user` and `isPremium = false`. -/
theorem postJwt_twice_one_user (sign : Option String → String) (s : Store)
    (oid1 oid2 : ObjectId) (body : JwtBody) (e n : String)
    (hE : body.email = some e) (hN : body.name = some n)
    (he : e ≠ "") (hn : n ≠ "")
    (hOne : (s.users.filter (fun u => u.email == e)).length ≤ 1) :
    ((postJwt sign (postJwt sign s oid1 body).1 oid2 body).1.users.filter
        (fun u => u.email == e)).length = 1 ∧
    (postJwt sign (postJwt sign s oid1 body).1 oid2 body).1 = (postJwt sign s oid1 body).1 ∧
    (postJwt sign s oid1 body).2 = JwtOutcome.token (sign (some e)) ∧
    (postJwt sign (postJwt sign s oid1 body).1 oid2 body).2 = JwtOutcome.token (sign (some e)) ∧
    ((∃ u ∈ s.users, u.email = e) → (postJwt sign s oid1 body).1 = s) ∧
    ((∀ u ∈ s.users, u.email ≠ e) →
      (postJwt sign s oid1 body).1 =
        { s with users := s.users ++
            [{ _id := oid1, name := n, email := e, photoURL := body.photoURL,
               role := Role.user, isPremium := false }] }) := by
  cases hf : s.users.find? (fun u => u.email == e) with
  | some u =>
    have hmem : u ∈ s.users := List.mem_of_find?_eq_some hf
    have hpu : (u.email == e) = true :=
      (splitFirst_eq_some (fun u : User => u.email == e) _ _ _ _
        (splitFirst_of_find _ _ _ hf).choose_spec.choose_spec).2.1
    have h1 : postJwt sign s oid1 body = (s, JwtOutcome.token (sign (some e))) := by
      simp [postJwt, findUserByEmail, hE, hf]
    have h2 : postJwt sign s oid2 body = (s, JwtOutcome.token (sign (some e))) := by
      simp [postJwt, findUserByEmail, hE, hf]
    have hpos : 0 < (s.users.filter (fun u => u.email == e)).length :=
      List.length_pos_of_mem (List.mem_filter.mpr ⟨hmem, hpu⟩)
    have e1 : (postJwt sign s oid1 body).1 = s := by rw [h1]
    have e2 : postJwt sign (postJwt sign s oid1 body).1 oid2 body =
        (s, JwtOutcome.token (sign (some e))) := by rw [e1]; exact h2
    have hlen1 : (s.users.filter (fun u => u.email == e)).length = 1 := by omega
    refine ⟨by rw [e2]; exact hlen1, by rw [e2, e1], by rw [h1], by rw [e2],
      fun _ => e1, ?_⟩
    intro hall
    exact absurd (by simpa using hpu) (hall u hmem)
  | none =>
    have hall : ∀ u ∈ s.users, (u.email == e) = false := by
      intro u hu
      have := List.find?_eq_none.mp hf u hu
      simpa using this
    have hany : s.users.any (fun o => o.email == e) = false := by
      rw [List.any_eq_false]
      intro u hu
      simp [hall u hu]
    have h1 : postJwt sign s oid1 body =
        ({ s with users := s.users ++
            [{ _id := oid1, name := n, email := e, photoURL := body.photoURL,
               role := Role.user, isPremium := false }] },
          JwtOutcome.token (sign (some e))) := by
      simp [postJwt, findUserByEmail, hE, hN, hf, newUser, User.valid, nonEmpty, he, hn, hany]
    have h2 : postJwt sign
        { s with users := s.users ++
            [{ _id := oid1, name := n, email := e, photoURL := body.photoURL,
               role := Role.user, isPremium := false }] } oid2 body =
        ({ s with users := s.users ++
            [{ _id := oid1, name := n, email := e, photoURL := body.photoURL,
               role := Role.user, isPremium := false }] },
          JwtOutcome.token (sign (some e))) := by
      simp [postJwt, findUserByEmail, hE, hf, List.find?_append]
    have hfilter : s.users.filter (fun u => u.email == e) = [] := by
      rw [List.filter_eq_nil_iff]
      intro u hu
      simp [hall u hu]
    have e1 : (postJwt sign s oid1 body).1 =
        { s with users := s.users ++
            [{ _id := oid1, name := n, email := e, photoURL := body.photoURL,
               role := Role.user, isPremium := false }] } := by rw [h1]
    have e2 : postJwt sign (postJwt sign s oid1 body).1 oid2 body =
        ({ s with users := s.users ++
            [{ _id := oid1, name := n, email := e, photoURL := body.photoURL,
               role := Role.user, isPremium := false }] },
          JwtOutcome.token (sign (some e))) := by rw [e1]; exact h2
    refine ⟨by rw [e2]; simp [List.filter_append, hfilter], by rw [e2, e1], by rw [h1],
      by rw [e2], ?_, fun _ => e1⟩
    rintro ⟨u, hu, hue⟩
    have := hall u hu
    simp [hue] at this

/-- C7 amended, at a concrete input: two sign-ins of `a@x.com` with name `A`
on the empty store leave exactly one User with that email. -/
theorem postJwt_twice_one_user_witness :
    jwtBodyA.email = some "a@x.com" ∧ jwtBodyA.name = some "A" ∧
    (Store.empty.users.filter (fun u => u.email == "a@x.com")).length ≤ 1 ∧
    ((postJwt sampleSign (postJwt sampleSign Store.empty 0 jwtBodyA).1 1 jwtBodyA).1.users.filter
        (fun u => u.email == "a@x.com")).length = 1 :=
  ⟨rfl, rfl, by decide,
    (postJwt_twice_one_user sampleSign Store.empty 0 1 jwtBodyA "a@x.com" "A" rfl rfl
      (by decide) (by decide) (by decide)).1⟩

/-- C8, refuted as stated: `storeA` holds the Biodata with `biodataId` 1, yet
the body without `userEmail` is answered 500 and no ContactRequest is created. -/
theorem saveInfo_without_userEmail_creates_nothing :
    (findBiodataById storeA.biodatas payBodyNoEmail.biodataId).isSome = true ∧
    saveInfo storeA 0 payBodyNoEmail = (storeA, Reply.msg 500 "Error saving payment info") ∧
    (saveInfo storeA 0 payBodyNoEmail).1.contactRequests = [] := by
  decide

/-- C8, amended: for a body with `biodataId` `id`, when no Biodata has that
`biodataId` the reply is 404 and the store is unchanged; when `target` is the
Biodata found and the body's `userEmail` is present and non-empty, exactly one
ContactRequest is appended, in status pending for every `transactionId`
(absent included), with `requesterEmail` the body's `userEmail` and the
snapshot fields equal to the target's `name`, `contactEmail` and
`mobileNumber`; when the target exists and `userEmail` is missing or empty the
reply is 500 and the store is unchanged. -/
theorem saveInfo_snapshot (s : Store) (oid : ObjectId) (body : SaveInfoBody) (id : Int)
    (hId : body.biodataId = some id) :
    ((∀ b ∈ s.biodatas, b.biodataId ≠ id) →
      saveInfo s oid body = (s, Reply.msg 404 "Biodata not found")) ∧
    (∀ target, s.biodatas.find? (fun b => b.biodataId == id) = some target →
      (∀ e, body.userEmail = some e → e ≠ "" →
        saveInfo s oid body =
          ({ s with contactRequests := s.contactRequests ++
              [{ _id := oid, biodataId := id, requesterEmail := e,
                 status := ReqStatus.pending, transactionId := body.transactionId,
                 amount := 5, biodataName := some target.name,
                 biodataEmail := some target.contactEmail,
                 biodataPhone := some target.mobileNumber }] },
            Reply.msg 200 "Payment successful, request pending approval")) ∧
      ((body.userEmail = none ∨ body.userEmail = some "") →
        saveInfo s oid body = (s, Reply.msg 500 "Error saving payment info"))) := by
  constructor
  · intro hnone
    have hfind : s.biodatas.find? (fun b => b.biodataId == id) = none :=
      find_eq_none_of_forall _ _ (fun b hb => by simpa using hnone b hb)
    simp [saveInfo, findBiodataById, hId, hfind]
  · intro target hfind
    constructor
    · intro e hE he
      simp [saveInfo, findBiodataById, hId, hfind, newContactRequest, hE,
        ContactRequest.valid, nonEmpty, he]
    · intro hbad
      rcases hbad with h | h
      · simp [saveInfo, findBiodataById, hId, hfind, newContactRequest, h]
      · simp [saveInfo, findBiodataById, hId, hfind, newContactRequest, h,
          ContactRequest.valid, nonEmpty]

/-- C8 amended, at a concrete input: `c@x.com` pays for `biodataId` 1 of
`storeA` without a `transactionId`; one pending ContactRequest with the
snapshot of that Biodata is created. -/
theorem saveInfo_snapshot_witness :
    payBodyC.biodataId = some 1 ∧
    (saveInfo storeA 30 payBodyC).1.contactRequests =
      [{ _id := 30, biodataId := 1, requesterEmail := "c@x.com",
         status := ReqStatus.pending, transactionId := none, amount := 5,
         biodataName := some "A", biodataEmail := some "a@x.com",
         biodataPhone := some "0100" }] := by
  have hfind : storeA.biodatas.find? (fun b => b.biodataId == 1) = some recordA := by
    decide
  have h := ((saveInfo_snapshot storeA 30 payBodyC 1 rfl).2 recordA hfind).1
    "c@x.com" rfl (by decide)
  refine ⟨rfl, ?_⟩
  rw [h]
  decide

/-- C9, the code at the failing input: `storeContact` holds the single
ContactRequest 30; approving id 31, which matches no ContactRequest, is
answered 200 `Contact Request Approved` and the store is unchanged. -/
theorem approveContact_unknown_id_reports_success :
    (∀ c ∈ storeContact.contactRequests, c._id ≠ 31) ∧
    approveContact storeContact 31 =
      (storeContact, Outcome.sent (Reply.msg 200 "Contact Request Approved")) ∧
    (Reply.msg 200 "Contact Request Approved").status = 200 := by
  decide

/-- The part of C9 that the code does: when `c` is the ContactRequest found by
the id, approval replies 200, the document found by the id afterwards is `c`
with status approved and no other field changed, the collection is changed at
that document only, and the other collections are untouched. -/
theorem approveContact_marks_found (s : Store) (id : ObjectId) (c : ContactRequest)
    (hFound : s.contactRequests.find? (fun x => x._id == id) = some c) :
    (approveContact s id).2 = Outcome.sent (Reply.msg 200 "Contact Request Approved") ∧
    (approveContact s id).1.contactRequests.find? (fun x => x._id == id) =
      some { c with status := ReqStatus.approved } ∧
    (∃ pre post, s.contactRequests = pre ++ c :: post ∧
      (approveContact s id).1.contactRequests =
        pre ++ { c with status := ReqStatus.approved } :: post) ∧
    (approveContact s id).1.users = s.users ∧
    (approveContact s id).1.biodatas = s.biodatas ∧
    (approveContact s id).1.premiumRequests = s.premiumRequests ∧
    (approveContact s id).1.favourites = s.favourites := by
  obtain ⟨pre, post, hsplit⟩ := splitFirst_of_find _ _ _ hFound
  refine ⟨rfl, ?_, ⟨pre, post, (splitFirst_eq_some _ _ _ _ _ hsplit).1, ?_⟩, rfl, rfl, rfl, rfl⟩
  · show (updateFirst (fun x => x._id == id)
        (fun x => { x with status := ReqStatus.approved }) s.contactRequests).find?
        (fun x => x._id == id) = _
    rw [find_updateFirst (fun x : ContactRequest => x._id == id)
      (fun x => { x with status := ReqStatus.approved }) s.contactRequests (fun _ => rfl),
      hFound]
    rfl
  · exact updateFirst_of_split (fun x : ContactRequest => x._id == id)
      (fun x => { x with status := ReqStatus.approved }) _ _ _ _ hsplit

/-- C10, refuted as stated: the header `Bearer  abc` (two spaces) has a second
and a third space-separated field and every token is accepted by `acceptAll`,
yet the middleware answers 401, because the second field is the empty string. -/
theorem verifyToken_empty_second_field :
    split "Bearer  abc" = ["Bearer", "", "abc"] ∧
    verifyToken acceptAll (some "Bearer  abc") =
      Gate.reply (Reply.msg 401 "Unauthorized access") := by
  decide

/-- C10, amended: `verifyToken` replies 401 exactly when the Authorization
header is absent or its second space-separated field is missing or empty;
replies 403 exactly when that field is a non-empty token whose verification
fails; and calls `next` with `req.user` set to the decoded claims exactly when
that field is a non-empty token that verifies.  A reply and a call of `next`
exclude each other, so `next` is not called in the 401 and 403 cases. -/
theorem verifyToken_cases (verify : String → Option Claims) (authorization : Option String) :
    ((∃ r, verifyToken verify authorization = Gate.reply r ∧ r.status = 401) ↔
      (authorization = none ∨ ∃ h, authorization = some h ∧
        ((split h)[1]? = none ∨ (split h)[1]? = some ""))) ∧
    ((∃ r, verifyToken verify authorization = Gate.reply r ∧ r.status = 403) ↔
      ∃ h t, authorization = some h ∧ (split h)[1]? = some t ∧ t ≠ "" ∧ verify t = none) ∧
    (∀ d, verifyToken verify authorization = Gate.next d ↔
      ∃ h t, authorization = some h ∧ (split h)[1]? = some t ∧ t ≠ "" ∧
        verify t = some d) ∧
    (∀ r, verifyToken verify authorization = Gate.reply r → r.status = 401 ∨ r.status = 403) := by
  cases authorization with
  | none => simp [verifyToken, bearerToken, Reply.msg]
  | some h =>
    cases hs : (split h)[1]? with
    | none =>
      have hlen : (split h).length ≤ 1 := by simpa using hs
      simp [verifyToken, bearerToken, hs, Reply.msg, hlen]
    | some t =>
      have hlen : 1 < (split h).length := by
        by_contra hc
        rw [List.getElem?_eq_none (by omega)] at hs
        cases hs
      by_cases ht : t = ""
      · subst ht
        simp [verifyToken, bearerToken, hs, Reply.msg, hlen]
      · cases hv : verify t with
        | none => simp [verifyToken, bearerToken, hs, ht, hv, Reply.msg, hlen]
        | some d => simp [verifyToken, bearerToken, hs, ht, hv, Reply.msg, hlen]

/-- C11: `verifyAdmin` calls `next()` exactly when the token carries an email
and the first User of the collection with that email has role `admin`; with
the unique index on `email` this is: some stored User has the token's email
and role `admin`.  In every other case (no User with that email, role `user`,
a token without email) it replies 403 and a handler behind it does not run, so
the store is unchanged; when it passes, the route is the handler.  The role is
read from the store of the request: for a stored User with role `user` the
request is refused, and after `PATCH /admin/users/admin/:id` on that User the
same token passes. -/
theorem verifyAdmin_iff_stored_admin (s : Store) (user : Claims)
    (handler : Store → Store × Outcome) :
    (verifyAdmin s user = Gate.next user ↔
      ∃ e pre u post, user.email = some e ∧ s.users = pre ++ u :: post ∧
        (∀ x ∈ pre, x.email ≠ e) ∧ u.email = e ∧ u.role = Role.admin) ∧
    ((s.users.map (fun u => u.email)).Nodup →
      (verifyAdmin s user = Gate.next user ↔
        ∃ u ∈ s.users, user.email = some u.email ∧ u.role = Role.admin)) ∧
    (verifyAdmin s user = Gate.next user ∨
      verifyAdmin s user = Gate.reply (Reply.msg 403 "Forbidden: Admins only")) ∧
    (verifyAdmin s user = Gate.next user → adminRoute s user handler = handler s) ∧
    (verifyAdmin s user ≠ Gate.next user →
      adminRoute s user handler =
        (s, Outcome.sent (Reply.msg 403 "Forbidden: Admins only"))) ∧
    (user.email = none →
      verifyAdmin s user = Gate.reply (Reply.msg 403 "Forbidden: Admins only")) ∧
    ((∀ u ∈ s.users, user.email ≠ some u.email) →
      verifyAdmin s user = Gate.reply (Reply.msg 403 "Forbidden: Admins only")) ∧
    (∀ u ∈ s.users, user.email = some u.email → u.role = Role.user →
      (s.users.map (fun u => u.email)).Nodup → (s.users.map (fun u => u._id)).Nodup →
      verifyAdmin s user = Gate.reply (Reply.msg 403 "Forbidden: Admins only") ∧
      verifyAdmin (makeAdmin s u._id).1 user = Gate.next user) := by
  have h1 : verifyAdmin s user = Gate.next user ↔
      ∃ e pre u post, user.email = some e ∧ s.users = pre ++ u :: post ∧
        (∀ x ∈ pre, x.email ≠ e) ∧ u.email = e ∧ u.role = Role.admin := by
    rw [verifyAdmin_next_iff]
    constructor
    · rintro ⟨u, hf, hr⟩
      obtain ⟨e, pre, post, he, hl, hpre, hu⟩ :=
        (findUserByEmail_eq_some_iff s.users user.email u).mp hf
      exact ⟨e, pre, u, post, he, hl, hpre, hu, hr⟩
    · rintro ⟨e, pre, u, post, he, hl, hpre, hu, hr⟩
      exact ⟨u, (findUserByEmail_eq_some_iff s.users user.email u).mpr
        ⟨e, pre, post, he, hl, hpre, hu⟩, hr⟩
  have hfind : ∀ u ∈ s.users, user.email = some u.email →
      (s.users.map (fun u => u.email)).Nodup →
      findUserByEmail s.users user.email = some u := by
    intro u hu he hn
    rw [he]
    exact find_of_mem_nodup (fun x : User => x.email) s.users u hn hu
  refine ⟨h1, ?_, verifyAdmin_cases s user, ?_, ?_, ?_, ?_, ?_⟩
  · intro hn
    constructor
    · intro h
      obtain ⟨e, pre, u, post, he, hl, _, hu, hr⟩ := h1.mp h
      refine ⟨u, by rw [hl]; simp, by rw [he, hu], hr⟩
    · rintro ⟨u, hu, he, hr⟩
      exact (verifyAdmin_next_iff s user).mpr ⟨u, hfind u hu he hn, hr⟩
  · intro h
    simp [adminRoute, h]
  · intro h
    rcases verifyAdmin_cases s user with hc | hc
    · exact absurd hc h
    · simp [adminRoute, hc]
  · intro he
    simp [verifyAdmin, findUserByEmail, he]
  · intro hno
    rcases verifyAdmin_cases s user with hc | hc
    · obtain ⟨e, pre, u, post, he, hl, _, hu, _⟩ := h1.mp hc
      exact absurd (by rw [he, hu]) (hno u (by rw [hl]; simp))
    · exact hc
  · intro u hu he hr hne hni
    have hf := hfind u hu he hne
    have hid : s.users.find? (fun x => x._id == u._id) = some u :=
      find_of_mem_nodup (fun x : User => x._id) s.users u hni hu
    constructor
    · simp [verifyAdmin, hf, hr]
    · have hf' : s.users.find? (fun x => x.email == u.email) = some u := by
        simpa [findUserByEmail, he] using hf
      have hnew := find_updateFirst_other (fun x : User => x.email == u.email)
        (fun x => x._id == u._id) (fun x => { x with role := Role.admin }) s.users u
        hf' hid (fun _ => rfl)
      simp [verifyAdmin, makeAdmin, findUserByEmail, he, hnew]

/-- C11 at a concrete input: in `storeTwoUsers` the first User of the
collection, `root@x.com`, is an admin and `a@x.com` is stored with role
`user`.  The token of `root@x.com` passes; the token of `a@x.com` is refused
and the approval handler behind `verifyAdmin`, which would change the store,
is not run; a
token of an email no User has and a token without email are refused; after
User 10 was made admin the token of `a@x.com` passes. -/
theorem verifyAdmin_iff_stored_admin_witness :
    storeTwoUsers.users.map (fun u => (u._id, u.email, u.role)) =
      [(11, "root@x.com", Role.admin), (10, "a@x.com", Role.user)] ∧
    (approvePremium storeTwoUsers (PathId.oid 20) WriteFault.none).1 ≠ storeTwoUsers ∧
    verifyAdmin storeTwoUsers claimsRoot = Gate.next claimsRoot ∧
    verifyAdmin storeTwoUsers claimsA =
      Gate.reply (Reply.msg 403 "Forbidden: Admins only") ∧
    adminRoute storeTwoUsers claimsA
        (fun s => approvePremium s (PathId.oid 20) WriteFault.none) =
      (storeTwoUsers, Outcome.sent (Reply.msg 403 "Forbidden: Admins only")) ∧
    adminRoute storeTwoUsers claimsRoot
        (fun s => approvePremium s (PathId.oid 20) WriteFault.none) =
      approvePremium storeTwoUsers (PathId.oid 20) WriteFault.none ∧
    verifyAdmin storeTwoUsers { email := some "c@x.com" } =
      Gate.reply (Reply.msg 403 "Forbidden: Admins only") ∧
    verifyAdmin storeTwoUsers { email := none } =
      Gate.reply (Reply.msg 403 "Forbidden: Admins only") ∧
    verifyAdmin (makeAdmin storeTwoUsers 10).1 claimsA = Gate.next claimsA := by
  have hA := verifyAdmin_iff_stored_admin storeTwoUsers claimsA
    (fun s => approvePremium s (PathId.oid 20) WriteFault.none)
  have hR := verifyAdmin_iff_stored_admin storeTwoUsers claimsRoot
    (fun s => approvePremium s (PathId.oid 20) WriteFault.none)
  have hC := verifyAdmin_iff_stored_admin storeTwoUsers { email := some "c@x.com" }
    (fun s => approvePremium s (PathId.oid 20) WriteFault.none)
  have hN := verifyAdmin_iff_stored_admin storeTwoUsers { email := none }
    (fun s => approvePremium s (PathId.oid 20) WriteFault.none)
  have hRoot : verifyAdmin storeTwoUsers claimsRoot = Gate.next claimsRoot :=
    (hR.2.1 (by decide)).mpr
      ⟨{ _id := 11, name := "Root", email := "root@x.com", photoURL := none,
         role := Role.admin, isPremium := false }, by decide, rfl, rfl⟩
  have h8 := hA.2.2.2.2.2.2.2
    { _id := 10, name := "A", email := "a@x.com", photoURL := none,
      role := Role.user, isPremium := false } (by decide) rfl rfl (by decide) (by decide)
  have hAno : verifyAdmin storeTwoUsers claimsA ≠ Gate.next claimsA := by
    rw [h8.1]
    exact fun h => by cases h
  exact ⟨by decide, by decide, hRoot, h8.1, hA.2.2.2.2.1 hAno, hR.2.2.2.1 hRoot,
    hC.2.2.2.2.2.2.1 (by decide), hN.2.2.2.2.2.1 rfl, h8.2⟩

/-- C12, the code at the failing input: `Favourite` is not in scope of
`userRoutes.js`, so `POST /users/favourites` ends in a `ReferenceError` that
nothing catches, both when the pair of the body is already a Favourite
(`storeFav`, where the claim expects 400) and when it is not (`storeAB`,
where the claim expects one new Favourite); the store is unchanged. -/
theorem postFavourite_throws_reference_error :
    userRoutesScope.contains Binding.Favourite = false ∧
    (findFavourite storeFav.favourites favBodyA.userEmail favBodyA.biodataId).isSome = true ∧
    postFavourite storeFav 41 favBodyA =
      (storeFav, Outcome.uncaught StoreError.referenceError) ∧
    findFavourite storeAB.favourites favBodyA.userEmail favBodyA.biodataId = none ∧
    postFavourite storeAB 41 favBodyA =
      (storeAB, Outcome.uncaught StoreError.referenceError) := by
  decide

/-- What the statements of `POST /users/favourites` would do with `Favourite`
in scope: 400 and no change when the pair of the body is a Favourite already;
otherwise, for a body with `biodataId` and a non-empty `userEmail`, one new
Favourite with the five values of the body. -/
theorem postFavouriteBody_conflict_or_insert (s : Store) (oid : ObjectId)
    (body : FavouriteBody) (e : String) (id : Int)
    (hE : body.userEmail = some e) (hId : body.biodataId = some id) :
    ((∃ f ∈ s.favourites, f.userEmail = e ∧ f.biodataId = id) →
      postFavouriteBody s oid body =
        (s, Outcome.sent (Reply.msg 400 "Already in favourites"))) ∧
    ((∀ f ∈ s.favourites, ¬ (f.userEmail = e ∧ f.biodataId = id)) → e ≠ "" →
      postFavouriteBody s oid body =
        ({ s with favourites := s.favourites ++
            [{ _id := oid, userEmail := e, biodataId := id, name := body.name,
               permanentAddress := body.permanentAddress, occupation := body.occupation }] },
          Outcome.sent (Reply.msg 200 "Added to favourites"))) := by
  constructor
  · rintro ⟨f, hf, hfe, hfi⟩
    have hsome : (s.favourites.find?
        (fun f => f.userEmail == e && f.biodataId == id)).isSome = true := by
      rw [List.find?_isSome]
      exact ⟨f, hf, by simp [hfe, hfi]⟩
    obtain ⟨x, hx⟩ := Option.isSome_iff_exists.mp hsome
    simp [postFavouriteBody, findFavourite, hE, hId, hx]
  · intro hnone he
    have hfind : s.favourites.find?
        (fun f => f.userEmail == e && f.biodataId == id) = none := by
      apply find_eq_none_of_forall
      intro f hf
      have := hnone f hf
      by_cases h1 : f.userEmail = e
      · have h2 : f.biodataId ≠ id := fun h2 => this ⟨h1, h2⟩
        simp [h1, h2]
      · simp [h1]
    simp [postFavouriteBody, findFavourite, hE, hId, hfind, newFavourite,
      Favourite.valid, nonEmpty, he]

/-- C13, the code at failing inputs: four handlers without a `try` end in an
error that nothing catches, without a reply: `DELETE /users/favourites/:id`
and `DELETE /users/contact-requests/:id` (the model name is not in scope),
`POST /payment/create-payment-intent` when the payment adapter rejects, and
`POST /auth/jwt` for a body without `email` (rejected `User.create`). -/
theorem handlers_without_try_let_errors_escape :
    deleteFavourite storeFav 40 = (storeFav, Outcome.uncaught StoreError.referenceError) ∧
    deleteContactRequest storeContact 30 =
      (storeContact, Outcome.uncaught StoreError.referenceError) ∧
    createPaymentIntent stripeDown 5 = PaymentOutcome.uncaught StoreError.adapterFailure ∧
    postJwt sampleSign Store.empty 0 jwtBodyNoEmail =
      (Store.empty, JwtOutcome.uncaught StoreError.validation) := by
  decide

/-- C14, the code at failing inputs: two runs of `POST /biodatas` are both
answered 500 with the message `Error saving biodata`, one after a validation
failure and one after a duplicate key, and the two bodies differ in their
`error` field: the `catch` block copies the caught error into the body. -/
theorem postBiodata_500_body_carries_error :
    (postBiodata storeAB 2 bodyBlankName).2 = biodataError StoreError.validation ∧
    (postBiodata storeAB 2 bodyTakeTwo).2 = biodataError StoreError.duplicateKey ∧
    (postBiodata storeAB 2 bodyBlankName).2.status = 500 ∧
    (postBiodata storeAB 2 bodyTakeTwo).2.status = 500 ∧
    (postBiodata storeAB 2 bodyBlankName).2.message =
      (postBiodata storeAB 2 bodyTakeTwo).2.message ∧
    (postBiodata storeAB 2 bodyBlankName).2 ≠ (postBiodata storeAB 2 bodyTakeTwo).2 ∧
    (∀ e, (biodataError e).error = some e) := by
  refine ⟨by decide, by decide, by decide, by decide, by decide, by decide, fun _ => rfl⟩

/-- C15, refuted as stated: `GET /biodatas?type=` supplies the filter `type`
with the empty value.  No Biodata of `storeAB` has `biodataType` equal to the
empty string, yet the reply reports `total` 2 and carries both records: the
guard `if (type)` drops a filter whose value is empty. -/
theorem getBiodatas_empty_type_filters_nothing :
    getBiodatas storeAB queryEmptyType =
      ListOutcome.ok { data := storeAB.biodatas, total := 2, page := 1, limit := 20 } ∧
    storeAB.biodatas.map (fun b => b.biodataType) = ["Male", "Male"] ∧
    (storeAB.biodatas.filter (fun b => b.biodataType == "")).length = 0 := by
  decide

/-- C15, amended: for `page >= 1` and `limit >= 1` (given, or the defaults 1 and 20)
`GET /biodatas` answers with the list reply; `total` is the number of Biodata
satisfying every filter supplied with a non-empty value (`type`, `division`)
or supplied at all (`ageMin`, `ageMax`), an expression in which `page`,
`limit` and `sort` do not occur; `data` is the stretch from position
`(page-1)*limit` of length at most `limit` of the matching records in their
order, which is a rearrangement of the matching records, non-decreasing in
`age` for `sort = ascending` and non-increasing for `sort = descending`; every
record of `data` satisfies the filters. -/
theorem getBiodatas_page (s : Store) (q : ListQuery)
    (hPage : 1 ≤ q.page.getD 1) (hLimit : 1 ≤ q.limit.getD 20) :
    ∃ r, getBiodatas s q = ListOutcome.ok r ∧
      r.page = q.page.getD 1 ∧ r.limit = q.limit.getD 20 ∧
      r.total =
        (s.biodatas.filter (matchesQuery q.type q.division q.ageMin q.ageMax)).length ∧
      (∀ b, matchesQuery q.type q.division q.ageMin q.ageMax b = true ↔
        ((∀ t, q.type = some t → t ≠ "" → b.biodataType = t) ∧
         (∀ d, q.division = some d → d ≠ "" → b.permanentDivision = d) ∧
         (∀ lo, q.ageMin = some lo → lo ≤ b.age) ∧
         (∀ hi, q.ageMax = some hi → b.age ≤ hi))) ∧
      r.data =
        ((sortByAge q.sort
            (s.biodatas.filter (matchesQuery q.type q.division q.ageMin q.ageMax))).drop
          ((q.page.getD 1 - 1) * q.limit.getD 20).toNat).take (q.limit.getD 20).toNat ∧
      (sortByAge q.sort
          (s.biodatas.filter (matchesQuery q.type q.division q.ageMin q.ageMax))).Perm
        (s.biodatas.filter (matchesQuery q.type q.division q.ageMin q.ageMax)) ∧
      (q.sort = some "ascending" →
        (sortByAge q.sort
          (s.biodatas.filter (matchesQuery q.type q.division q.ageMin q.ageMax))).Sorted
          (fun x y => x.age ≤ y.age)) ∧
      (q.sort = some "descending" →
        (sortByAge q.sort
          (s.biodatas.filter (matchesQuery q.type q.division q.ageMin q.ageMax))).Sorted
          (fun x y => y.age ≤ x.age)) ∧
      r.data.length ≤ (q.limit.getD 20).toNat ∧
      (∀ b ∈ r.data, matchesQuery q.type q.division q.ageMin q.ageMax b = true) := by
  have hskip : ¬ ((q.page.getD 1 - 1) * q.limit.getD 20 < 0) := by
    have : 0 ≤ (q.page.getD 1 - 1) * q.limit.getD 20 :=
      Int.mul_nonneg (by omega) (by omega)
    omega
  have hlim0 : q.limit.getD 20 ≠ 0 := by omega
  have habs : (q.limit.getD 20).natAbs = (q.limit.getD 20).toNat := by omega
  refine ⟨{ data := ((sortByAge q.sort
              (s.biodatas.filter (matchesQuery q.type q.division q.ageMin q.ageMax))).drop
            ((q.page.getD 1 - 1) * q.limit.getD 20).toNat).take (q.limit.getD 20).toNat
            total := countDocuments (matchesQuery q.type q.division q.ageMin q.ageMax)
              s.biodatas
            page := q.page.getD 1
            limit := q.limit.getD 20 },
    ?_, rfl, rfl, ?_, matchesQuery_iff _ _ _ _, rfl, sortByAge_perm _ _, ?_, ?_, ?_, ?_⟩
  · simp only [getBiodatas, if_neg hskip, if_neg hlim0, habs]
  · exact countDocuments_eq_filter_length _ _
  · intro h
    rw [h]
    exact sortByAge_ascending _
  · intro h
    rw [h]
    exact sortByAge_descending _
  · exact List.length_take_le _ _
  · intro b hb
    have h1 := List.mem_of_mem_drop (List.mem_of_mem_take hb)
    have h2 := (sortByAge_perm q.sort _).subset h1
    exact (List.mem_filter.mp h2).2

/-- C15 amended, at a concrete input: in `storeAB` (two `Male` records of age 30) the
second page of size 1 holds one record and `total` is 2. -/
theorem getBiodatas_page_witness :
    (1 : Int) ≤ querySecondPage.page.getD 1 ∧ (1 : Int) ≤ querySecondPage.limit.getD 20 ∧
    ∃ r, getBiodatas storeAB querySecondPage = ListOutcome.ok r ∧ r.total = 2 ∧
      r.data.map (fun b => b.userEmail) = ["b@x.com"] := by
  obtain ⟨r, hr, _, _, ht, _, hd, _⟩ :=
    getBiodatas_page storeAB querySecondPage (by decide) (by decide)
  refine ⟨by decide, by decide, r, hr, ?_, ?_⟩
  · rw [ht]
    decide
  · rw [hd]
    decide

/-- C16: along every sequence of requests, from every store, a PremiumRequest
or ContactRequest that is approved is still a document of its collection
afterwards, unchanged, hence approved and never pending again; the `_id`s of
the PremiumRequests present before are the first `_id`s of the collection
afterwards, so no PremiumRequest is deleted.  The only statements that remove
a ContactRequest are those of `DELETE /users/contact-requests/:id`, and what
they would remove is the document with the given id. -/
theorem approved_never_pending_again (s : Store) (reqs : List Request) :
    (∀ r ∈ s.premiumRequests, r.status = ReqStatus.approved →
      r ∈ (run s reqs).premiumRequests) ∧
    (∀ c ∈ s.contactRequests, c.status = ReqStatus.approved →
      c ∈ (run s reqs).contactRequests) ∧
    (s.premiumRequests.map (fun r => r._id)) <+:
      ((run s reqs).premiumRequests.map (fun r => r._id)) ∧
    (∀ id, ∀ c ∈ s.contactRequests,
      c ∈ (deleteContactRequestBody s id).1.contactRequests ∨ c._id = id) := by
  obtain ⟨h1, h2, h3⟩ := run_keepsApproved reqs s
  refine ⟨h1, h2, h3, ?_⟩
  intro id c hc
  rcases mem_deleteFirst_or (fun c : ContactRequest => c._id == id) _ c hc with h | h
  · exact Or.inl h
  · exact Or.inr (by simpa using h)

/-- C17: after every sequence of requests from the empty store, make-premium
and approve among them, every `biodataId` has at most one pending
PremiumRequest; approved ones are not bounded: after `twoApprovals` two
approved PremiumRequests of `biodataId` 1 exist. -/
theorem one_pending_per_biodataId (reqs : List Request) (id : Int) :
    pendingCount id (run Store.empty reqs).premiumRequests ≤ 1 ∧
    ((run Store.empty twoApprovals).premiumRequests.filter
      (fun r => r.biodataId == 1 && r.status == ReqStatus.approved)).length = 2 := by
  refine ⟨run_pending_bound reqs Store.empty (fun _ => Nat.zero_le _) id, by decide⟩

/-- C18, refuted as stated: on the empty store two create-path executions for
the distinct new owners `a@x.com` and `b@x.com`, both with a valid body, run
under `racySchedule`.  Both read the same largest id; the save of the second
is refused by the unique index and answered 500, and afterwards only the
record of `a@x.com` is stored, so the two owners do not have two stored
records with different `biodataId`s. -/
theorem race_second_save_refused :
    (runRace Store.empty 0 1 bodyA bodyB racySchedule).first =
      CreateTask.done { status := 200, message := "Biodata Created Successfully",
                        biodata := some recordA, error := none } ∧
    (runRace Store.empty 0 1 bodyA bodyB racySchedule).second =
      CreateTask.done (biodataError StoreError.duplicateKey) ∧
    (runRace Store.empty 0 1 bodyA bodyB racySchedule).store.biodatas.map
      (fun b => (b.userEmail, b.biodataId)) = [("a@x.com", 1)] ∧
    ¬ (∃ ra ∈ (runRace Store.empty 0 1 bodyA bodyB racySchedule).store.biodatas,
        ∃ rb ∈ (runRace Store.empty 0 1 bodyA bodyB racySchedule).store.biodatas,
          ra.userEmail = "a@x.com" ∧ rb.userEmail = "b@x.com" ∧
          ra.biodataId ≠ rb.biodataId) := by
  decide

/-- C18, amended: from a store whose `biodataId`s are pairwise different, two
executions of the create path interleaved at their `await`s in any order leave
a store whose `biodataId`s are pairwise different, so two stored records of
different owners never share a `biodataId`; an execution that was scheduled
three times has finished.  For two bodies that pass schema validation (`dA`
and `dB` are the documents built from them with the id read from `s`), of two
different owners that own no Biodata, and stored `biodataId`s between -2^53
and 2^53 - 2: when both executions have read the largest id before either
saves, the earlier save stores its document and is answered 200, the later
save is refused by the unique index and answered 500 and its document is not
stored; when one execution saves before the other reads, both documents are
stored, the second with the next id, which is also what the two requests do
one after the other; and every schedule that gives each execution exactly its
three steps is of one of these kinds. -/
theorem race_keeps_biodataIds_distinct (s : Store) (oidA oidB : ObjectId)
    (bodyA bodyB : BiodataBody) (schedule : List Bool)
    (hIds : (s.biodatas.map (fun b => b.biodataId)).Nodup) :
    ((runRace s oidA oidB bodyA bodyB schedule).store.biodatas.map
      (fun b => b.biodataId)).Nodup ∧
    (∀ r1 ∈ (runRace s oidA oidB bodyA bodyB schedule).store.biodatas,
      ∀ r2 ∈ (runRace s oidA oidB bodyA bodyB schedule).store.biodatas,
        r1.userEmail ≠ r2.userEmail → r1.biodataId ≠ r2.biodataId) ∧
    (3 ≤ schedule.count true →
      (runRace s oidA oidB bodyA bodyB schedule).first.stepsLeft = 0) ∧
    (3 ≤ schedule.count false →
      (runRace s oidA oidB bodyA bodyB schedule).second.stepsLeft = 0) ∧
    (∀ dA dB : Biodata,
      (∀ b ∈ s.biodatas,
        -9007199254740992 ≤ b.biodataId ∧ b.biodataId < 9007199254740991) →
      newBiodata oidA (newBiodataId s.biodatas) bodyA = some dA → dA.valid = true →
      newBiodata oidB (newBiodataId s.biodatas) bodyB = some dB → dB.valid = true →
      (∀ b ∈ s.biodatas, b.userEmail ≠ dA.userEmail) →
      (∀ b ∈ s.biodatas, b.userEmail ≠ dB.userEmail) →
      dA.userEmail ≠ dB.userEmail →
      (∀ pre : List Bool, pre.count true = 2 → pre.count false = 2 →
        runRace s oidA oidB bodyA bodyB (pre ++ [true, false]) =
          { store := { s with biodatas := s.biodatas ++ [dA] },
            first := CreateTask.done
              { status := 200, message := "Biodata Created Successfully",
                biodata := some dA, error := none },
            second := CreateTask.done (biodataError StoreError.duplicateKey) } ∧
        runRace s oidA oidB bodyA bodyB (pre ++ [false, true]) =
          { store := { s with biodatas := s.biodatas ++ [dB] },
            first := CreateTask.done (biodataError StoreError.duplicateKey),
            second := CreateTask.done
              { status := 200, message := "Biodata Created Successfully",
                biodata := some dB, error := none } }) ∧
      (∀ pre : List Bool, pre.count true = 3 → pre.count false = 1 →
        runRace s oidA oidB bodyA bodyB (pre ++ [false, false]) =
          { store := { s with biodatas := s.biodatas ++
              [dA, { dB with biodataId := newBiodataId s.biodatas + 1 }] },
            first := CreateTask.done
              { status := 200, message := "Biodata Created Successfully",
                biodata := some dA, error := none },
            second := CreateTask.done
              { status := 200, message := "Biodata Created Successfully",
                biodata := some { dB with biodataId := newBiodataId s.biodatas + 1 },
                error := none } }) ∧
      (∀ pre : List Bool, pre.count true = 1 → pre.count false = 3 →
        runRace s oidA oidB bodyA bodyB (pre ++ [true, true]) =
          { store := { s with biodatas := s.biodatas ++
              [dB, { dA with biodataId := newBiodataId s.biodatas + 1 }] },
            first := CreateTask.done
              { status := 200, message := "Biodata Created Successfully",
                biodata := some { dA with biodataId := newBiodataId s.biodatas + 1 },
                error := none },
            second := CreateTask.done
              { status := 200, message := "Biodata Created Successfully",
                biodata := some dB, error := none } }) ∧
      (postBiodata s oidA bodyA =
          ({ s with biodatas := s.biodatas ++ [dA] },
            { status := 200, message := "Biodata Created Successfully",
              biodata := some dA, error := none }) ∧
        postBiodata { s with biodatas := s.biodatas ++ [dA] } oidB bodyB =
          ({ s with biodatas := s.biodatas ++
              [dA, { dB with biodataId := newBiodataId s.biodatas + 1 }] },
            { status := 200, message := "Biodata Created Successfully",
              biodata := some { dB with biodataId := newBiodataId s.biodatas + 1 },
              error := none })) ∧
      (schedule.count true = 3 → schedule.count false = 3 →
        ∃ pre : List Bool,
          (pre.count true = 2 ∧ pre.count false = 2 ∧
            (schedule = pre ++ [true, false] ∨ schedule = pre ++ [false, true])) ∨
          (pre.count true = 3 ∧ pre.count false = 1 ∧ schedule = pre ++ [false, false]) ∨
          (pre.count true = 1 ∧ pre.count false = 3 ∧ schedule = pre ++ [true, true]))) := by
  obtain ⟨h1, h2, h3⟩ := race_invariants oidA oidB bodyA bodyB schedule
    { store := s, first := CreateTask.start, second := CreateTask.start } hIds
  refine ⟨h1, ?_, ?_, ?_, ?_⟩
  · intro r1 hr1 r2 hr2 hne heq
    have := List.inj_on_of_nodup_map h1 hr1 hr2 heq
    exact hne (by rw [this])
  · intro hc
    have : (runRace s oidA oidB bodyA bodyB schedule).first.stepsLeft
        ≤ 3 - schedule.count true := h2
    omega
  · intro hc
    have : (runRace s oidA oidB bodyA bodyB schedule).second.stepsLeft
        ≤ 3 - schedule.count false := h3
    omega
  · intro dA dB hSafe hA hAv hB hBv hNewA hNewB hDistinct
    have h : FreshPair s oidA oidB bodyA bodyB dA dB :=
      ⟨hSafe, hA, hAv, hB, hBv, hNewA, hNewB, hDistinct⟩
    exact ⟨race_after_reads h, race_after_first_saved h, race_after_second_saved h,
      sequential_creates h, complete_schedule_cases schedule⟩

/-- C18 amended, at a concrete input: on the empty store, with the valid
bodies of `a@x.com` and `b@x.com`, the schedule in which both executions read
before either saves stores the record of `a@x.com` only and answers the second
request 500; the schedule in which the first execution saves before the second
reads stores both records, with `biodataId` 1 and 2. -/
theorem race_keeps_biodataIds_distinct_witness :
    (Store.empty.biodatas.map (fun b => b.biodataId)).Nodup ∧
    newBiodata 0 (newBiodataId Store.empty.biodatas) bodyA = some recordA ∧
    newBiodata 1 (newBiodataId Store.empty.biodatas) bodyB = some recordBFirst ∧
    recordA.valid = true ∧ recordBFirst.valid = true ∧
    ((runRace Store.empty 0 1 bodyA bodyB racySchedule).store.biodatas.map
      (fun b => b.biodataId)).Nodup ∧
    (runRace Store.empty 0 1 bodyA bodyB racySchedule).second.stepsLeft = 0 ∧
    runRace Store.empty 0 1 bodyA bodyB ([true, false, true, false] ++ [true, false]) =
      { store := { Store.empty with biodatas := Store.empty.biodatas ++ [recordA] },
        first := CreateTask.done
          { status := 200, message := "Biodata Created Successfully",
            biodata := some recordA, error := none },
        second := CreateTask.done (biodataError StoreError.duplicateKey) } ∧
    runRace Store.empty 0 1 bodyA bodyB ([true, true, true, false] ++ [false, false]) =
      { store := { Store.empty with biodatas := Store.empty.biodatas ++
          [recordA, { recordBFirst with
            biodataId := newBiodataId Store.empty.biodatas + 1 }] },
        first := CreateTask.done
          { status := 200, message := "Biodata Created Successfully",
            biodata := some recordA, error := none },
        second := CreateTask.done
          { status := 200, message := "Biodata Created Successfully",
            biodata := some { recordBFirst with
              biodataId := newBiodataId Store.empty.biodatas + 1 },
            error := none } } ∧
    ({ recordBFirst with biodataId := newBiodataId Store.empty.biodatas + 1 } :
      Biodata).biodataId = 2 := by
  have h := race_keeps_biodataIds_distinct Store.empty 0 1 bodyA bodyB racySchedule
    (by decide)
  have hf := h.2.2.2.2 recordA recordBFirst (by decide) (by decide) (by decide) (by decide)
    (by decide) (by decide) (by decide) (by decide)
  exact ⟨by decide, by decide, by decide, by decide, by decide, h.1, h.2.2.2.1 (by decide),
    (hf.1 [true, false, true, false] (by decide) (by decide)).1,
    hf.2.1 [true, true, true, false] (by decide) (by decide), by decide⟩

/-- C19: after any sequence of `POST /biodatas` upserts from the empty store
whose bodies carry no `biodataId`, the stored records belong to pairwise
different owners and their `biodataId`s, in the order of creation, are
1, 2, ..., n for the n records stored: pairwise different, each larger than
all that were assigned before it, none skipped. -/
theorem upserts_ids_are_one_to_n (ops : List (ObjectId × BiodataBody))
    (hNoId : ∀ op ∈ ops, op.2.biodataId = none) :
    (upserts Store.empty ops).biodatas.map (fun b => b.biodataId) =
      (List.range (upserts Store.empty ops).biodatas.length).map (fun i : Nat => (i : Int) + 1) ∧
    ((upserts Store.empty ops).biodatas.map (fun b => b.userEmail)).Nodup :=
  upserts_keep_consecutive ops Store.empty hNoId rfl List.nodup_nil (by decide)

/-- C19 at a concrete input: `a@x.com` creates, `b@x.com` creates, `a@x.com`
updates; two records with the ids 1 and 2 are stored. -/
theorem upserts_ids_are_one_to_n_witness :
    (∀ op ∈ threeUpserts, op.2.biodataId = none) ∧
    (upserts Store.empty threeUpserts).biodatas.map (fun b => (b.userEmail, b.biodataId)) =
      [("a@x.com", 1), ("b@x.com", 2)] ∧
    (upserts Store.empty threeUpserts).biodatas.map (fun b => b.biodataId) =
      (List.range (upserts Store.empty threeUpserts).biodatas.length).map
        (fun i : Nat => (i : Int) + 1) :=
  ⟨by decide, by decide, (upserts_ids_are_one_to_n threeUpserts (by decide)).1⟩

/-- C20: a caller who is no admin (the token of `a@x.com`, stored role `user`,
refused by `verifyAdmin`) makes a Biodata premium through `POST /biodatas`
alone, with no PremiumRequest in the store.  On the create path the record
takes `isPremium` from `bodyPremiumA`; on the update path the record that was
created with `isPremium = false` takes `isPremium`, `status`, `biodataId` and
`contactEmail` from `bodyEscalate`.  In general the update path copies these
four from the body when it carries them, and the create path copies
`isPremium` and `status` while it overrides `biodataId` and `contactEmail`. -/
theorem postBiodata_takes_isPremium_from_body :
    verifyAdmin storeSignedIn claimsA = Gate.reply (Reply.msg 403 "Forbidden: Admins only") ∧
    verifyToken acceptAll (some "Bearer t") = Gate.next claimsA ∧
    (biodataRoute acceptAll storeSignedIn (some "Bearer t") 0 bodyPremiumA).1.biodatas.map
      (fun b => (b.userEmail, b.isPremium)) = [("a@x.com", true)] ∧
    (biodataRoute acceptAll storeSignedIn (some "Bearer t") 0 bodyPremiumA).1.premiumRequests
      = [] ∧
    (biodataRoute acceptAll storeSignedIn (some "Bearer t") 0 bodyA).1.biodatas.map
      (fun b => (b.userEmail, b.biodataId, b.contactEmail, b.isPremium, b.status))
      = [("a@x.com", 1, "a@x.com", false, "active")] ∧
    (biodataRoute acceptAll
        (biodataRoute acceptAll storeSignedIn (some "Bearer t") 0 bodyA).1
        (some "Bearer t") 1 bodyEscalate).1.biodatas.map
      (fun b => (b.userEmail, b.biodataId, b.contactEmail, b.isPremium, b.status))
      = [("a@x.com", 9, "z@x.com", true, "vip")] ∧
    (biodataRoute acceptAll
        (biodataRoute acceptAll storeSignedIn (some "Bearer t") 0 bodyA).1
        (some "Bearer t") 1 bodyEscalate).1.premiumRequests = [] ∧
    (∀ (b : Biodata) (body : BiodataBody),
      (objectAssign b body).isPremium = body.isPremium.getD b.isPremium ∧
      (objectAssign b body).status = body.status.getD b.status ∧
      (objectAssign b body).biodataId = body.biodataId.getD b.biodataId ∧
      (objectAssign b body).contactEmail = body.contactEmail.getD b.contactEmail) ∧
    (∀ (oid : ObjectId) (newId : Int) (body : BiodataBody) (nb : Biodata),
      newBiodata oid newId body = some nb →
      nb.isPremium = body.isPremium.getD false ∧ nb.status = body.status.getD "active" ∧
      nb.biodataId = newId ∧ body.userEmail = some nb.contactEmail) := by
  refine ⟨by decide, by decide, by decide, by decide, by decide, by decide, by decide,
    fun _ _ => ⟨rfl, rfl, rfl, rfl⟩, ?_⟩
  intro oid newId body nb h
  obtain ⟨h1, h2, h3⟩ := newBiodata_fields oid newId body nb h
  refine ⟨?_, ?_, h1, by rw [h3]; exact h2⟩
  · unfold newBiodata at h
    split at h
    · simp only [Option.some.injEq] at h
      subst h
      rfl
    · simp at h
  · unfold newBiodata at h
    split at h
    · simp only [Option.some.injEq] at h
      subst h
      rfl
    · simp at h

/-- C21: behind `verifyToken` the handler of `POST /biodatas` does not read
`req.user`: for every store and body, two requests whose tokens verify, to
whatever claims, end in the same store and the same reply, namely those of
the handler on the store and the body alone.  So the record is selected by the
body's `userEmail` only: in `storeAB` the request with the token of `a@x.com`
and a body naming `b@x.com` is answered 200 and rewrites the occupation of
the Biodata of `b@x.com`, as the request with the token of `b@x.com` does. -/
theorem biodataRoute_ignores_caller (verify : String → Option Claims) (s : Store)
    (auth1 auth2 : Option String) (oid : ObjectId) (body : BiodataBody)
    (user1 user2 : Claims)
    (h1 : verifyToken verify auth1 = Gate.next user1)
    (h2 : verifyToken verify auth2 = Gate.next user2) :
    biodataRoute verify s auth1 oid body = biodataRoute verify s auth2 oid body ∧
    biodataRoute verify s auth1 oid body = postBiodata s oid body ∧
    (verifyToken verifyTwo (some "Bearer tokA") = Gate.next { email := some "a@x.com" } ∧
      storeAB.biodatas.map (fun b => (b.userEmail, b.occupation)) =
        [("a@x.com", "Engineer"), ("b@x.com", "Engineer")] ∧
      (biodataRoute verifyTwo storeAB (some "Bearer tokA") 2 bodyOverwriteB).2.status = 200 ∧
      (biodataRoute verifyTwo storeAB (some "Bearer tokA") 2 bodyOverwriteB).1.biodatas.map
        (fun b => (b.userEmail, b.occupation)) =
        [("a@x.com", "Engineer"), ("b@x.com", "Taken over")]) := by
  refine ⟨?_, ?_, by decide⟩
  · simp only [biodataRoute, h1, h2]
  · simp only [biodataRoute, h1]

/-- C21 at a concrete input: on `storeAB` the body naming `b@x.com` has the
same effect and reply with the token of `a@x.com` as with the token of
`b@x.com`. -/
theorem biodataRoute_ignores_caller_witness :
    verifyToken verifyTwo (some "Bearer tokA") = Gate.next { email := some "a@x.com" } ∧
    verifyToken verifyTwo (some "Bearer tokB") = Gate.next { email := some "b@x.com" } ∧
    biodataRoute verifyTwo storeAB (some "Bearer tokA") 2 bodyOverwriteB =
      biodataRoute verifyTwo storeAB (some "Bearer tokB") 2 bodyOverwriteB :=
  ⟨by decide, by decide,
    (biodataRoute_ignores_caller verifyTwo storeAB (some "Bearer tokA") (some "Bearer tokB") 2
      bodyOverwriteB { email := some "a@x.com" } { email := some "b@x.com" }
      (by decide) (by decide)).1⟩

end Soulmate
